import Mathlib

/-!
The twitch_exporter: event ingestion and state aggregation.

A shallow embedding of the webhook signature verifier
(`internal/eventsub/eventsub.go`), the subscription reconciler and the
EventSub self collector (`collector/eventsub_self_intelligence.go`), with the
properties of the design document stated and proved over the embedding.

Go strings and byte slices that take part in the digest are lists of bytes;
identifiers that are only compared (event types, URLs, statuses) are `String`.
-/

namespace TwitchExporter

/-! ## Bytes -/

/-- One byte of a Go string or byte slice. -/
abbrev Byte := Fin 256

/-- A Go `string` or `[]byte`. -/
abbrev Bytes := List Byte

/-- The bytes of an ASCII literal of the source. -/
def ascii (s : String) : Bytes :=
  s.toList.map (fun ch => Fin.ofNat ch.toNat)

/-! ## SHA-256 and HMAC (`crypto/sha256`, `crypto/hmac`), after FIPS 180-4 and RFC 2104 -/

namespace Sha256

/-- Words are naturals below `2^32`. -/
def mask32 (x : Nat) : Nat := x % 4294967296

def rotr (x n : Nat) : Nat := mask32 ((x >>> n) ||| (x <<< (32 - n)))

def ch (x y z : Nat) : Nat := (x &&& y) ^^^ ((4294967295 - x) &&& z)

def maj (x y z : Nat) : Nat := (x &&& y) ^^^ (x &&& z) ^^^ (y &&& z)

def bigSigma0 (x : Nat) : Nat := rotr x 2 ^^^ rotr x 13 ^^^ rotr x 22

def bigSigma1 (x : Nat) : Nat := rotr x 6 ^^^ rotr x 11 ^^^ rotr x 25

def smallSigma0 (x : Nat) : Nat := rotr x 7 ^^^ rotr x 18 ^^^ (x >>> 3)

def smallSigma1 (x : Nat) : Nat := rotr x 17 ^^^ rotr x 19 ^^^ (x >>> 10)

/-- The 64 round constants. -/
def roundConstants : List Nat :=
  [0x428a2f98, 0x71374491, 0xb5c0fbcf, 0xe9b5dba5, 0x3956c25b, 0x59f111f1, 0x923f82a4, 0xab1c5ed5,
   0xd807aa98, 0x12835b01, 0x243185be, 0x550c7dc3, 0x72be5d74, 0x80deb1fe, 0x9bdc06a7, 0xc19bf174,
   0xe49b69c1, 0xefbe4786, 0x0fc19dc6, 0x240ca1cc, 0x2de92c6f, 0x4a7484aa, 0x5cb0a9dc, 0x76f988da,
   0x983e5152, 0xa831c66d, 0xb00327c8, 0xbf597fc7, 0xc6e00bf3, 0xd5a79147, 0x06ca6351, 0x14292967,
   0x27b70a85, 0x2e1b2138, 0x4d2c6dfc, 0x53380d13, 0x650a7354, 0x766a0abb, 0x81c2c92e, 0x92722c85,
   0xa2bfe8a1, 0xa81a664b, 0xc24b8b70, 0xc76c51a3, 0xd192e819, 0xd6990624, 0xf40e3585, 0x106aa070,
   0x19a4c116, 0x1e376c08, 0x2748774c, 0x34b0bcb5, 0x391c0cb3, 0x4ed8aa4a, 0x5b9cca4f, 0x682e6ff3,
   0x748f82ee, 0x78a5636f, 0x84c87814, 0x8cc70208, 0x90befffa, 0xa4506ceb, 0xbef9a3f7, 0xc67178f2]

/-- The chaining value: eight 32-bit words. -/
structure State where
  a : Nat
  b : Nat
  c : Nat
  d : Nat
  e : Nat
  f : Nat
  g : Nat
  h : Nat
deriving DecidableEq, Repr

def initialState : State :=
  ⟨0x6a09e667, 0xbb67ae85, 0x3c6ef372, 0xa54ff53a, 0x510e527f, 0x9b05688c, 0x1f83d9ab, 0x5be0cd19⟩

/-- Big-endian words of a block, four bytes each. -/
def wordsOf : Bytes → List Nat
  | b0 :: b1 :: b2 :: b3 :: rest =>
      (b0.val * 16777216 + b1.val * 65536 + b2.val * 256 + b3.val) :: wordsOf rest
  | _ => []

/-- Extends the message schedule; `rev` holds the words so far, newest first. -/
def extendSchedule : Nat → List Nat → List Nat
  | 0, rev => rev
  | n + 1, rev =>
      let w := mask32 (smallSigma1 (rev.getD 1 0) + rev.getD 6 0
                        + smallSigma0 (rev.getD 14 0) + rev.getD 15 0)
      extendSchedule n (w :: rev)

/-- The 64 schedule words of a 64-byte block, in order. -/
def schedule (block : Bytes) : List Nat :=
  (extendSchedule 48 (wordsOf block).reverse).reverse

def round (s : State) (kw : Nat × Nat) : State :=
  let t1 := s.h + bigSigma1 s.e + ch s.e s.f s.g + kw.1 + kw.2
  let t2 := bigSigma0 s.a + maj s.a s.b s.c
  ⟨mask32 (t1 + t2), s.a, s.b, s.c, mask32 (s.d + t1), s.e, s.f, s.g⟩

def compress (s : State) (block : Bytes) : State :=
  let r := (roundConstants.zip (schedule block)).foldl round s
  ⟨mask32 (s.a + r.a), mask32 (s.b + r.b), mask32 (s.c + r.c), mask32 (s.d + r.d),
   mask32 (s.e + r.e), mask32 (s.f + r.f), mask32 (s.g + r.g), mask32 (s.h + r.h)⟩

/-- Big-endian bytes of `x`, `n` of them. -/
def bigEndian : Nat → Nat → Bytes
  | 0, _ => []
  | n + 1, x => Fin.ofNat (x / 256 ^ n) :: bigEndian n x

/-- Message padding: `0x80`, zeros up to 56 mod 64, then the bit length on 8 bytes. -/
def pad (msg : Bytes) : Bytes :=
  msg ++ (128 : Byte) :: List.replicate ((119 - msg.length % 64) % 64) (0 : Byte)
    ++ bigEndian 8 (8 * msg.length)

/-- Folds the compression function over the 64-byte blocks of `data`. -/
def absorb : Nat → State → Bytes → State
  | 0, s, _ => s
  | n + 1, s, data => absorb n (compress s (data.take 64)) (data.drop 64)

def digestBytes (s : State) : Bytes :=
  bigEndian 4 s.a ++ bigEndian 4 s.b ++ bigEndian 4 s.c ++ bigEndian 4 s.d
    ++ bigEndian 4 s.e ++ bigEndian 4 s.f ++ bigEndian 4 s.g ++ bigEndian 4 s.h

/-- The digest `sha256.Sum256(msg)`, 32 bytes. -/
def sum (msg : Bytes) : Bytes :=
  let p := pad msg
  digestBytes (absorb (p.length / 64) initialState p)

end Sha256

/-- The digest `hmac.New(sha256.New, key)` yields after writing `msg`. -/
def hmacSha256 (key msg : Bytes) : Bytes :=
  let k0 := if key.length > 64 then Sha256.sum key else key
  let k := k0 ++ List.replicate (64 - k0.length) (0 : Byte)
  let ipad := k.map (fun b => Fin.ofNat (b.val ^^^ 0x36))
  let opad := k.map (fun b => Fin.ofNat (b.val ^^^ 0x5c))
  Sha256.sum (opad ++ Sha256.sum (ipad ++ msg))

/-! ## Hexadecimal (`encoding/hex`) -/

/-- One digit of `hex.EncodeToString`'s table `0123456789abcdef`. -/
def hexDigit (n : Nat) : Byte :=
  if n < 10 then Fin.ofNat (48 + n) else Fin.ofNat (87 + n)

/-- The lower-case encoding `hex.EncodeToString`. -/
def hexEncodeToString : Bytes → Bytes
  | [] => []
  | b :: rest => hexDigit (b.val / 16) :: hexDigit (b.val % 16) :: hexEncodeToString rest

/-- The value of a hexadecimal digit, in either letter case (`reverseHexTable`). -/
def fromHexChar (c : Byte) : Option Nat :=
  if 48 ≤ c.val ∧ c.val ≤ 57 then some (c.val - 48)
  else if 97 ≤ c.val ∧ c.val ≤ 102 then some (c.val - 87)
  else if 65 ≤ c.val ∧ c.val ≤ 70 then some (c.val - 55)
  else none

/-- The decoder `hex.DecodeString`: `none` on a byte that is no hexadecimal digit
and on an odd length. -/
def hexDecodeString : Bytes → Option Bytes
  | [] => some []
  | [_] => none
  | p :: q :: rest =>
      match fromHexChar p, fromHexChar q with
      | some a, some b =>
          match hexDecodeString rest with
          | some out => some (Fin.ofNat (a * 16 + b) :: out)
          | none => none
      | _, _ => none

/-- The comparison `subtle.ConstantTimeCompare` behind `hmac.Equal`: 1 when the
slices are equal, 0 otherwise (0 at once when the lengths differ). -/
def constantTimeCompare (x y : Bytes) : Nat :=
  if x.length ≠ y.length then 0
  else
    let v := (x.zip y).foldl (fun acc p => acc ||| (p.1.val ^^^ p.2.val)) 0
    if v = 0 then 1 else 0

/-- The test `hmac.Equal`. -/
def hmacEqual (x y : Bytes) : Bool := constantTimeCompare x y = 1

/-! ## The upstream subscription registry (`helix`) -/

/-- Go errors: `errors.New` and the two-argument `errors.Join`. -/
inductive GoError where
  | new (msg : String)
  | join (first second : GoError)
deriving DecidableEq, Repr

deriving instance DecidableEq for Except

/-- The struct `helix.EventSubCondition`; Go compares it field by field. -/
structure EventSubCondition where
  BroadcasterUserID : String
  FromBroadcasterUserID : String
  ModeratorUserID : String
  ToBroadcasterUserID : String
  RewardID : String
  ClientID : String
  ExtensionClientID : String
  UserID : String
deriving DecidableEq, Repr

/-- The struct `helix.EventSubTransport`. -/
structure EventSubTransport where
  Method : String
  Callback : String
  Secret : Bytes
deriving DecidableEq, Repr

/-- The struct `helix.EventSubSubscription`, with the fields the exporter reads
or writes. -/
structure EventSubSubscription where
  ID : String
  Type_ : String
  Version : String
  Status : String
  Condition : EventSubCondition
  Transport : EventSubTransport
deriving DecidableEq, Repr

/-- The struct `helix.EventSubSubscriptionsParams`. -/
structure EventSubSubscriptionsParams where
  Status : String
  Type_ : String
  UserID : String
deriving DecidableEq, Repr

/-- The struct `helix.EventSubSubscriptionsResponse`: the common status code and
error message, and `Data.EventSubSubscriptions`. The field `Type` of the Go
structs is `Type_` here. -/
structure EventSubSubscriptionsResponse where
  StatusCode : Nat
  ErrorMessage : String
  EventSubSubscriptions : List EventSubSubscription
deriving DecidableEq, Repr

/-- A `*helix.Client` as the exporter uses it, over the state `σ` of the upstream
registry: listing reads the registry, creating may change it. -/
structure HelixClient (σ : Type) where
  GetEventSubSubscriptions :
    σ → EventSubSubscriptionsParams → Except GoError EventSubSubscriptionsResponse
  CreateEventSubSubscription :
    σ → EventSubSubscription → σ × Except GoError EventSubSubscriptionsResponse

/-! ## The webhook client (`internal/eventsub/eventsub.go`) -/

/-- The Go `http.Header`: canonical key to values. -/
abbrev Header := List (String × List Bytes)

/-- The lookup `Header.Get` on a canonical key: the first value, empty when absent. -/
def Header.Get (h : Header) (key : String) : Bytes :=
  match h.lookup key with
  | some (v :: _) => v
  | _ => []

/-- The slice expression `s[lo:hi]`, which panics out of range. -/
def goSlice (s : Bytes) (lo hi : Nat) : Except String Bytes :=
  if lo ≤ hi ∧ hi ≤ s.length then .ok ((s.take hi).drop lo)
  else .error "slice bounds out of range"

/-- The struct `Client`. A nil `appClient` or `userClient` is `none`; `cl` and
`onSignatureFailure` say whether the downstream webhook client and the failure
hook are non-nil. -/
structure Client (σ : Type) where
  webhookURL : String
  webhookSecret : Bytes
  appClient : Option (HelixClient σ)
  userClient : Option (HelixClient σ)
  cl : Bool
  onSignatureFailure : Bool

variable {σ : Type}

/-- The setter `SetSignatureFailureHook` with a non-nil hook. -/
def SetSignatureFailureHook (c : Client σ) : Client σ :=
  { c with onSignatureFailure := true }

/-- The guarded call `if c.onSignatureFailure != nil { c.onSignatureFailure(reason) }`:
the hook invocations it makes. -/
def Client.signalFailure (c : Client σ) (reason : String) : List String :=
  if c.onSignatureFailure then [reason] else []

/-- The signature prefix `const prefix = "sha256="`. -/
def sigPrefix : Bytes := ascii "sha256="

/-- The method `Client.verifySignature`: the verdict and the hook invocations made,
or the panic raised. -/
def verifySignature (c : Client σ) (headers : Header) (body : Bytes) :
    Except String (Bool × List String) :=
  let msgID := headers.Get "Twitch-Eventsub-Message-Id"
  let timestamp := headers.Get "Twitch-Eventsub-Message-Timestamp"
  let sig := headers.Get "Twitch-Eventsub-Message-Signature"
  if msgID = [] ∨ timestamp = [] ∨ sig = [] then
    .ok (false, c.signalFailure "missing_headers")
  else if sig.length ≤ sigPrefix.length then
    .ok (false, c.signalFailure "bad_signature")
  else
    match goSlice sig 0 sigPrefix.length with
    | .error e => .error e
    | .ok head =>
      if head ≠ sigPrefix then
        .ok (false, c.signalFailure "bad_signature")
      else
        match goSlice sig sigPrefix.length sig.length with
        | .error e => .error e
        | .ok digits =>
          match hexDecodeString digits with
          | none => .ok (false, c.signalFailure "bad_signature")
          | some provided =>
            let expected := hmacSha256 c.webhookSecret (msgID ++ timestamp ++ body)
            if !hmacEqual provided expected then
              .ok (false, c.signalFailure "bad_signature")
            else .ok (true, [])

/-- An inbound request: its headers and what `io.ReadAll(r.Body)` returns. -/
structure Request where
  Header : Header
  Body : Except GoError Bytes

/-- What the webhook handler does, in order. -/
inductive HandlerEffect where
  | logWarn
  | writeHeader (status : Nat)
  | signatureFailure (reason : String)
  | downstream (headers : Header) (body : Bytes)
deriving DecidableEq, Repr

/-- The handler `Client.Handler`: the effects of one request, or the panic raised.
`downstream h b` is the call `c.cl.Handler(w, r)` with `r.Body` replaying `b`. -/
def Handler (c : Client σ) (r : Request) : Except String (List HandlerEffect) :=
  match r.Body with
  | .error _ => .ok [.logWarn, .writeHeader 400]
  | .ok body =>
    match verifySignature c r.Header body with
    | .error e => .error e
    | .ok (verified, hooks) =>
      if !verified then
        .ok (hooks.map .signatureFailure ++ [.writeHeader 403])
      else if !c.cl then .error "nil pointer dereference"
      else .ok (hooks.map .signatureFailure ++ [.downstream r.Header body])

/-- The error `ErrEventsubClientNotSet`. -/
def ErrEventsubClientNotSet : GoError := .new "eventsub client not set"

/-- What one `subscribeWithClient` call did: the error returned (`none` for nil),
the registry afterwards, and the listing and create requests it sent. -/
structure SubscribeOutcome (σ : Type) where
  err : Option GoError
  registry : σ
  listed : List EventSubSubscriptionsParams
  created : List EventSubSubscription

/-- The loop of `subscribeWithClient` over the listed subscriptions: whether it
returns nil on a subscription of this type, callback and condition that is enabled
or pending verification. -/
def alreadySubscribed (webhookURL eventType : String) (condition : EventSubCondition) :
    List EventSubSubscription → Bool
  | [] => false
  | v :: rest =>
    if v.Type_ ≠ eventType then alreadySubscribed webhookURL eventType condition rest
    else if v.Transport.Callback ≠ webhookURL then
      alreadySubscribed webhookURL eventType condition rest
    else if v.Condition ≠ condition then
      alreadySubscribed webhookURL eventType condition rest
    else if v.Status = "enabled" ∨ v.Status = "webhook_callback_verification_pending" then
      true
    else alreadySubscribed webhookURL eventType condition rest

/-- The user id the listing is filtered by. -/
def filterUserID (condition : EventSubCondition) : String :=
  if condition.BroadcasterUserID = "" then condition.UserID
  else condition.BroadcasterUserID

/-- The create request `subscribeWithClient` sends. -/
def createRequest (c : Client σ) (eventType version : String)
    (condition : EventSubCondition) : EventSubSubscription :=
  { ID := "", Type_ := eventType,
    Version := if version = "" then "1" else version,
    Status := "", Condition := condition,
    Transport := { Method := "webhook", Callback := c.webhookURL, Secret := c.webhookSecret } }

/-- The method `Client.subscribeWithClient` on the registry state `s`. -/
def subscribeWithClient (c : Client σ) (client : Option (HelixClient σ)) (s : σ)
    (eventType version : String) (condition : EventSubCondition) : SubscribeOutcome σ :=
  if !c.cl then ⟨some ErrEventsubClientNotSet, s, [], []⟩
  else
    match client with
    | none => ⟨some (.new "helix client not configured"), s, [], []⟩
    | some client =>
      let params : EventSubSubscriptionsParams :=
        { Status := "", Type_ := eventType, UserID := filterUserID condition }
      match client.GetEventSubSubscriptions s params with
      | .error e => ⟨some e, s, [params], []⟩
      | .ok subscriptions =>
        if alreadySubscribed c.webhookURL eventType condition
            subscriptions.EventSubSubscriptions then
          ⟨none, s, [params], []⟩
        else
          let req := createRequest c eventType version condition
          match client.CreateEventSubSubscription s req with
          | (s', .error e) => ⟨some e, s', [params], [req]⟩
          | (s', .ok res) =>
            if res.StatusCode ≠ 202 then
              ⟨some (.join (.new "failed to create subscription") (.new res.ErrorMessage)),
                s', [params], [req]⟩
            else ⟨none, s', [params], [req]⟩

/-- The method `Client.SubscribeApp`. -/
def SubscribeApp (c : Client σ) (s : σ) (eventType version : String)
    (condition : EventSubCondition) : SubscribeOutcome σ :=
  subscribeWithClient c c.appClient s eventType version condition

/-- The method `Client.SubscribeUser`. -/
def SubscribeUser (c : Client σ) (s : σ) (eventType version : String)
    (condition : EventSubCondition) : SubscribeOutcome σ :=
  match c.userClient with
  | none => ⟨some (.new "user client not configured"), s, [], []⟩
  | some client => subscribeWithClient c (some client) s eventType version condition

/-- The method `Client.ListSubscriptions`. -/
def ListSubscriptions (c : Client σ) (s : σ) : Except GoError (List EventSubSubscription) :=
  match c.appClient with
  | none => .error (.new "app client not configured")
  | some client =>
    match client.GetEventSubSubscriptions s { Status := "", Type_ := "", UserID := "" } with
    | .error e => .error e
    | .ok res => .ok res.EventSubSubscriptions

/-! ## Specification vocabulary for the verifier -/

/-- Folds the upper-case hexadecimal letters `A`..`F` to lower case and leaves
every other byte alone. -/
def lowerHex (c : Byte) : Byte :=
  if 65 ≤ c.val ∧ c.val ≤ 70 then Fin.ofNat (c.val + 32) else c

/-- The verdict of `verifySignature`, without the hook invocations. -/
def verdict (c : Client σ) (headers : Header) (body : Bytes) : Except String Bool :=
  (verifySignature c headers body).map Prod.fst

/-- Whether a subscription is of this type, callback and condition and is enabled
or pending verification. -/
def SatisfiedBy (webhookURL eventType : String) (condition : EventSubCondition)
    (v : EventSubSubscription) : Prop :=
  v.Type_ = eventType ∧ v.Transport.Callback = webhookURL ∧ v.Condition = condition
    ∧ (v.Status = "enabled" ∨ v.Status = "webhook_callback_verification_pending")

/-- A registry reflects what it accepted: once a create request is answered with
status 202, the listing for its type and filter user id succeeds and holds a
subscription of the request's type, callback and condition that is enabled or
pending verification. -/
def Reflects (client : HelixClient σ) : Prop :=
  ∀ (s : σ) (req : EventSubSubscription) (res : EventSubSubscriptionsResponse),
    (client.CreateEventSubSubscription s req).2 = .ok res → res.StatusCode = 202 →
    ∃ listing,
      client.GetEventSubSubscriptions (client.CreateEventSubSubscription s req).1
        { Status := "", Type_ := req.Type_, UserID := filterUserID req.Condition } = .ok listing
      ∧ ∃ v ∈ listing.EventSubSubscriptions,
          SatisfiedBy req.Transport.Callback req.Type_ req.Condition v

/-! ## Capabilities (`collector/capabilities.go`) -/

/-- The struct `Capabilities`; the set `UserScopes` is the list of its members. -/
structure Capabilities where
  AppTokenPresent : Bool
  UserTokenPresent : Bool
  UserScopes : List String
deriving DecidableEq, Repr

/-- The snapshot `SetCapabilities` publishes. -/
def SetCapabilities (appTokenPresent userTokenPresent : Bool) (userScopes : List String) :
    Capabilities :=
  { AppTokenPresent := appTokenPresent, UserTokenPresent := userTokenPresent,
    UserScopes := userScopes }

/-- The function `HasUserScope` on the published snapshot `caps`. -/
def HasUserScope (caps : Capabilities) (scope : String) : Bool :=
  if !caps.UserTokenPresent then false
  else caps.UserScopes.contains scope

/-! ## Go maps with string keys -/

/-- The assignment `m[k] = v`: replaces the entry of `k` or adds one. -/
def mapStore {β : Type} : List (String × β) → String → β → List (String × β)
  | [], k, v => [(k, v)]
  | (k', v') :: rest, k, v =>
    if k' = k then (k, v) :: rest else (k', v') :: mapStore rest k v

/-- Counters are `float64` in the source; they are rationals here. Increments by one
and the other sums are exact, which agrees with `float64` on integers below `2^53`;
the bits sum, whose amounts come from the payload, is rounded as `float64` is
(`roundFloat64`). -/
abbrev Float64 := ℚ

/-! ## The `float64` values of the bits counter -/

/-- The number of binary digits of `n`, by at most `fuel` halvings. -/
def bitLengthAux : Nat → Nat → Nat
  | 0, _ => 0
  | fuel + 1, n => if n = 0 then 0 else bitLengthAux fuel (n / 2) + 1

/-- The number of binary digits of `n`. -/
def bitLength (n : Nat) : Nat := bitLengthAux n n

/-- The binary exponent of a rational `q` other than 0: the `e` with
`2 ^ e ≤ |q| < 2 ^ (e + 1)`. -/
def binaryExponent (q : ℚ) : Int :=
  let e : Int := (bitLength q.num.natAbs : Int) - (bitLength q.den : Int)
  if (2 : ℚ) ^ e ≤ |q| then e else e - 1

/-- Rounding to the nearest integer, a tie to the even one. -/
def roundHalfEven (t : ℚ) : Int :=
  if t - ⌊t⌋ < 1 / 2 then ⌊t⌋
  else if 1 / 2 < t - ⌊t⌋ then ⌊t⌋ + 1
  else if ⌊t⌋ % 2 = 0 then ⌊t⌋ else ⌊t⌋ + 1

/-- The `float64` nearest to the rational `q` (a tie to the even significand): `q` is
rounded to a multiple of `2 ^ (e - 52)`, for its binary exponent `e`. The range of the
exponent is not modelled: no overflow to infinity from `2 ^ 1024` on and no subnormal
numbers below `2 ^ (-1022)`. -/
def roundFloat64 (q : ℚ) : Float64 :=
  if q = 0 then 0
  else
    (roundHalfEven (q / (2 : ℚ) ^ (binaryExponent q - 52)) : ℚ)
      * (2 : ℚ) ^ (binaryExponent q - 52)

/-- The rational `x` is a `float64` value. -/
def IsFloat64 (x : ℚ) : Prop := roundFloat64 x = x

/-- The read `m[k]` of a `map[string]float64`: zero when `k` is absent. -/
def floatAt (m : List (String × Float64)) (k : String) : Float64 :=
  (m.lookup k).getD 0

/-- The read `m[k]` of a `map[string]bool`: false when `k` is absent. -/
def boolAt (m : List (String × Bool)) (k : String) : Bool :=
  (m.lookup k).getD false

/-- The statement `m[k]++`. -/
def mapIncr (m : List (String × Float64)) (k : String) : List (String × Float64) :=
  mapStore m k (floatAt m k + 1)

/-! ## Reward grouping (`collector/reward_grouping.go`) -/

/-- The predicate `unicode.IsSpace`. -/
def isSpace (ch : Char) : Bool :=
  let n := ch.toNat
  (9 ≤ n ∧ n ≤ 13) ∨ n = 32 ∨ n = 133 ∨ n = 160 ∨ n = 5760 ∨ (8192 ≤ n ∧ n ≤ 8202)
    ∨ n = 8232 ∨ n = 8233 ∨ n = 8239 ∨ n = 8287 ∨ n = 12288

/-- The function `strings.TrimSpace`. -/
def TrimSpace (s : String) : String :=
  String.mk ((s.toList.dropWhile isSpace).reverse.dropWhile isSpace).reverse

/-- The struct `rewardGroupConfig`. -/
structure rewardGroupConfig where
  defaultGroup : String
  unknownGroup : String
  maxGroups : Int
  byID : List (String × String)
  byTitle : List (String × String)
deriving DecidableEq, Repr

/-- The initial value of the package variable `rewardGroups`. -/
def rewardGroups : rewardGroupConfig :=
  { defaultGroup := "default", unknownGroup := "other", maxGroups := 20,
    byID := [], byTitle := [] }

/-- The function `normalizeTitle`; `toLower` is `strings.ToLower`. -/
def normalizeTitle (toLower : String → String) (v : String) : String :=
  toLower (TrimSpace v)

/-- The function `RewardGroupFor` under the installed configuration `cfg`. -/
def RewardGroupFor (toLower : String → String) (cfg : rewardGroupConfig)
    (rewardID rewardTitle : String) : String :=
  let rewardID := TrimSpace rewardID
  match (if rewardID ≠ "" then cfg.byID.lookup rewardID else none) with
  | some g => g
  | none =>
    let title := normalizeTitle toLower rewardTitle
    match (if title ≠ "" then cfg.byTitle.lookup title else none) with
    | some g => g
    | none =>
      if rewardID = "" ∧ title = "" then cfg.defaultGroup
      else cfg.unknownGroup

/-! ## The EventSub self collector (`collector/eventsub_self_intelligence.go`) -/

/-- The struct `eventsubSelfState`. -/
structure eventsubSelfState where
  notifications : List (String × Float64)
  follows : Float64
  subsByKind : List (String × Float64)
  giftSubs : Float64
  bitsEvents : Float64
  bitsTotal : Float64
  pointsByGroup : List (String × Float64)
  raidsIn : Float64
  raidsOut : Float64
  adsBreaks : Float64
  adsMinutes : Float64
  hypeTrainByStage : List (String × Float64)
  goalsByStage : List (String × Float64)
  pollsByStage : List (String × Float64)
  predictionsByStage : List (String × Float64)
  charityByStage : List (String × Float64)
  moderationByAction : List (String × Float64)
deriving DecidableEq, Repr

/-- The state `NewEventSubSelfCollector` starts from, the reward group of the
empty reward seeded. -/
def newEventsubSelfState (toLower : String → String) (cfg : rewardGroupConfig) :
    eventsubSelfState :=
  { notifications := [],
    follows := 0,
    subsByKind := [("new", 0), ("resub", 0)],
    giftSubs := 0,
    bitsEvents := 0,
    bitsTotal := 0,
    pointsByGroup := mapStore [] (RewardGroupFor toLower cfg "" "") 0,
    raidsIn := 0,
    raidsOut := 0,
    adsBreaks := 0,
    adsMinutes := 0,
    hypeTrainByStage := [("begin", 0), ("progress", 0), ("end", 0)],
    goalsByStage := [("begin", 0), ("progress", 0), ("end", 0)],
    pollsByStage := [("begin", 0), ("progress", 0), ("end", 0)],
    predictionsByStage := [("begin", 0), ("progress", 0), ("end", 0)],
    charityByStage := [("begin", 0), ("progress", 0), ("end", 0)],
    moderationByAction := [("timeout", 0), ("ban", 0), ("unban", 0), ("delete", 0),
      ("shield_on", 0), ("shield_off", 0), ("warn", 0), ("other", 0)] }

/-- The fields of `eventsubSelfCollector` that the subscription bookkeeping and the
handlers use. `eventsub` is non-nil: the constructor returns a no-op collector
otherwise. -/
structure eventsubSelfCollector (σ : Type) where
  eventsub : Client σ
  selfLogin : String
  selfUserID : String
  desiredTypes : List (String × Bool)
  st : eventsubSelfState

/-- What lies outside the collector: the upstream registry, the calls of
`IncCollectorDisabled` (collector, reason), the `SubscribeUser` calls made and
the event types warned about, each in order. -/
structure Process (σ : Type) where
  registry : σ
  collectorDisabled : List (String × String)
  subscribeUserCalls : List (String × String × EventSubCondition)
  warned : List String

/-- The method `desire`. -/
def desire (c : eventsubSelfCollector σ) (eventType : String) : eventsubSelfCollector σ :=
  { c with desiredTypes := mapStore c.desiredTypes eventType true }

/-- The method `subscribeUserIfScope` under the capability snapshot `caps`. -/
def subscribeUserIfScope (caps : Capabilities) (c : eventsubSelfCollector σ) (p : Process σ)
    (eventType version : String) (cond : EventSubCondition) (requiredScope : String) :
    eventsubSelfCollector σ × Process σ :=
  if !HasUserScope caps requiredScope then
    (c, { p with collectorDisabled := p.collectorDisabled ++ [("eventsub_self", "missing_scope")] })
  else
    let c := desire c eventType
    let out := SubscribeUser c.eventsub p.registry eventType version cond
    (c, { p with
            registry := out.registry,
            subscribeUserCalls := p.subscribeUserCalls ++ [(eventType, version, cond)],
            warned := if out.err.isSome then p.warned ++ [eventType] else p.warned })

/-- The metric descriptors of the collector, by field name. -/
inductive Desc where
  | notificationsTotal
  | subDesired
  | subActive
  | followsTotal
  | subscriptionsTotal
  | giftSubscriptionsTotal
  | bitsTotal
  | bitsEventsTotal
  | pointsRedemptionsTotal
  | raidsInTotal
  | raidsOutTotal
  | adsAdBreaksTotal
  | adsMinutesTotal
  | hypeTrainEventsTotal
  | goalsEventsTotal
  | pollsEventsTotal
  | predictionsEventsTotal
  | charityEventsTotal
  | moderationActionsTotal
deriving DecidableEq, Repr

/-- One sample sent on the metrics channel: `desc.mustNewConstMetric(value, labels...)`. -/
structure Metric where
  desc : Desc
  value : Float64
  labels : List String
deriving DecidableEq, Repr

/-- The map `active` that `Update` builds from the listed subscriptions. -/
def activeTypes (subs : List EventSubSubscription) : List (String × Bool) :=
  subs.foldl
    (fun active s =>
      if s.Status = "enabled" ∨ s.Status = "webhook_callback_verification_pending" then
        mapStore active s.Type_ true
      else active)
    []

/-- The samples of one float map, one per entry. -/
def emitMap (desc : Desc) (channel : String) (m : List (String × Float64)) : List Metric :=
  m.map (fun kv => { desc := desc, value := kv.2, labels := [channel, kv.1] })

/-- The method `eventsubSelfCollector.Update` against the registry state `s`: the
samples it sends, maps ranged over in entry order. -/
def Update (c : eventsubSelfCollector σ) (s : σ) : List Metric :=
  let channel := c.selfLogin
  let role := "self"
  let desired := c.desiredTypes.map
    (fun kv => { desc := .subDesired, value := if kv.2 then 1 else 0, labels := [kv.1] })
  let active : List (String × Bool) :=
    match ListSubscriptions c.eventsub s with
    | .ok subs => activeTypes subs
    | .error _ => []
  let activeSamples := c.desiredTypes.map
    (fun kv => { desc := .subActive, value := if boolAt active kv.1 then 1 else 0,
                 labels := [kv.1] })
  let st := c.st
  desired ++ activeSamples
    ++ st.notifications.map
        (fun kv => { desc := .notificationsTotal, value := kv.2, labels := [channel, role, kv.1] })
    ++ [{ desc := .followsTotal, value := st.follows, labels := [channel] },
        { desc := .giftSubscriptionsTotal, value := st.giftSubs, labels := [channel] }]
    ++ emitMap .subscriptionsTotal channel st.subsByKind
    ++ [{ desc := .bitsTotal, value := st.bitsTotal, labels := [channel] },
        { desc := .bitsEventsTotal, value := st.bitsEvents, labels := [channel] }]
    ++ emitMap .pointsRedemptionsTotal channel st.pointsByGroup
    ++ [{ desc := .raidsInTotal, value := st.raidsIn, labels := [channel] },
        { desc := .raidsOutTotal, value := st.raidsOut, labels := [channel] },
        { desc := .adsAdBreaksTotal, value := st.adsBreaks, labels := [channel] },
        { desc := .adsMinutesTotal, value := st.adsMinutes, labels := [channel] }]
    ++ emitMap .hypeTrainEventsTotal channel st.hypeTrainByStage
    ++ emitMap .goalsEventsTotal channel st.goalsByStage
    ++ emitMap .pollsEventsTotal channel st.pollsByStage
    ++ emitMap .predictionsEventsTotal channel st.predictionsByStage
    ++ emitMap .charityEventsTotal channel st.charityByStage
    ++ emitMap .moderationActionsTotal channel st.moderationByAction

/-- What `json.Unmarshal(raw, &ev)` leaves in `ev`, and whether it returned an error. -/
structure Decoded (α : Type) where
  ev : α
  failed : Bool

/-- The library calls of the handlers: `strings.ToLower`, and `json.Unmarshal` into
each of the event structs (their fields, in declaration order). -/
structure Runtime where
  toLower : String → String
  unmarshalIsGift : Bytes → Decoded Bool
  unmarshalBits : Bytes → Decoded Int
  unmarshalReward : Bytes → Decoded (String × String)
  unmarshalRaid : Bytes → Decoded (String × String)
  unmarshalDurationSeconds : Bytes → Decoded Int
  unmarshalIsPermanent : Bytes → Decoded Bool

/-- The method `incNotification`, on the state. -/
def incNotification (st : eventsubSelfState) (eventType : String) : eventsubSelfState :=
  { st with notifications := mapIncr st.notifications eventType }

/-- The five stage maps a `stageCounter` can point to. -/
inductive StageFamily where
  | hypeTrain
  | goals
  | polls
  | predictions
  | charity
deriving DecidableEq, Repr

/-- The statement `(*stageMap)[stage]++`. -/
def bumpStage (family : StageFamily) (stage : String) (st : eventsubSelfState) :
    eventsubSelfState :=
  match family with
  | .hypeTrain => { st with hypeTrainByStage := mapIncr st.hypeTrainByStage stage }
  | .goals => { st with goalsByStage := mapIncr st.goalsByStage stage }
  | .polls => { st with pollsByStage := mapIncr st.pollsByStage stage }
  | .predictions => { st with predictionsByStage := mapIncr st.predictionsByStage stage }
  | .charity => { st with charityByStage := mapIncr st.charityByStage stage }

/-- A handler: the state after one notification with the given raw payload. -/
abbrev EventHandler := eventsubSelfState → Bytes → eventsubSelfState

/-- The closure `stageCounter`. -/
def stageCounter (eventType : String) (family : StageFamily) (stage : String) : EventHandler :=
  fun st _ => bumpStage family stage (incNotification st eventType)

/-- The statement `c.st.moderationByAction[action]++`. -/
def bumpModeration (action : String) (st : eventsubSelfState) : eventsubSelfState :=
  { st with moderationByAction := mapIncr st.moderationByAction action }

/-- The handler of `channel.subscribe`. -/
def onSubscribe (rt : Runtime) : EventHandler := fun st raw =>
  let st := incNotification st "channel.subscribe"
  let ev := (rt.unmarshalIsGift raw).ev
  if ev then { st with giftSubs := st.giftSubs + 1 }
  else { st with subsByKind := mapIncr st.subsByKind "new" }

/-- The handler of `channel.cheer`. In `bitsTotal += float64(ev.Bits)` the conversion
of the amount and the sum are each rounded to the nearest `float64`. -/
def onCheer (rt : Runtime) : EventHandler := fun st raw =>
  let st := incNotification st "channel.cheer"
  let d := rt.unmarshalBits raw
  if d.failed then st
  else
    { st with bitsEvents := st.bitsEvents + 1,
              bitsTotal := roundFloat64 (st.bitsTotal + roundFloat64 (d.ev : ℚ)) }

/-- The handler of `channel.channel_points_custom_reward_redemption.add`. -/
def onRedemption (rt : Runtime) (cfg : rewardGroupConfig) : EventHandler := fun st raw =>
  let st := incNotification st "channel.channel_points_custom_reward_redemption.add"
  let d := rt.unmarshalReward raw
  if d.failed then st
  else
    let group := RewardGroupFor rt.toLower cfg d.ev.1 d.ev.2
    { st with pointsByGroup := mapIncr st.pointsByGroup group }

/-- The handler of `channel.raid`; the decoded pair is (from, to). -/
def onRaid (rt : Runtime) (selfUserID : String) : EventHandler := fun st raw =>
  let st := incNotification st "channel.raid"
  let d := rt.unmarshalRaid raw
  if d.failed then st
  else if d.ev.2 = selfUserID then { st with raidsIn := st.raidsIn + 1 }
  else if d.ev.1 = selfUserID then { st with raidsOut := st.raidsOut + 1 }
  else st

/-- The handler of `channel.ad_break.begin`. -/
def onAdBreakBegin (rt : Runtime) : EventHandler := fun st raw =>
  let st := incNotification st "channel.ad_break.begin"
  let ev := (rt.unmarshalDurationSeconds raw).ev
  let st := { st with adsBreaks := st.adsBreaks + 1 }
  if ev > 0 then { st with adsMinutes := st.adsMinutes + (ev : ℚ) / 60 }
  else st

/-- The handler of `channel.ban`. -/
def onBan (rt : Runtime) : EventHandler := fun st raw =>
  let st := incNotification st "channel.ban"
  let ev := (rt.unmarshalIsPermanent raw).ev
  let action := if !ev then "timeout" else "ban"
  bumpModeration action st

/-- The handlers `NewEventSubSelfCollector` registers with `c.on`, in order. -/
def handlers (rt : Runtime) (cfg : rewardGroupConfig) (selfUserID : String) :
    List (String × EventHandler) :=
  [("stream.online", fun st _ => incNotification st "stream.online"),
   ("stream.offline", fun st _ => incNotification st "stream.offline"),
   ("channel.follow", fun st _ =>
      let st := incNotification st "channel.follow"
      { st with follows := st.follows + 1 }),
   ("channel.subscribe", onSubscribe rt),
   ("channel.subscription.message", fun st _ =>
      let st := incNotification st "channel.subscription.message"
      { st with subsByKind := mapIncr st.subsByKind "resub" }),
   ("channel.subscription.gift", fun st _ =>
      let st := incNotification st "channel.subscription.gift"
      { st with giftSubs := st.giftSubs + 1 }),
   ("channel.cheer", onCheer rt),
   ("channel.channel_points_custom_reward_redemption.add", onRedemption rt cfg),
   ("channel.raid", onRaid rt selfUserID),
   ("channel.ad_break.begin", onAdBreakBegin rt),
   ("channel.hype_train.begin", stageCounter "channel.hype_train.begin" .hypeTrain "begin"),
   ("channel.hype_train.progress",
      stageCounter "channel.hype_train.progress" .hypeTrain "progress"),
   ("channel.hype_train.end", stageCounter "channel.hype_train.end" .hypeTrain "end"),
   ("channel.goal.begin", stageCounter "channel.goal.begin" .goals "begin"),
   ("channel.goal.progress", stageCounter "channel.goal.progress" .goals "progress"),
   ("channel.goal.end", stageCounter "channel.goal.end" .goals "end"),
   ("channel.poll.begin", stageCounter "channel.poll.begin" .polls "begin"),
   ("channel.poll.progress", stageCounter "channel.poll.progress" .polls "progress"),
   ("channel.poll.end", stageCounter "channel.poll.end" .polls "end"),
   ("channel.prediction.begin", stageCounter "channel.prediction.begin" .predictions "begin"),
   ("channel.prediction.progress",
      stageCounter "channel.prediction.progress" .predictions "progress"),
   ("channel.prediction.lock", stageCounter "channel.prediction.lock" .predictions "progress"),
   ("channel.prediction.end", stageCounter "channel.prediction.end" .predictions "end"),
   ("channel.charity_campaign.start",
      stageCounter "channel.charity_campaign.start" .charity "begin"),
   ("channel.charity_campaign.progress",
      stageCounter "channel.charity_campaign.progress" .charity "progress"),
   ("channel.charity_campaign.stop",
      stageCounter "channel.charity_campaign.stop" .charity "end"),
   ("channel.ban", onBan rt),
   ("channel.unban", fun st _ => bumpModeration "unban" (incNotification st "channel.unban")),
   ("channel.chat.message_delete", fun st _ =>
      bumpModeration "delete" (incNotification st "channel.chat.message_delete")),
   ("channel.shield_mode.begin", fun st _ =>
      bumpModeration "shield_on" (incNotification st "channel.shield_mode.begin")),
   ("channel.shield_mode.end", fun st _ =>
      bumpModeration "shield_off" (incNotification st "channel.shield_mode.end"))]

/-- One notification of type `eventType` with raw payload `raw`: the registered
handler runs, and an event type without a handler changes nothing. -/
def dispatch (rt : Runtime) (cfg : rewardGroupConfig) (selfUserID : String)
    (st : eventsubSelfState) (eventType : String) (raw : Bytes) : eventsubSelfState :=
  match (handlers rt cfg selfUserID).lookup eventType with
  | some handler => handler st raw
  | none => st

/-- The payload-specific counters: the state without the notification counters. -/
def payloadCounters (st : eventsubSelfState) : eventsubSelfState :=
  { st with notifications := [] }

/-! ## Sample inputs -/

/-- A sample registry: a created subscription is listed as pending verification;
a second one of the same type and condition is refused with status 409. -/
def sampleRegistryClient : HelixClient (List EventSubSubscription) where
  GetEventSubSubscriptions s params :=
    .ok { StatusCode := 200, ErrorMessage := "",
          EventSubSubscriptions := s.filter (fun v =>
            (params.Type_ = "" ∨ v.Type_ = params.Type_)
              ∧ (params.UserID = "" ∨ filterUserID v.Condition = params.UserID)) }
  CreateEventSubSubscription s req :=
    if s.any (fun v => v.Type_ = req.Type_ ∧ v.Condition = req.Condition) then
      (s, .ok { StatusCode := 409, ErrorMessage := "subscription already exists",
                EventSubSubscriptions := [] })
    else
      let created := { req with Status := "webhook_callback_verification_pending" }
      (s ++ [created],
        .ok { StatusCode := 202, ErrorMessage := "", EventSubSubscriptions := [created] })

def sampleSecret : Bytes := ascii "s3cr3t-webhook-key"

def sampleClient : Client (List EventSubSubscription) :=
  { webhookURL := "https://exporter.example/eventsub",
    webhookSecret := sampleSecret,
    appClient := some sampleRegistryClient,
    userClient := some sampleRegistryClient,
    cl := true,
    onSignatureFailure := true }

def sampleMessageID : Bytes := ascii "msg-0001"

def sampleTimestamp : Bytes := ascii "2024-01-01T00:00:00Z"

def sampleBody : Bytes :=
  ascii "\x7b\"subscription\":\x7b\"type\":\"channel.follow\"\x7d\x7d"

/-- Headers with exactly the three signature headers. -/
def signedHeaders (msgID timestamp sig : Bytes) : Header :=
  [("Twitch-Eventsub-Message-Id", [msgID]),
   ("Twitch-Eventsub-Message-Timestamp", [timestamp]),
   ("Twitch-Eventsub-Message-Signature", [sig])]

/-- The signature header of the sample request, digest in lower case. -/
def sampleSignature : Bytes :=
  ascii "sha256=f43b35246ff5be7c51908871e2302a8afef914de541625f133801e20e3e5c2eb"

/-- The same digest written in upper case. -/
def sampleSignatureUpper : Bytes :=
  ascii "sha256=F43B35246FF5BE7C51908871E2302A8AFEF914DE541625F133801E20E3E5C2EB"

/-- The condition of a subscription on the sample broadcaster `1234`. -/
def sampleCondition : EventSubCondition :=
  { BroadcasterUserID := "1234", FromBroadcasterUserID := "", ModeratorUserID := "",
    ToBroadcasterUserID := "", RewardID := "", ClientID := "", ExtensionClientID := "",
    UserID := "" }

/-- A registry holding one revoked subscription of the sample type and condition. -/
def sampleRevokedRegistry : List EventSubSubscription :=
  [{ ID := "sub-1", Type_ := "channel.follow", Version := "2",
     Status := "authorization_revoked", Condition := sampleCondition,
     Transport := { Method := "webhook", Callback := "https://exporter.example/eventsub",
                    Secret := [] } }]

/-- The collector of the sample channel `alice` (user id `1234`), with
`stream.online` as its only desired event type and fresh counters. -/
def sampleCollector : eventsubSelfCollector (List EventSubSubscription) :=
  { eventsub := sampleClient,
    selfLogin := "alice",
    selfUserID := "1234",
    desiredTypes := [("stream.online", true)],
    st := newEventsubSelfState (fun s => s) rewardGroups }

/-- A registry whose only subscription is an enabled `channel.follow` for the
exporter's own callback. -/
def sampleFollowRegistry : List EventSubSubscription :=
  [{ ID := "sub-2", Type_ := "channel.follow", Version := "2", Status := "enabled",
     Condition := sampleCondition,
     Transport := { Method := "webhook", Callback := "https://exporter.example/eventsub",
                    Secret := [] } }]

/-- A registry whose only subscription is an enabled `stream.online` registered
for another callback URL. -/
def sampleForeignRegistry : List EventSubSubscription :=
  [{ ID := "sub-9", Type_ := "stream.online", Version := "1", Status := "enabled",
     Condition := sampleCondition,
     Transport := { Method := "webhook", Callback := "https://elsewhere.example/hook",
                    Secret := [] } }]

/-- The library calls on a payload that is not JSON, such as `not json`:
`json.Unmarshal` returns an error and leaves the event struct at its zero value. -/
def malformedPayloadRuntime : Runtime :=
  { toLower := fun s => s,
    unmarshalIsGift := fun _ => { ev := false, failed := true },
    unmarshalBits := fun _ => { ev := 0, failed := true },
    unmarshalReward := fun _ => { ev := ("", ""), failed := true },
    unmarshalRaid := fun _ => { ev := ("", ""), failed := true },
    unmarshalDurationSeconds := fun _ => { ev := 0, failed := true },
    unmarshalIsPermanent := fun _ => { ev := false, failed := true } }

/-- A capability snapshot with a user token that grants `bits:read` only. -/
def sampleCapabilities : Capabilities :=
  SetCapabilities true true ["bits:read"]

/-- The process state around the sample collector, nothing recorded yet. -/
def sampleProcess : Process (List EventSubSubscription) :=
  { registry := [], collectorDisabled := [], subscribeUserCalls := [], warned := [] }

/-! ## Installing a reward grouping (`SetRewardGrouping`) -/

/-- The function `strings.ToLower`, rune by rune; `lower` is `unicode.ToLower`. -/
def ToLower (lower : Char → Char) (s : String) : String :=
  String.mk (s.toList.map lower)

/-- The set `groups` that `SetRewardGrouping` builds: the two fallback groups, then
the values of `byID` and of `byTitle` as given. -/
def groupLabels (defaultGroup unknownGroup : String) (byID byTitle : List (String × String)) :
    List (String × Unit) :=
  let groups := mapStore (mapStore [] defaultGroup ()) unknownGroup ()
  let groups := byID.foldl (fun acc kv => mapStore acc kv.2 ()) groups
  byTitle.foldl (fun acc kv => mapStore acc kv.2 ()) groups

/-- The call `sort.Strings`. -/
def sortStrings (keys : List String) : List String :=
  keys.insertionSort (fun a b => ¬ b < a)

/-- The error `SetRewardGrouping` returns on too many groups. -/
def cardinalityError (count : Nat) (maxGroups : Int) (keys : List String) : GoError :=
  .new ("reward_group cardinality too high: " ++ toString count ++ " groups (max "
    ++ toString maxGroups ++ "): [" ++ " ".intercalate (sortStrings keys) ++ "]")

/-- The loop that fills `normID` (with `norm := strings.TrimSpace`) and `normTitle`
(with `norm := normalizeTitle`): entries with an empty key or value are skipped.
The map is ranged over in entry order. -/
def normalizeTable (norm : String → String) (table : List (String × String)) :
    List (String × String) :=
  table.foldl
    (fun acc kv =>
      let k := norm kv.1
      let v := TrimSpace kv.2
      if k = "" ∨ v = "" then acc else mapStore acc k v)
    []

/-- The function `SetRewardGrouping` on the installed configuration `current`: the
error returned (`none` for nil) and the configuration installed afterwards. -/
def SetRewardGrouping (toLower : String → String) (current : rewardGroupConfig)
    (defaultGroup unknownGroup : String) (maxGroups : Int)
    (byID byTitle : List (String × String)) : Option GoError × rewardGroupConfig :=
  let defaultGroup := if TrimSpace defaultGroup = "" then "default" else defaultGroup
  let unknownGroup := if TrimSpace unknownGroup = "" then "other" else unknownGroup
  let maxGroups := if maxGroups ≤ 0 then 20 else maxGroups
  let groups := groupLabels defaultGroup unknownGroup byID byTitle
  if (groups.length : Int) > maxGroups then
    (some (cardinalityError groups.length maxGroups (groups.map Prod.fst)), current)
  else
    (none,
      { defaultGroup := defaultGroup,
        unknownGroup := unknownGroup,
        maxGroups := maxGroups,
        byID := normalizeTable TrimSpace byID,
        byTitle := normalizeTable (normalizeTitle toLower) byTitle })

/-- The arguments of one `SetRewardGrouping` call. -/
structure GroupingArgs where
  defaultGroup : String
  unknownGroup : String
  maxGroups : Int
  byID : List (String × String)
  byTitle : List (String × String)
deriving DecidableEq, Repr

/-- The configuration installed after a sequence of `SetRewardGrouping` calls on
the initial `rewardGroups`. -/
def installedAfter (toLower : String → String) (calls : List GroupingArgs) : rewardGroupConfig :=
  calls.foldl
    (fun cfg a =>
      (SetRewardGrouping toLower cfg a.defaultGroup a.unknownGroup a.maxGroups
        a.byID a.byTitle).2)
    rewardGroups

/-! ## Sequences of notifications -/

/-- A sequence of notifications (event type, raw payload), dispatched in order. -/
def dispatchAll (rt : Runtime) (cfg : rewardGroupConfig) (selfUserID : String)
    (st : eventsubSelfState) (events : List (String × Bytes)) : eventsubSelfState :=
  events.foldl (fun st e => dispatch rt cfg selfUserID st e.1 e.2) st

/-! ## Specification vocabulary for the counters -/

/-- The keys of a Go map, in entry order. -/
def mapKeys {β : Type} (m : List (String × β)) : List String :=
  m.map Prod.fst

/-- The stage map of a family. -/
def stageMap (family : StageFamily) (st : eventsubSelfState) : List (String × Float64) :=
  match family with
  | .hypeTrain => st.hypeTrainByStage
  | .goals => st.goalsByStage
  | .polls => st.pollsByStage
  | .predictions => st.predictionsByStage
  | .charity => st.charityByStage

/-- The lifecycle events of the five multi-stage families, each with its family
and the stage label the design document gives it. -/
def lifecycleStages : List (String × StageFamily × String) :=
  [("channel.hype_train.begin", .hypeTrain, "begin"),
   ("channel.hype_train.progress", .hypeTrain, "progress"),
   ("channel.hype_train.end", .hypeTrain, "end"),
   ("channel.goal.begin", .goals, "begin"),
   ("channel.goal.progress", .goals, "progress"),
   ("channel.goal.end", .goals, "end"),
   ("channel.poll.begin", .polls, "begin"),
   ("channel.poll.progress", .polls, "progress"),
   ("channel.poll.end", .polls, "end"),
   ("channel.prediction.begin", .predictions, "begin"),
   ("channel.prediction.progress", .predictions, "progress"),
   ("channel.prediction.lock", .predictions, "progress"),
   ("channel.prediction.end", .predictions, "end"),
   ("channel.charity_campaign.start", .charity, "begin"),
   ("channel.charity_campaign.progress", .charity, "progress"),
   ("channel.charity_campaign.stop", .charity, "end")]

/-- The eight moderation actions of the fixed enum. -/
def moderationActions : List String :=
  ["timeout", "ban", "unban", "delete", "shield_on", "shield_off", "warn", "other"]

/-- The state without the notification counters and the two bits counters. -/
def countersBesidesBits (st : eventsubSelfState) : eventsubSelfState :=
  { st with notifications := [], bitsEvents := 0, bitsTotal := 0 }

/-- The number of distinct labels among the fallback groups and the values of the
two tables. -/
def distinctGroupCount (defaultGroup unknownGroup : String)
    (byID byTitle : List (String × String)) : Nat :=
  (defaultGroup :: unknownGroup :: (byID.map Prod.snd ++ byTitle.map Prod.snd)).toFinset.card

/-! ## More sample inputs -/

/-- The library calls on the sample payloads: `json.Unmarshal` decodes the payloads
listed here as `encoding/json` does and rejects every other payload, leaving the
event struct at its zero value; `strings.ToLower` folds ASCII letters. -/
def sampleRuntime : Runtime :=
  { toLower := ToLower Char.toLower,
    unmarshalIsGift := fun raw =>
      if raw = ascii "\x7b\"is_gift\":true\x7d" then { ev := true, failed := false }
      else if raw = ascii "\x7b\"is_gift\":false\x7d" then { ev := false, failed := false }
      else { ev := false, failed := true },
    unmarshalBits := fun raw =>
      if raw = ascii "\x7b\"bits\":500\x7d" then { ev := 500, failed := false }
      else if raw = ascii "\x7b\"bits\":250\x7d" then { ev := 250, failed := false }
      else if raw = ascii "\x7b\"bits\":-5\x7d" then { ev := -5, failed := false }
      else { ev := 0, failed := true },
    unmarshalReward := fun _ => { ev := ("", ""), failed := true },
    unmarshalRaid := fun raw =>
      if raw = ascii
          "\x7b\"from_broadcaster_user_id\":\"777\",\"to_broadcaster_user_id\":\"1234\"\x7d" then
        { ev := ("777", "1234"), failed := false }
      else { ev := ("", ""), failed := true },
    unmarshalDurationSeconds := fun _ => { ev := 0, failed := true },
    unmarshalIsPermanent := fun raw =>
      if raw = ascii "\x7b\"is_permanent\":true\x7d" then { ev := true, failed := false }
      else if raw = ascii "\x7b\"is_permanent\":false\x7d" then { ev := false, failed := false }
      else { ev := false, failed := true } }

/-- The sample library calls, with `json.Unmarshal` decoding two more cheer payloads:
`9007199254740992` bits (`2^53`) and `1` bit. -/
def sampleLargeCheerRuntime : Runtime :=
  { sampleRuntime with
    unmarshalBits := fun raw =>
      if raw = ascii "\x7b\"bits\":9007199254740992\x7d" then
        { ev := 9007199254740992, failed := false }
      else if raw = ascii "\x7b\"bits\":1\x7d" then { ev := 1, failed := false }
      else sampleRuntime.unmarshalBits raw }

/-- The three stage labels. -/
def stageLabels : List String := ["begin", "progress", "end"]

/-- The pre-seeded key sets: the sub kinds, the stage labels of every family and
the moderation actions. -/
def Seeded (st : eventsubSelfState) : Prop :=
  mapKeys st.subsByKind = ["new", "resub"]
    ∧ (∀ family, mapKeys (stageMap family st) = stageLabels)
    ∧ mapKeys st.moderationByAction = moderationActions

/-- Every counter of `a`, scalar or map entry, is at most its value in `b`. -/
def CountersLE (a b : eventsubSelfState) : Prop :=
  (∀ k, floatAt a.notifications k ≤ floatAt b.notifications k)
    ∧ a.follows ≤ b.follows
    ∧ (∀ k, floatAt a.subsByKind k ≤ floatAt b.subsByKind k)
    ∧ a.giftSubs ≤ b.giftSubs
    ∧ a.bitsEvents ≤ b.bitsEvents
    ∧ a.bitsTotal ≤ b.bitsTotal
    ∧ (∀ k, floatAt a.pointsByGroup k ≤ floatAt b.pointsByGroup k)
    ∧ a.raidsIn ≤ b.raidsIn
    ∧ a.raidsOut ≤ b.raidsOut
    ∧ a.adsBreaks ≤ b.adsBreaks
    ∧ a.adsMinutes ≤ b.adsMinutes
    ∧ (∀ k, floatAt a.hypeTrainByStage k ≤ floatAt b.hypeTrainByStage k)
    ∧ (∀ k, floatAt a.goalsByStage k ≤ floatAt b.goalsByStage k)
    ∧ (∀ k, floatAt a.pollsByStage k ≤ floatAt b.pollsByStage k)
    ∧ (∀ k, floatAt a.predictionsByStage k ≤ floatAt b.predictionsByStage k)
    ∧ (∀ k, floatAt a.charityByStage k ≤ floatAt b.charityByStage k)
    ∧ (∀ k, floatAt a.moderationByAction k ≤ floatAt b.moderationByAction k)

/-- A blank default group is read as `default`. -/
def effectiveDefault (defaultGroup : String) : String :=
  if TrimSpace defaultGroup = "" then "default" else defaultGroup

/-- A blank unknown group is read as `other`. -/
def effectiveUnknown (unknownGroup : String) : String :=
  if TrimSpace unknownGroup = "" then "other" else unknownGroup

/-- A non-positive maximum is read as 20. -/
def effectiveMax (maxGroups : Int) : Int :=
  if maxGroups ≤ 0 then 20 else maxGroups

/-- One `SetRewardGrouping` call that maps the reward id `id1` to the group `vip`
and the reward title `Hydrate` to the group `health`. -/
def sampleGrouping : GroupingArgs :=
  { defaultGroup := "", unknownGroup := "", maxGroups := 0,
    byID := [("id1", "vip")], byTitle := [("Hydrate", "health")] }


/-! ## Watchlist (`collector/watchlist.go`) -/

/-- The function `normalizeLogin`; `lower` is `unicode.ToLower`. -/
def normalizeLogin (lower : Char → Char) (v : String) : String :=
  ToLower lower (TrimSpace v)

/-- The struct `ChannelWatchlist`; a `ChannelRole` is its string. -/
structure ChannelWatchlist where
  selfLogin : String
  watch : List String
  roleByLogin : List (String × String)
deriving DecidableEq, Repr

/-- The variables the loop of `NewChannelWatchlist` updates. -/
structure WatchScan where
  seen : List (String × Unit)
  watch : List String
  roleByLogin : List (String × String)

/-- One round of the loop of `NewChannelWatchlist` over `watchLogins`. -/
def scanWatchLogin (lower : Char → Char) (acc : WatchScan) (raw : String) : WatchScan :=
  let login := normalizeLogin lower raw
  if login = "" then acc
  else if (acc.seen.lookup login).isSome then acc
  else
    { seen := mapStore acc.seen login (),
      watch := acc.watch ++ [login],
      roleByLogin := mapStore acc.roleByLogin login "watch" }

/-- The function `NewChannelWatchlist`: the watchlist and the error returned
(`none` for nil). -/
def NewChannelWatchlist (lower : Char → Char) (selfLogin : String) (watchLogins : List String) :
    ChannelWatchlist × Option GoError :=
  let self := normalizeLogin lower selfLogin
  let roles : List (String × String) := if self ≠ "" then mapStore [] self "self" else []
  let seen : List (String × Unit) := if self ≠ "" then mapStore [] self () else []
  let scan := watchLogins.foldl (scanWatchLogin lower)
    { seen := seen, watch := [], roleByLogin := roles }
  if scan.watch.length > 100 then
    ({ selfLogin := self, watch := scan.watch, roleByLogin := scan.roleByLogin },
      some (.new ("watchlist role=watch exceeds 100 channels ("
        ++ toString scan.watch.length ++ ")")))
  else
    ({ selfLogin := self, watch := sortStrings scan.watch, roleByLogin := scan.roleByLogin },
      none)

/-- The method `ChannelWatchlist.AllLogins`. -/
def ChannelWatchlist.AllLogins (w : ChannelWatchlist) : List String :=
  (if w.selfLogin ≠ "" then [w.selfLogin] else []) ++ w.watch

/-- The method `ChannelWatchlist.RoleLabelForLogin` (through `RoleForLogin`). -/
def ChannelWatchlist.RoleLabelForLogin (lower : Char → Char) (w : ChannelWatchlist)
    (login : String) : String :=
  let login := normalizeLogin lower login
  if login = "" then ""
  else
    match w.roleByLogin.lookup login with
    | some role => role
    | none => ""

/-! ## Channel liveness (`collector/channel_core_intelligence.go`) -/

/-- A `time.Time`: nanoseconds since the zero time (year 1). -/
structure Time where
  nanos : Int
deriving DecidableEq, Repr

/-- The zero value `time.Time{}`. -/
def Time.zero : Time := { nanos := 0 }

/-- The method `Time.IsZero`. -/
def Time.IsZero (t : Time) : Bool := t.nanos = 0

/-- The method `Time.Unix`: seconds since 1970. -/
def Time.Unix (t : Time) : Int := t.nanos / 1000000000 - 62135596800

/-- The value `now.Sub(t).Seconds()`: a `Duration` counts nanoseconds in an `int64`,
and `Sub` returns the largest or smallest `Duration` when the difference does not
fit. -/
def Time.secondsSince (now t : Time) : Float64 :=
  let d : Int := now.nanos - t.nanos
  let d : Int :=
    if d > 9223372036854775807 then 9223372036854775807
    else if d < -9223372036854775808 then -9223372036854775808
    else d
  (d : ℚ) / 1000000000

/-- The fields of `helix.Stream` the collector reads. -/
structure Stream where
  UserLogin : String
  ViewerCount : Int
  StartedAt : Time
  Title : String
  GameID : String
deriving DecidableEq, Repr

/-- The struct `helix.StreamsParams`, with the fields the collector sets. -/
structure StreamsParams where
  UserLogins : List String
  First : Nat
deriving DecidableEq, Repr

/-- The struct `helix.StreamsResponse`: the common status code and error message, and
`Data.Streams`. The library returns an answer of the upstream with a failure status
(such as 503) as a response with that status code and a nil error; a Go error stands
for a request that got no answer or an answer that does not decode. -/
structure StreamsResponse where
  StatusCode : Nat
  ErrorMessage : String
  Streams : List Stream
deriving DecidableEq, Repr

/-- The struct `channelCoreState`. -/
structure channelCoreState where
  live : Bool
  startedAt : Time
  lastTitle : String
  lastCategoryID : String
  lastTransitionAt : Time
  streamStarts : Float64
  streamEnds : Float64
  titleChanges : Float64
  categoryChanges : Float64
deriving DecidableEq, Repr

/-- The zero value `channelCoreState{}` a login starts from. -/
def channelCoreState.initial : channelCoreState :=
  { live := false, startedAt := Time.zero, lastTitle := "", lastCategoryID := "",
    lastTransitionAt := Time.zero, streamStarts := 0, streamEnds := 0, titleChanges := 0,
    categoryChanges := 0 }

/-- The state machine of `Update` (from `if !st.live && isLive` to `st.live = isLive`)
for one login: `obs` is the stream of the poll result for the login, `none` when
the login is absent from it. -/
def stateMachine (now : Time) (st : channelCoreState) (obs : Option Stream) : channelCoreState :=
  match obs with
  | some s =>
    let st :=
      if !st.live then
        { st with streamStarts := st.streamStarts + 1, lastTransitionAt := now,
                  startedAt := s.StartedAt }
      else st
    let st :=
      if st.lastTitle ≠ "" ∧ s.Title ≠ "" ∧ s.Title ≠ st.lastTitle then
        { st with titleChanges := st.titleChanges + 1 }
      else st
    let st :=
      if st.lastCategoryID ≠ "" ∧ s.GameID ≠ "" ∧ s.GameID ≠ st.lastCategoryID then
        { st with categoryChanges := st.categoryChanges + 1 }
      else st
    { st with lastTitle := s.Title, lastCategoryID := s.GameID, live := true }
  | none =>
    let st :=
      if st.live then
        { st with streamEnds := st.streamEnds + 1, lastTransitionAt := now,
                  startedAt := Time.zero, lastTitle := "", lastCategoryID := "" }
      else st
    { st with live := false }

/-- The value of an exact integer in Go's `int` of 64 bits, after wrap-around. -/
def wrapInt64 (n : Int) : Int :=
  (n + 9223372036854775808) % 18446744073709551616 - 9223372036854775808

/-- The loop of `chunkStrings` from index `i`, with at most `fuel` rounds: the chunks,
or the panic raised. When `i + size` does not fit an `int`, `end` wraps to a negative
number, which is not greater than `len(in)`, and the slice expression `in[i:end]`
panics. -/
def chunkLoop (input : List String) (size : Nat) : Nat → Nat → Except String (List (List String))
  | 0, _ => .ok []
  | fuel + 1, i =>
    if i < input.length then
      if i + size > 9223372036854775807 then .error "slice bounds out of range"
      else
        let stop := if i + size > input.length then input.length else i + size
        match chunkLoop input size fuel (i + size) with
        | .error p => .error p
        | .ok rest => .ok ((input.take stop).drop i :: rest)
    else .ok []

/-- The function `chunkStrings`: the chunks, or the panic raised. The capacity
`(len(in)+size-1)/size` is computed in `int`, with wrap-around and a quotient
truncated towards zero, and `make` panics on a negative capacity. The loop makes at
most `len(in)` rounds, since the size is at least 1. -/
def chunkStrings (input : List String) (size : Int) : Except String (List (List String)) :=
  let size := if size ≤ 0 then 1 else size
  if input.length = 0 then .ok []
  else if Int.tdiv (wrapInt64 ((input.length : Int) + size - 1)) size < 0 then
    .error "makeslice: cap out of range"
  else chunkLoop input size.toNat input.length 0

/-- The metric descriptors of the channel core collector, by field name. -/
inductive CoreDesc where
  | channelLive
  | channelViewers
  | channelStreamStartedAt
  | channelStreamUptime
  | channelCategoryID
  | channelTitleChangeTotal
  | channelCategoryChangeTotal
  | channelStreamStartsTotal
  | channelStreamEndsTotal
deriving DecidableEq, Repr

/-- One sample of the channel core collector. -/
structure CoreMetric where
  desc : CoreDesc
  value : Float64
  labels : List String
deriving DecidableEq, Repr

/-- The fields of `channelCoreCollector` that `Update` uses; a nil client is `none`,
and a client is its method `GetStreams`. -/
structure channelCoreCollector where
  client : Option (StreamsParams → Except GoError StreamsResponse)
  watchlist : ChannelWatchlist
  state : List (String × channelCoreState)

/-- What `Update` returns: the sentinel `ErrNoData` or the error of the client. -/
inductive UpdateError where
  | noData
  | upstream (err : GoError)
deriving DecidableEq, Repr

/-- The first loop of `Update`: one `GetStreams` request per batch, the streams
stored under their normalized login; stops at the first error. Returns the
requests sent and the map `streamsByLogin`. -/
def fetchStreams (lower : Char → Char) (client : StreamsParams → Except GoError StreamsResponse) :
    List (List String) → List (String × Stream) →
      List StreamsParams × Except GoError (List (String × Stream))
  | [], acc => ([], .ok acc)
  | batch :: rest, acc =>
    let params : StreamsParams := { UserLogins := batch, First := batch.length }
    match client params with
    | .error e => ([params], .error e)
    | .ok resp =>
      let acc := resp.Streams.foldl
        (fun m s => mapStore m (normalizeLogin lower s.UserLogin) s) acc
      let r := fetchStreams lower client rest acc
      (params :: r.1, r.2)

/-- The five gauges of one login; `parseFloat` is `strconv.ParseFloat(_, 64)`. -/
def coreGauges (parseFloat : String → Option Float64) (now : Time) (login role : String)
    (obs : Option Stream) : List CoreMetric :=
  let viewers : Float64 := match obs with
    | some s => (s.ViewerCount : ℚ)
    | none => 0
  let startedAt : Float64 := match obs with
    | some s => if !s.StartedAt.IsZero then (s.StartedAt.Unix : ℚ) else 0
    | none => 0
  let uptime : Float64 := match obs with
    | some s => if !s.StartedAt.IsZero then now.secondsSince s.StartedAt else 0
    | none => 0
  let categoryID : Float64 := match obs with
    | some s =>
      if s.GameID ≠ "" then
        match parseFloat s.GameID with
        | some v => v
        | none => 0
      else 0
    | none => 0
  [{ desc := .channelLive, value := if obs.isSome then 1 else 0, labels := [login, role] },
   { desc := .channelViewers, value := viewers, labels := [login, role] },
   { desc := .channelStreamStartedAt, value := startedAt, labels := [login, role] },
   { desc := .channelStreamUptime, value := uptime, labels := [login, role] },
   { desc := .channelCategoryID, value := categoryID, labels := [login, role] }]

/-- The four counters of one login. -/
def coreCounters (login role : String) (st : channelCoreState) : List CoreMetric :=
  [{ desc := .channelTitleChangeTotal, value := st.titleChanges, labels := [login, role] },
   { desc := .channelCategoryChangeTotal, value := st.categoryChanges, labels := [login, role] },
   { desc := .channelStreamStartsTotal, value := st.streamStarts, labels := [login, role] },
   { desc := .channelStreamEndsTotal, value := st.streamEnds, labels := [login, role] }]

/-- The role label `Update` gives a normalized login. -/
def roleLabel (lower : Char → Char) (w : ChannelWatchlist) (login : String) : String :=
  if w.RoleLabelForLogin lower login = "" then "watch" else w.RoleLabelForLogin lower login

/-- One round of the second loop of `Update`: the state map and the samples sent so
far, after the login `login`. -/
def updateLogin (lower : Char → Char) (parseFloat : String → Option Float64) (now : Time)
    (w : ChannelWatchlist) (streamsByLogin : List (String × Stream))
    (acc : List (String × channelCoreState) × List CoreMetric) (login : String) :
    List (String × channelCoreState) × List CoreMetric :=
  let login := normalizeLogin lower login
  let role := roleLabel lower w login
  let st := match acc.1.lookup login with
    | some st => st
    | none => channelCoreState.initial
  let obs := streamsByLogin.lookup login
  let st := stateMachine now st obs
  (mapStore acc.1 login st,
    acc.2 ++ coreGauges parseFloat now login role obs ++ coreCounters login role st)

/-- The outcome of one `Update`: the error returned (`none` for nil), the samples
sent, the state map afterwards and the `GetStreams` requests sent. -/
structure CoreOutcome where
  err : Option UpdateError
  metrics : List CoreMetric
  state : List (String × channelCoreState)
  requests : List StreamsParams
deriving DecidableEq, Repr

/-- The method `channelCoreCollector.Update` at the time `now`: its outcome, or the
panic raised. -/
def channelCoreCollector.Update (lower : Char → Char) (parseFloat : String → Option Float64)
    (c : channelCoreCollector) (now : Time) : Except String CoreOutcome :=
  let logins := c.watchlist.AllLogins
  if logins.length = 0 then
    .ok { err := some .noData, metrics := [], state := c.state, requests := [] }
  else
    match c.client with
    | none => .ok { err := some .noData, metrics := [], state := c.state, requests := [] }
    | some client =>
      match chunkStrings logins 100 with
      | .error p => .error p
      | .ok batches =>
        match fetchStreams lower client batches [] with
        | (requests, .error e) =>
          .ok { err := some (.upstream e), metrics := [], state := c.state,
                requests := requests }
        | (requests, .ok streamsByLogin) =>
          let r := logins.foldl (updateLogin lower parseFloat now c.watchlist streamsByLogin)
            (c.state, [])
          .ok { err := none, metrics := r.2, state := r.1, requests := requests }

/-! ## Specification vocabulary for the liveness state machine -/

/-- The state of one login after a poll history: per cycle, the time of the cycle
and the login's stream in the poll result (`none` when absent). -/
def runPolls (st : channelCoreState) (history : List (Time × Option Stream)) :
    channelCoreState :=
  history.foldl (fun st p => stateMachine p.1 st p.2) st

/-- The invariant of the state machine: a live channel has one start more than
ends; an offline channel has as many starts as ends and nothing stored. -/
def LiveInvariant (st : channelCoreState) : Prop :=
  (st.live = true → st.streamStarts = st.streamEnds + 1)
    ∧ (st.live = false → st.streamStarts = st.streamEnds ∧ st.startedAt = Time.zero
        ∧ st.lastTitle = "" ∧ st.lastCategoryID = "")

/-- A sequence of poll cycles on a collector: each cycle has the answers of the
client during the cycle and the time of the cycle; the state map is carried over,
and a cycle that panics leaves it as it was. -/
def pollCycles (lower : Char → Char) (parseFloat : String → Option Float64)
    (c : channelCoreCollector)
    (cycles : List ((StreamsParams → Except GoError StreamsResponse) × Time)) :
    channelCoreCollector :=
  cycles.foldl
    (fun c cycle =>
      match channelCoreCollector.Update lower parseFloat { c with client := some cycle.1 }
          cycle.2 with
      | .ok out => { c with state := out.state }
      | .error _ => c)
    c

/-- A sample stream of `bob`: 42 viewers, category `509658`. -/
def sampleStream : Stream :=
  { UserLogin := "bob", ViewerCount := 42, StartedAt := { nanos := 63839000000000000000 },
    Title := "Speedrun practice", GameID := "509658" }


/-- The function `NewChannelCoreCollector`, for the fields `Update` uses: the state
map starts empty. -/
def NewChannelCoreCollector (client : Option (StreamsParams → Except GoError StreamsResponse))
    (watchlist : ChannelWatchlist) : channelCoreCollector :=
  { client := client, watchlist := watchlist, state := [] }

/-- The streams of one poll: the answers of the client to the batches of the
watchlist, in the order of the batches. -/
def pollResult (client : StreamsParams → Except GoError StreamsResponse) (logins : List String) :
    List Stream :=
  match chunkStrings logins 100 with
  | .error _ => []
  | .ok batches =>
    batches.flatMap fun batch =>
      match client { UserLogins := batch, First := batch.length } with
      | .ok resp => resp.Streams
      | .error _ => []

/-- The watchlist of `alice` watching `bob`. -/
def sampleWatchlist : ChannelWatchlist :=
  { selfLogin := "alice", watch := ["bob"],
    roleByLogin := [("alice", "self"), ("bob", "watch")] }

/-- A client whose every poll returns `bob` live. -/
def sampleLiveClient : StreamsParams → Except GoError StreamsResponse :=
  fun _ => .ok { StatusCode := 200, ErrorMessage := "", Streams := [sampleStream] }

/-- A client whose every poll returns no stream. -/
def sampleOfflineClient : StreamsParams → Except GoError StreamsResponse :=
  fun _ => .ok { StatusCode := 200, ErrorMessage := "", Streams := [] }

/-- A client whose every request fails with a Go error. -/
def sampleFailingClient : StreamsParams → Except GoError StreamsResponse :=
  fun _ => .error (.new "upstream unavailable")

/-- A client whose every request is answered with the status 503 by the upstream. -/
def sampleUnavailableClient : StreamsParams → Except GoError StreamsResponse :=
  fun _ => .ok { StatusCode := 503, ErrorMessage := "Service Unavailable", Streams := [] }

/-- The state of `bob` after he was seen live in the fresh state. -/
def sampleLiveState : channelCoreState :=
  { live := true, startedAt := { nanos := 63839000000000000000 },
    lastTitle := "Speedrun practice", lastCategoryID := "509658",
    lastTransitionAt := { nanos := 63839000060000000000 }, streamStarts := 1,
    streamEnds := 0, titleChanges := 0, categoryChanges := 0 }

/-- What a poll sends and stores when `bob` is stored live and the upstream answers
with the status 503, two minutes after the start of his stream. -/
def sampleUnavailableOutcome : CoreOutcome :=
  { err := none,
    metrics :=
      [{ desc := .channelLive, value := 0, labels := ["alice", "self"] },
       { desc := .channelViewers, value := 0, labels := ["alice", "self"] },
       { desc := .channelStreamStartedAt, value := 0, labels := ["alice", "self"] },
       { desc := .channelStreamUptime, value := 0, labels := ["alice", "self"] },
       { desc := .channelCategoryID, value := 0, labels := ["alice", "self"] },
       { desc := .channelTitleChangeTotal, value := 0, labels := ["alice", "self"] },
       { desc := .channelCategoryChangeTotal, value := 0, labels := ["alice", "self"] },
       { desc := .channelStreamStartsTotal, value := 0, labels := ["alice", "self"] },
       { desc := .channelStreamEndsTotal, value := 0, labels := ["alice", "self"] },
       { desc := .channelLive, value := 0, labels := ["bob", "watch"] },
       { desc := .channelViewers, value := 0, labels := ["bob", "watch"] },
       { desc := .channelStreamStartedAt, value := 0, labels := ["bob", "watch"] },
       { desc := .channelStreamUptime, value := 0, labels := ["bob", "watch"] },
       { desc := .channelCategoryID, value := 0, labels := ["bob", "watch"] },
       { desc := .channelTitleChangeTotal, value := 0, labels := ["bob", "watch"] },
       { desc := .channelCategoryChangeTotal, value := 0, labels := ["bob", "watch"] },
       { desc := .channelStreamStartsTotal, value := 1, labels := ["bob", "watch"] },
       { desc := .channelStreamEndsTotal, value := 1, labels := ["bob", "watch"] }],
    state :=
      [("bob",
         { live := false, startedAt := Time.zero, lastTitle := "", lastCategoryID := "",
           lastTransitionAt := { nanos := 63839000120000000000 }, streamStarts := 1,
           streamEnds := 1, titleChanges := 0, categoryChanges := 0 }),
       ("alice", channelCoreState.initial)],
    requests := [{ UserLogins := ["alice", "bob"], First := 2 }] }

/-- What the poll of the fresh sample collector sends when `bob` is live, one
minute after the start of his stream. -/
def sampleOutcome : CoreOutcome :=
  { err := none,
    metrics :=
      [{ desc := .channelLive, value := 0, labels := ["alice", "self"] },
       { desc := .channelViewers, value := 0, labels := ["alice", "self"] },
       { desc := .channelStreamStartedAt, value := 0, labels := ["alice", "self"] },
       { desc := .channelStreamUptime, value := 0, labels := ["alice", "self"] },
       { desc := .channelCategoryID, value := 0, labels := ["alice", "self"] },
       { desc := .channelTitleChangeTotal, value := 0, labels := ["alice", "self"] },
       { desc := .channelCategoryChangeTotal, value := 0, labels := ["alice", "self"] },
       { desc := .channelStreamStartsTotal, value := 0, labels := ["alice", "self"] },
       { desc := .channelStreamEndsTotal, value := 0, labels := ["alice", "self"] },
       { desc := .channelLive, value := 1, labels := ["bob", "watch"] },
       { desc := .channelViewers, value := 42, labels := ["bob", "watch"] },
       { desc := .channelStreamStartedAt, value := 1703403200, labels := ["bob", "watch"] },
       { desc := .channelStreamUptime, value := 60, labels := ["bob", "watch"] },
       { desc := .channelCategoryID, value := 509658, labels := ["bob", "watch"] },
       { desc := .channelTitleChangeTotal, value := 0, labels := ["bob", "watch"] },
       { desc := .channelCategoryChangeTotal, value := 0, labels := ["bob", "watch"] },
       { desc := .channelStreamStartsTotal, value := 1, labels := ["bob", "watch"] },
       { desc := .channelStreamEndsTotal, value := 0, labels := ["bob", "watch"] }],
    state :=
      [("alice", channelCoreState.initial),
       ("bob",
         { live := true, startedAt := { nanos := 63839000000000000000 },
           lastTitle := "Speedrun practice", lastCategoryID := "509658",
           lastTransitionAt := { nanos := 63839000060000000000 }, streamStarts := 1,
           streamEnds := 0, titleChanges := 0, categoryChanges := 0 })],
    requests := [{ UserLogins := ["alice", "bob"], First := 2 }] }

/-- The function `strconv.ParseFloat` on the strings of decimal digits; on other
strings this sample reports an error. -/
def parseDigits (s : String) : Option Float64 :=
  if s ≠ "" ∧ s.toList.all Char.isDigit then
    some ((s.toList.foldl (fun n ch => 10 * n + (ch.toNat - 48)) 0 : Nat) : ℚ)
  else none

/-! ## Specification vocabulary for the watchlist -/

/-- The number of distinct non-empty normalized watch logins other than the
normalized self login. -/
def distinctWatchCount (lower : Char → Char) (selfLogin : String) (watchLogins : List String) :
    Nat :=
  (((watchLogins.map (normalizeLogin lower)).filter
    fun l => decide (l ≠ "" ∧ l ≠ normalizeLogin lower selfLogin)).dedup).length

/-! ## The reward group flags (`twitch_exporter.go`) -/

/-- The type `keyValueMap`. -/
abbrev keyValueMap := List (String × String)

/-- The call `strings.SplitN(v, ":", 2)`: the parts before and after the first colon,
`none` when `v` has no colon and the call returns a single part. -/
def splitAtColon (v : String) : Option (String × String) :=
  if ':' ∈ v.toList then
    some (String.mk (v.toList.takeWhile (fun ch => ch ≠ ':')),
      String.mk ((v.toList.dropWhile (fun ch => ch ≠ ':')).drop 1))
  else none

/-- The method `keyValueMap.Set`: the map afterwards, `none` when it returns an
error. -/
def keyValueMap.Set (m : keyValueMap) (v : String) : Option keyValueMap :=
  match splitAtColon v with
  | none => none
  | some parts =>
    let key := TrimSpace parts.1
    let val := TrimSpace parts.2
    if key = "" ∨ val = "" then none else some (mapStore m key val)

/-- The table the flag parser builds from the occurrences of a repeatable flag, one
`Set` call each; `none` when a call returns an error and the program stops. -/
def keyValueMap.ofFlags (values : List String) : Option keyValueMap :=
  values.foldlM keyValueMap.Set []
/-! ## Library facts -/

theorem Sha256.bigEndian_length (n x : Nat) : (Sha256.bigEndian n x).length = n := by
  induction n with
  | zero => rfl
  | succ k ih => simp [Sha256.bigEndian, ih]

theorem Sha256.sum_length (msg : Bytes) : (Sha256.sum msg).length = 32 := by
  simp [Sha256.sum, Sha256.digestBytes, Sha256.bigEndian_length]

theorem hmacSha256_length (key msg : Bytes) : (hmacSha256 key msg).length = 32 := by
  simp [hmacSha256, Sha256.sum_length]

theorem fromHexChar_lt (p : Byte) (n : Nat) (h : fromHexChar p = some n) : n < 16 := by
  unfold fromHexChar at h
  split_ifs at h <;> simp at h <;> omega

theorem fromHexChar_fin (p : Byte) (n : Fin 16) :
    fromHexChar p = some n.val ↔ lowerHex p = hexDigit n.val := by
  revert p n
  decide!

theorem fromHexChar_eq_some_iff (p : Byte) (n : Nat) :
    fromHexChar p = some n ↔ n < 16 ∧ lowerHex p = hexDigit n := by
  constructor
  · intro h
    have hn := fromHexChar_lt p n h
    exact ⟨hn, (fromHexChar_fin p ⟨n, hn⟩).1 h⟩
  · rintro ⟨hn, h⟩
    exact (fromHexChar_fin p ⟨n, hn⟩).2 h

theorem fromHexChar_eq_some_iff_of_lt (p : Byte) (n : Nat) (hn : n < 16) :
    fromHexChar p = some n ↔ lowerHex p = hexDigit n := by
  rw [fromHexChar_eq_some_iff]
  exact ⟨fun h => h.2, fun h => ⟨hn, h⟩⟩

theorem ofNat_hexPair (a b : Nat) (x : Byte) (ha : a < 16) (hb : b < 16) :
    (Fin.ofNat (a * 16 + b) : Byte) = x ↔ a = x.val / 16 ∧ b = x.val % 16 := by
  have hx := x.isLt
  constructor
  · intro h
    have hv : (a * 16 + b) % 256 = x.val := by
      rw [← h]
      rfl
    omega
  · rintro ⟨h1, h2⟩
    apply Fin.ext
    show (a * 16 + b) % 256 = x.val
    omega

theorem bytes_pair_induction {P : Bytes → Prop} (h0 : P []) (h1 : ∀ a, P [a])
    (h2 : ∀ a b l, P l → P (a :: b :: l)) : ∀ l, P l
  | [] => h0
  | [a] => h1 a
  | a :: b :: l => h2 a b l (bytes_pair_induction h0 h1 h2 l)

theorem hexDecodeString_eq_some_iff (s d : Bytes) :
    hexDecodeString s = some d ↔ s.map lowerHex = hexEncodeToString d := by
  induction s using bytes_pair_induction generalizing d with
  | h0 => cases d <;> simp [hexDecodeString, hexEncodeToString]
  | h1 a => cases d <;> simp [hexDecodeString, hexEncodeToString]
  | h2 p q rest ih =>
    cases d with
    | nil =>
      simp only [hexDecodeString, hexEncodeToString, List.map_cons]
      rcases hp : fromHexChar p with _ | a <;> rcases hq : fromHexChar q with _ | b <;>
        simp
      rcases hr : hexDecodeString rest with _ | out <;> simp
    | cons x d' =>
      have hx := x.isLt
      simp only [hexDecodeString, hexEncodeToString, List.map_cons, List.cons.injEq]
      rw [← ih d', ← fromHexChar_eq_some_iff_of_lt p (x.val / 16) (by omega),
        ← fromHexChar_eq_some_iff_of_lt q (x.val % 16) (by omega)]
      rcases hp : fromHexChar p with _ | a <;> rcases hq : fromHexChar q with _ | b <;>
        simp
      rcases hr : hexDecodeString rest with _ | out <;> simp
      have ha := fromHexChar_lt p a hp
      have hb := fromHexChar_lt q b hq
      rw [ofNat_hexPair a b x ha hb]
      tauto

theorem nat_or_eq_zero (a b : Nat) : a ||| b = 0 ↔ a = 0 ∧ b = 0 := by
  constructor
  · intro h
    have key : ∀ i, a.testBit i = false ∧ b.testBit i = false := by
      intro i
      have hi := congrArg (fun n => n.testBit i) h
      simpa [Nat.testBit_or] using hi
    exact ⟨Nat.eq_of_testBit_eq (fun i => by simp [(key i).1]),
      Nat.eq_of_testBit_eq (fun i => by simp [(key i).2])⟩
  · rintro ⟨rfl, rfl⟩
    rfl

theorem foldl_or_xor_eq_zero (l : List (Byte × Byte)) (v : Nat) :
    l.foldl (fun acc p => acc ||| (p.1.val ^^^ p.2.val)) v = 0 ↔
      v = 0 ∧ ∀ p ∈ l, p.1 = p.2 := by
  induction l generalizing v with
  | nil => simp
  | cons p l ih =>
    simp only [List.foldl_cons, ih, nat_or_eq_zero, Nat.xor_eq_zero, List.mem_cons,
      forall_eq_or_imp, Fin.val_inj]
    tauto

theorem zip_all_eq_iff : ∀ (x y : Bytes), x.length = y.length →
    ((∀ p ∈ x.zip y, p.1 = p.2) ↔ x = y)
  | [], [], _ => by simp
  | a :: x, b :: y, h => by
      have ih := zip_all_eq_iff x y (by simpa using h)
      simp only [List.zip_cons_cons, List.mem_cons, forall_eq_or_imp, List.cons.injEq, ih]
  | [], _ :: _, h => by simp at h
  | _ :: _, [], h => by simp at h

theorem constantTimeCompare_eq_one_iff (x y : Bytes) :
    constantTimeCompare x y = 1 ↔ x = y := by
  unfold constantTimeCompare
  by_cases hl : x.length = y.length
  · have hz := foldl_or_xor_eq_zero (x.zip y) 0
    have hq := zip_all_eq_iff x y hl
    simp only [hl, ne_eq, not_true_eq_false, if_false]
    split_ifs with hv
    · simp only [true_iff]
      exact hq.1 (hz.1 hv).2
    · simp only [Nat.zero_ne_one, false_iff]
      intro hxy
      exact hv (hz.2 ⟨rfl, hq.2 hxy⟩)
  · simp only [ne_eq, hl, not_false_eq_true, if_true, Nat.zero_ne_one, false_iff]
    intro hxy
    exact hl (by rw [hxy])

theorem hmacEqual_iff (x y : Bytes) : hmacEqual x y = true ↔ x = y := by
  simp [hmacEqual, constantTimeCompare_eq_one_iff]

theorem sigPrefix_length : sigPrefix.length = 7 := by decide

/-- The verifier never panics, and its result has this closed form. -/
theorem verifySignature_eq (c : Client σ) (headers : Header) (body : Bytes) :
    verifySignature c headers body = .ok (
      if headers.Get "Twitch-Eventsub-Message-Id" = []
          ∨ headers.Get "Twitch-Eventsub-Message-Timestamp" = []
          ∨ headers.Get "Twitch-Eventsub-Message-Signature" = [] then
        (false, c.signalFailure "missing_headers")
      else if (headers.Get "Twitch-Eventsub-Message-Signature").length ≤ 7
          ∨ (headers.Get "Twitch-Eventsub-Message-Signature").take 7 ≠ sigPrefix then
        (false, c.signalFailure "bad_signature")
      else if hexDecodeString ((headers.Get "Twitch-Eventsub-Message-Signature").drop 7)
          = some (hmacSha256 c.webhookSecret
              (headers.Get "Twitch-Eventsub-Message-Id"
                ++ headers.Get "Twitch-Eventsub-Message-Timestamp" ++ body)) then
        (true, [])
      else (false, c.signalFailure "bad_signature")) := by
  unfold verifySignature
  simp only [sigPrefix_length, goSlice]
  generalize headers.Get "Twitch-Eventsub-Message-Id" = msgID
  generalize headers.Get "Twitch-Eventsub-Message-Timestamp" = timestamp
  generalize headers.Get "Twitch-Eventsub-Message-Signature" = sig
  by_cases h1 : msgID = [] ∨ timestamp = [] ∨ sig = []
  · rw [if_pos h1, if_pos h1]
  · rw [if_neg h1, if_neg h1]
    by_cases h2 : sig.length ≤ 7
    · rw [if_pos h2, if_pos (Or.inl h2)]
    · have h6 : 0 ≤ 7 ∧ 7 ≤ sig.length := ⟨by omega, by omega⟩
      have h7 : 7 ≤ sig.length ∧ sig.length ≤ sig.length := ⟨by omega, le_refl _⟩
      rw [if_neg h2, if_pos h6]
      simp only [List.drop_zero, if_pos h7, List.take_length]
      by_cases h3 : sig.take 7 = sigPrefix
      · have h8 : ¬ (sig.length ≤ 7 ∨ sig.take 7 ≠ sigPrefix) := by
          rintro (h | h)
          · exact h2 h
          · exact h h3
        rw [if_neg (not_not.mpr h3), if_neg h8]
        rcases hd : hexDecodeString (sig.drop 7) with _ | provided
        · simp
        · by_cases h9 : provided = hmacSha256 c.webhookSecret (msgID ++ timestamp ++ body)
          · simp [h9, (hmacEqual_iff _ _).2 rfl]
          · have h10 : hmacEqual provided
                (hmacSha256 c.webhookSecret (msgID ++ timestamp ++ body)) = false := by
              rw [Bool.eq_false_iff]
              exact fun h => h9 ((hmacEqual_iff _ _).1 h)
            rw [List.append_assoc] at h9 h10
            simp [h9, h10]
      · rw [if_pos h3, if_pos (Or.inr h3)]

theorem hexEncodeToString_length (d : Bytes) :
    (hexEncodeToString d).length = 2 * d.length := by
  induction d with
  | nil => rfl
  | cons b rest ih => simp [hexEncodeToString, ih]; omega

theorem verdict_eq (c : Client σ) (headers : Header) (body : Bytes) :
    verdict c headers body = .ok (
      if headers.Get "Twitch-Eventsub-Message-Id" = []
          ∨ headers.Get "Twitch-Eventsub-Message-Timestamp" = []
          ∨ headers.Get "Twitch-Eventsub-Message-Signature" = [] then false
      else if (headers.Get "Twitch-Eventsub-Message-Signature").length ≤ 7
          ∨ (headers.Get "Twitch-Eventsub-Message-Signature").take 7 ≠ sigPrefix then false
      else if hexDecodeString ((headers.Get "Twitch-Eventsub-Message-Signature").drop 7)
          = some (hmacSha256 c.webhookSecret
              (headers.Get "Twitch-Eventsub-Message-Id"
                ++ headers.Get "Twitch-Eventsub-Message-Timestamp" ++ body)) then true
      else false) := by
  unfold verdict
  rw [verifySignature_eq]
  simp only [Except.map]
  split_ifs <;> rfl

/-- When the message id and the timestamp are present, the verifier accepts exactly
the headers `sha256=` followed by digits that fold to the lower-case encoding of
the digest. -/
theorem verdict_true_iff (c : Client σ) (headers : Header) (body : Bytes)
    (hid : headers.Get "Twitch-Eventsub-Message-Id" ≠ [])
    (hts : headers.Get "Twitch-Eventsub-Message-Timestamp" ≠ []) :
    verdict c headers body = .ok true ↔
      ∃ digits, headers.Get "Twitch-Eventsub-Message-Signature" = sigPrefix ++ digits
        ∧ digits.map lowerHex = hexEncodeToString (hmacSha256 c.webhookSecret
            (headers.Get "Twitch-Eventsub-Message-Id"
              ++ headers.Get "Twitch-Eventsub-Message-Timestamp" ++ body)) := by
  rw [verdict_eq]
  have hlen := hmacSha256_length c.webhookSecret
    (headers.Get "Twitch-Eventsub-Message-Id"
      ++ headers.Get "Twitch-Eventsub-Message-Timestamp" ++ body)
  generalize headers.Get "Twitch-Eventsub-Message-Signature" = sig
  generalize hmacSha256 c.webhookSecret
    (headers.Get "Twitch-Eventsub-Message-Id"
      ++ headers.Get "Twitch-Eventsub-Message-Timestamp" ++ body) = mac at *
  constructor
  · intro h
    split_ifs at h with h1 h2 h3
    · simp at h
    · simp at h
    · refine ⟨sig.drop 7, ?_, (hexDecodeString_eq_some_iff _ _).1 h3⟩
      have h4 : sig.take 7 = sigPrefix := by
        by_contra hne
        exact h2 (Or.inr hne)
      rw [← h4]
      exact (List.take_append_drop 7 sig).symm
    · simp at h
  · rintro ⟨digits, rfl, hd⟩
    have hdl : digits.length = 64 := by
      have hl := congrArg List.length hd
      simpa [hexEncodeToString_length, hlen] using hl
    have h1 : ¬ (headers.Get "Twitch-Eventsub-Message-Id" = []
        ∨ headers.Get "Twitch-Eventsub-Message-Timestamp" = []
        ∨ sigPrefix ++ digits = []) := by
      rintro (h | h | h)
      · exact hid h
      · exact hts h
      · have hl := congrArg List.length h
        simp [sigPrefix_length] at hl
    have htake : (sigPrefix ++ digits).take 7 = sigPrefix := by
      rw [List.take_left' sigPrefix_length]
    have hdrop : (sigPrefix ++ digits).drop 7 = digits := by
      rw [List.drop_left' sigPrefix_length]
    have h2 : ¬ ((sigPrefix ++ digits).length ≤ 7 ∨ (sigPrefix ++ digits).take 7 ≠ sigPrefix) := by
      rintro (h | h)
      · simp [sigPrefix_length, hdl] at h
      · exact h htake
    rw [if_neg h1, if_neg h2, hdrop, if_pos ((hexDecodeString_eq_some_iff _ _).2 hd)]

theorem lowerHex_hexDigit (n : Fin 16) : lowerHex (hexDigit n.val) = hexDigit n.val := by
  revert n
  decide

theorem map_lowerHex_hexEncodeToString (d : Bytes) :
    (hexEncodeToString d).map lowerHex = hexEncodeToString d := by
  induction d with
  | nil => rfl
  | cons b rest ih =>
    have hb := b.isLt
    have h1 := lowerHex_hexDigit ⟨b.val / 16, by omega⟩
    have h2 := lowerHex_hexDigit ⟨b.val % 16, by omega⟩
    simp only [hexEncodeToString, List.map_cons, ih]
    rw [h1, h2]

theorem verdict_ok (c : Client σ) (headers : Header) (body : Bytes) :
    verdict c headers body = .ok true ∨ verdict c headers body = .ok false := by
  rw [verdict_eq]
  split_ifs <;> simp

theorem verdict_true_parts (c : Client σ) (headers : Header) (body : Bytes)
    (h : verdict c headers body = .ok true) :
    headers.Get "Twitch-Eventsub-Message-Id" ≠ []
      ∧ headers.Get "Twitch-Eventsub-Message-Timestamp" ≠ []
      ∧ hexDecodeString ((headers.Get "Twitch-Eventsub-Message-Signature").drop 7)
          = some (hmacSha256 c.webhookSecret
              (headers.Get "Twitch-Eventsub-Message-Id"
                ++ headers.Get "Twitch-Eventsub-Message-Timestamp" ++ body)) := by
  rw [verdict_eq] at h
  split_ifs at h with h1 h2 h3
  · simp at h
  · simp at h
  · exact ⟨fun hx => h1 (Or.inl hx), fun hx => h1 (Or.inr (Or.inl hx)), h3⟩
  · simp at h

theorem set_eq_self_iff {α : Type} (d : α) :
    ∀ (l : List α) (i : Nat) (b : α), i < l.length → (l.set i b = l ↔ b = l.getD i d)
  | [], _, _, h => by simp at h
  | a :: l, 0, b, _ => by simp
  | a :: l, i + 1, b, h => by
      have ih := set_eq_self_iff d l i b (by simpa using h)
      simpa using ih

/-! ## Signature verifier -/

/-- The HMAC test vector of RFC 4231, case 2, through the model of `crypto/hmac`. -/
theorem hmacSha256_rfc4231_case2 :
    hexEncodeToString (hmacSha256 (ascii "Jefe") (ascii "what do ya want for nothing?"))
      = ascii "5bdcc146bf60754e6a042426089575c75a003f089d2739839dec58b964ec3843" := by
  decide!

/-- The SHA-256 test vector of FIPS 180-4 for `abc`. -/
theorem sha256_abc :
    hexEncodeToString (Sha256.sum (ascii "abc"))
      = ascii "ba7816bf8f01cfea414140de5dae2223b00361a396177a9cb410ff61f20015ad" := by
  decide!

/-- C1, counterexample: the sample request signed with the digest written in
upper-case hexadecimal is accepted, although its signature header is not `sha256=`
followed by the (lower-case) hex encoding of the digest. -/
theorem verifySignature_accepts_upper_case_digest :
    sampleMessageID ≠ [] ∧ sampleTimestamp ≠ []
      ∧ verdict sampleClient
          (signedHeaders sampleMessageID sampleTimestamp sampleSignatureUpper) sampleBody
          = .ok true
      ∧ sampleSignatureUpper ≠ ascii "sha256=" ++ hexEncodeToString
          (hmacSha256 sampleClient.webhookSecret
            (sampleMessageID ++ sampleTimestamp ++ sampleBody)) := by
  decide!

/-- C1, as amended: with a non-empty message id and timestamp, `verifySignature`
returns true if and only if the signature header is `sha256=` followed by digits
that, with the letters `A`..`F` folded to lower case, are the hex encoding of
HMAC-SHA256(secret, messageID ‖ timestamp ‖ body); the header with the lower-case
encoding itself is accepted. -/
theorem verifySignature_true_iff_hex_digest (c : Client σ) (headers : Header) (body : Bytes)
    (hid : headers.Get "Twitch-Eventsub-Message-Id" ≠ [])
    (hts : headers.Get "Twitch-Eventsub-Message-Timestamp" ≠ []) :
    (verdict c headers body = .ok true ↔
      ∃ digits, headers.Get "Twitch-Eventsub-Message-Signature" = ascii "sha256=" ++ digits
        ∧ digits.map lowerHex = hexEncodeToString (hmacSha256 c.webhookSecret
            (headers.Get "Twitch-Eventsub-Message-Id"
              ++ headers.Get "Twitch-Eventsub-Message-Timestamp" ++ body)))
    ∧ (headers.Get "Twitch-Eventsub-Message-Signature"
          = ascii "sha256=" ++ hexEncodeToString (hmacSha256 c.webhookSecret
            (headers.Get "Twitch-Eventsub-Message-Id"
              ++ headers.Get "Twitch-Eventsub-Message-Timestamp" ++ body))
        → verdict c headers body = .ok true) := by
  have key := verdict_true_iff c headers body hid hts
  refine ⟨key, fun h => key.2 ⟨_, h, map_lowerHex_hexEncodeToString _⟩⟩

/-- The amended C1 at the sample request. -/
theorem verifySignature_true_iff_hex_digest_witness :
    (verdict sampleClient
        (signedHeaders sampleMessageID sampleTimestamp sampleSignature) sampleBody = .ok true ↔
      ∃ digits, (signedHeaders sampleMessageID sampleTimestamp sampleSignature).Get
            "Twitch-Eventsub-Message-Signature" = ascii "sha256=" ++ digits
        ∧ digits.map lowerHex = hexEncodeToString (hmacSha256 sampleClient.webhookSecret
            ((signedHeaders sampleMessageID sampleTimestamp sampleSignature).Get
                "Twitch-Eventsub-Message-Id"
              ++ (signedHeaders sampleMessageID sampleTimestamp sampleSignature).Get
                "Twitch-Eventsub-Message-Timestamp" ++ sampleBody)))
    ∧ ((signedHeaders sampleMessageID sampleTimestamp sampleSignature).Get
            "Twitch-Eventsub-Message-Signature"
          = ascii "sha256=" ++ hexEncodeToString (hmacSha256 sampleClient.webhookSecret
            ((signedHeaders sampleMessageID sampleTimestamp sampleSignature).Get
                "Twitch-Eventsub-Message-Id"
              ++ (signedHeaders sampleMessageID sampleTimestamp sampleSignature).Get
                "Twitch-Eventsub-Message-Timestamp" ++ sampleBody))
        → verdict sampleClient
            (signedHeaders sampleMessageID sampleTimestamp sampleSignature) sampleBody
            = .ok true) :=
  verifySignature_true_iff_hex_digest sampleClient
    (signedHeaders sampleMessageID sampleTimestamp sampleSignature) sampleBody
    (by decide) (by decide)

/-- C2, counterexample: in the accepted sample request, changing the single byte
at index 7 of the signature header from `f` to `F` leaves the request accepted. -/
theorem verifySignature_accepts_after_case_change :
    verdict sampleClient
        (signedHeaders sampleMessageID sampleTimestamp sampleSignature) sampleBody = .ok true
      ∧ sampleSignature.getD 7 0 = 102
      ∧ sampleSignature.set 7 70 ≠ sampleSignature
      ∧ verdict sampleClient
          (signedHeaders sampleMessageID sampleTimestamp (sampleSignature.set 7 70)) sampleBody
          = .ok true := by
  decide!

theorem verdict_after_signature_change (c : Client σ) (headers headers' : Header)
    (body : Bytes) (i : Nat) (b : Byte)
    (hacc : verdict c headers body = .ok true)
    (hid : headers'.Get "Twitch-Eventsub-Message-Id"
      = headers.Get "Twitch-Eventsub-Message-Id")
    (hts : headers'.Get "Twitch-Eventsub-Message-Timestamp"
      = headers.Get "Twitch-Eventsub-Message-Timestamp")
    (hsig : headers'.Get "Twitch-Eventsub-Message-Signature"
      = (headers.Get "Twitch-Eventsub-Message-Signature").set i b)
    (hi : i < (headers.Get "Twitch-Eventsub-Message-Signature").length)
    (hb : b ≠ (headers.Get "Twitch-Eventsub-Message-Signature").getD i 0) :
    verdict c headers' body = .ok true ↔
      7 ≤ i ∧ lowerHex b
        = lowerHex ((headers.Get "Twitch-Eventsub-Message-Signature").getD i 0) := by
  obtain ⟨h1, h2, -⟩ := verdict_true_parts c headers body hacc
  obtain ⟨digits, hd, hm⟩ := (verdict_true_iff c headers body h1 h2).1 hacc
  rw [verdict_true_iff c headers' body (by rw [hid]; exact h1) (by rw [hts]; exact h2),
    hid, hts, hsig]
  rw [hd] at hi hb ⊢
  generalize hmacSha256 c.webhookSecret
    (headers.Get "Twitch-Eventsub-Message-Id"
      ++ headers.Get "Twitch-Eventsub-Message-Timestamp" ++ body) = mac at hm ⊢
  by_cases h7 : i < 7
  · have hne : ¬ 7 ≤ i := by omega
    have hip : i < sigPrefix.length := by rw [sigPrefix_length]; exact h7
    simp only [hne, false_and, iff_false]
    rintro ⟨digits', he, -⟩
    rw [List.set_append_left i b hip] at he
    have hl : (sigPrefix.set i b).length = sigPrefix.length := List.length_set _ _ _
    have hp := (List.append_inj he hl).1
    have hb' := (set_eq_self_iff (0 : Byte) sigPrefix i b hip).1 hp
    apply hb
    rw [hb', List.getD_append _ _ _ _ hip]
  · have h7' : 7 ≤ i := by omega
    have hip : sigPrefix.length ≤ i := by rw [sigPrefix_length]; exact h7'
    have hj : i - sigPrefix.length < digits.length := by
      rw [List.length_append] at hi
      omega
    have hold : (sigPrefix ++ digits).getD i 0 = digits.getD (i - sigPrefix.length) 0 := by
      rw [List.getD_append_right _ _ _ _ hip]
    rw [List.set_append_right i b hip, hold]
    simp only [h7', true_and]
    constructor
    · rintro ⟨digits', he, hm'⟩
      have hdig := List.append_cancel_left he
      rw [← hdig, List.map_set, ← hm] at hm'
      have hjm : i - sigPrefix.length < (digits.map lowerHex).length := by
        rw [List.length_map]; exact hj
      have hx := (set_eq_self_iff (0 : Byte) (digits.map lowerHex) _ _ hjm).1 hm'
      rw [hx, List.getD_eq_getElem _ _ hjm, List.getD_eq_getElem _ _ hj, List.getElem_map]
    · intro hx
      refine ⟨digits.set (i - sigPrefix.length) b, rfl, ?_⟩
      have hjm : i - sigPrefix.length < (digits.map lowerHex).length := by
        rw [List.length_map]; exact hj
      rw [List.map_set, ← hm]
      apply (set_eq_self_iff (0 : Byte) (digits.map lowerHex) _ _ hjm).2
      rw [hx, List.getD_eq_getElem _ _ hjm, List.getD_eq_getElem _ _ hj, List.getElem_map]

theorem verdict_after_message_change (c : Client σ) (headers headers' : Header)
    (body body' : Bytes)
    (hacc : verdict c headers body = .ok true)
    (hsig : headers'.Get "Twitch-Eventsub-Message-Signature"
      = headers.Get "Twitch-Eventsub-Message-Signature")
    (hmac : hmacSha256 c.webhookSecret
        (headers'.Get "Twitch-Eventsub-Message-Id"
          ++ headers'.Get "Twitch-Eventsub-Message-Timestamp" ++ body')
      ≠ hmacSha256 c.webhookSecret
        (headers.Get "Twitch-Eventsub-Message-Id"
          ++ headers.Get "Twitch-Eventsub-Message-Timestamp" ++ body)) :
    verdict c headers' body' = .ok false := by
  obtain ⟨-, -, h3⟩ := verdict_true_parts c headers body hacc
  rw [verdict_eq, hsig, h3]
  split_ifs with h4 h5 h6
  · rfl
  · rfl
  · exact absurd (Option.some.inj h6).symm hmac
  · rfl

/-- C2, as amended: for every request that `verifySignature` accepts, (1) changing
a single byte of the signature header makes it return false, unless the byte lies
in the digest part (index 7 or later) and the change only switches the letter
case of a hexadecimal digit, in which case it still returns true; (2) changing the
message id, the timestamp or the body makes it return false whenever the
HMAC-SHA256 of the changed concatenation differs from that of the original. -/
theorem verifySignature_rejects_changed_request (c : Client σ) (headers headers' : Header)
    (body body' : Bytes)
    (hacc : verdict c headers body = .ok true) :
    (∀ (i : Nat) (b : Byte),
        headers'.Get "Twitch-Eventsub-Message-Id"
          = headers.Get "Twitch-Eventsub-Message-Id" →
        headers'.Get "Twitch-Eventsub-Message-Timestamp"
          = headers.Get "Twitch-Eventsub-Message-Timestamp" →
        headers'.Get "Twitch-Eventsub-Message-Signature"
          = (headers.Get "Twitch-Eventsub-Message-Signature").set i b →
        i < (headers.Get "Twitch-Eventsub-Message-Signature").length →
        b ≠ (headers.Get "Twitch-Eventsub-Message-Signature").getD i 0 →
        verdict c headers' body = .ok (decide (7 ≤ i ∧ lowerHex b
          = lowerHex ((headers.Get "Twitch-Eventsub-Message-Signature").getD i 0))))
    ∧ (headers'.Get "Twitch-Eventsub-Message-Signature"
          = headers.Get "Twitch-Eventsub-Message-Signature" →
        hmacSha256 c.webhookSecret
            (headers'.Get "Twitch-Eventsub-Message-Id"
              ++ headers'.Get "Twitch-Eventsub-Message-Timestamp" ++ body')
          ≠ hmacSha256 c.webhookSecret
            (headers.Get "Twitch-Eventsub-Message-Id"
              ++ headers.Get "Twitch-Eventsub-Message-Timestamp" ++ body) →
        verdict c headers' body' = .ok false) := by
  refine ⟨?_, verdict_after_message_change c headers headers' body body' hacc⟩
  intro i b hid hts hsig hi hb
  have key := verdict_after_signature_change c headers headers' body i b hacc hid hts hsig hi hb
  rcases verdict_ok c headers' body with h | h
  · rw [h, decide_eq_true (key.1 h)]
  · have hn : ¬ (7 ≤ i ∧ lowerHex b
        = lowerHex ((headers.Get "Twitch-Eventsub-Message-Signature").getD i 0)) := by
      intro hp
      have ht := key.2 hp
      rw [h] at ht
      exact absurd ht (by simp)
    rw [h, decide_eq_false hn]

/-- The amended C2 at the sample request: replacing the digest digit `4` at index 8
of the signature header by `0`, and replacing the first byte of the body, both
make the verifier return false. -/
theorem verifySignature_rejects_changed_request_witness :
    verdict sampleClient
        (signedHeaders sampleMessageID sampleTimestamp sampleSignature) sampleBody = .ok true
      ∧ verdict sampleClient
          (signedHeaders sampleMessageID sampleTimestamp (sampleSignature.set 8 48)) sampleBody
          = .ok false
      ∧ verdict sampleClient
          (signedHeaders sampleMessageID sampleTimestamp sampleSignature) (sampleBody.set 0 91)
          = .ok false :=
  ⟨by decide!,
   ((verifySignature_rejects_changed_request sampleClient
      (signedHeaders sampleMessageID sampleTimestamp sampleSignature)
      (signedHeaders sampleMessageID sampleTimestamp (sampleSignature.set 8 48))
      sampleBody sampleBody (by decide!)).1 8 48 rfl rfl rfl (by decide) (by decide)).trans
      (by decide),
   (verifySignature_rejects_changed_request sampleClient
      (signedHeaders sampleMessageID sampleTimestamp sampleSignature)
      (signedHeaders sampleMessageID sampleTimestamp sampleSignature)
      sampleBody (sampleBody.set 0 91) (by decide!)).2 rfl (by decide!)⟩

/-! ### Failure hook -/

/-- C3: `verifySignature` never panics; with a failure hook registered, a false
verdict comes with exactly one hook invocation, whose reason is `missing_headers`
exactly when the message id, timestamp or signature header is absent or empty and
`bad_signature` in every other failing case (no `sha256=` prefix, an empty or
non-hexadecimal digest, a digest mismatch); a true verdict comes with no hook
invocation. -/
theorem verifySignature_hook_reason (c : Client σ) (headers : Header) (body : Bytes)
    (hook : c.onSignatureFailure = true) :
    ∃ verified calls, verifySignature c headers body = .ok (verified, calls)
      ∧ (verified = true → calls = [])
      ∧ (verified = false →
          (calls = ["missing_headers"] ∨ calls = ["bad_signature"])
          ∧ (calls = ["missing_headers"] ↔
              (headers.Get "Twitch-Eventsub-Message-Id" = []
                ∨ headers.Get "Twitch-Eventsub-Message-Timestamp" = []
                ∨ headers.Get "Twitch-Eventsub-Message-Signature" = [])))
      ∧ (verified = false ↔
          (headers.Get "Twitch-Eventsub-Message-Id" = []
            ∨ headers.Get "Twitch-Eventsub-Message-Timestamp" = []
            ∨ headers.Get "Twitch-Eventsub-Message-Signature" = [])
          ∨ (headers.Get "Twitch-Eventsub-Message-Signature").length ≤ 7
          ∨ (headers.Get "Twitch-Eventsub-Message-Signature").take 7 ≠ ascii "sha256="
          ∨ hexDecodeString ((headers.Get "Twitch-Eventsub-Message-Signature").drop 7)
              ≠ some (hmacSha256 c.webhookSecret
                  (headers.Get "Twitch-Eventsub-Message-Id"
                    ++ headers.Get "Twitch-Eventsub-Message-Timestamp" ++ body))) := by
  rw [verifySignature_eq]
  have hfire : ∀ reason, c.signalFailure reason = [reason] := by
    intro reason
    simp [Client.signalFailure, hook]
  simp only [hfire]
  split_ifs with h1 h2 h3
  · exact ⟨false, ["missing_headers"], rfl, by simp, by simp [h1], by simp [h1]⟩
  · refine ⟨false, ["bad_signature"], rfl, by simp, by simp [h1], ?_⟩
    simp only [true_iff]
    rcases h2 with h2 | h2
    · exact Or.inr (Or.inl h2)
    · exact Or.inr (Or.inr (Or.inl h2))
  · refine ⟨true, [], rfl, by simp, by simp, ?_⟩
    simp only [Bool.true_eq_false, false_iff]
    rintro (h | h | h | h)
    · exact h1 h
    · exact h2 (Or.inl h)
    · exact h2 (Or.inr h)
    · exact h h3
  · refine ⟨false, ["bad_signature"], rfl, by simp, by simp [h1], ?_⟩
    simp only [true_iff]
    exact Or.inr (Or.inr (Or.inr h3))

/-- C3 at the sample client, for a request without any header: one hook
invocation, with reason `missing_headers`. -/
theorem verifySignature_hook_reason_witness :
    sampleClient.onSignatureFailure = true
      ∧ verifySignature sampleClient [] sampleBody = .ok (false, ["missing_headers"])
      ∧ ∃ verified calls, verifySignature sampleClient [] sampleBody = .ok (verified, calls)
        ∧ (verified = true → calls = [])
        ∧ (verified = false →
            (calls = ["missing_headers"] ∨ calls = ["bad_signature"])
            ∧ (calls = ["missing_headers"] ↔
                (Header.Get [] "Twitch-Eventsub-Message-Id" = []
                  ∨ Header.Get [] "Twitch-Eventsub-Message-Timestamp" = []
                  ∨ Header.Get [] "Twitch-Eventsub-Message-Signature" = [])))
        ∧ (verified = false ↔
            (Header.Get [] "Twitch-Eventsub-Message-Id" = []
              ∨ Header.Get [] "Twitch-Eventsub-Message-Timestamp" = []
              ∨ Header.Get [] "Twitch-Eventsub-Message-Signature" = [])
            ∨ (Header.Get [] "Twitch-Eventsub-Message-Signature").length ≤ 7
            ∨ (Header.Get [] "Twitch-Eventsub-Message-Signature").take 7 ≠ ascii "sha256="
            ∨ hexDecodeString ((Header.Get [] "Twitch-Eventsub-Message-Signature").drop 7)
                ≠ some (hmacSha256 sampleClient.webhookSecret
                    (Header.Get [] "Twitch-Eventsub-Message-Id"
                      ++ Header.Get [] "Twitch-Eventsub-Message-Timestamp" ++ sampleBody))) :=
  ⟨rfl, by decide, verifySignature_hook_reason sampleClient [] sampleBody rfl⟩

/-! ### Webhook handler -/

theorem verifySignature_of_verdict (c : Client σ) (headers : Header) (body : Bytes)
    (v : Bool) (h : verdict c headers body = .ok v) :
    ∃ calls, verifySignature c headers body = .ok (v, calls) ∧ (v = true → calls = []) := by
  unfold verdict at h
  rw [verifySignature_eq] at h ⊢
  simp only [Except.map, Except.ok.injEq] at h
  split_ifs at h ⊢ <;> subst h <;> exact ⟨_, rfl, by simp⟩

/-- C4: for a request whose body was read, a failed verification makes the handler
answer 403 (its only status) without calling the downstream dispatcher, and a
successful one makes it call the downstream dispatcher exactly once, with the
request's headers and a body equal to the bytes the digest was computed over,
and do nothing else. -/
theorem Handler_forbidden_or_downstream (c : Client σ) (headers : Header) (body : Bytes) :
    (verdict c headers body = .ok false →
      ∃ effects, Handler c { Header := headers, Body := .ok body } = .ok effects
        ∧ HandlerEffect.writeHeader 403 ∈ effects
        ∧ (∀ status, HandlerEffect.writeHeader status ∈ effects → status = 403)
        ∧ (∀ h b, HandlerEffect.downstream h b ∉ effects))
    ∧ (verdict c headers body = .ok true → c.cl = true →
        Handler c { Header := headers, Body := .ok body }
          = .ok [HandlerEffect.downstream headers body]) := by
  constructor
  · intro hv
    obtain ⟨calls, hc, -⟩ := verifySignature_of_verdict c headers body false hv
    refine ⟨calls.map HandlerEffect.signatureFailure ++ [HandlerEffect.writeHeader 403],
      by simp [Handler, hc], by simp, ?_, ?_⟩
    · intro status hs
      simpa using hs
    · intro h b hm
      simp at hm
  · intro hv hcl
    obtain ⟨calls, hc, hnil⟩ := verifySignature_of_verdict c headers body true hv
    simp [Handler, hc, hnil rfl, hcl]

/-- C4 at the sample request and at the same request with a truncated digest. -/
theorem Handler_forbidden_or_downstream_witness :
    (verdict sampleClient (signedHeaders sampleMessageID sampleTimestamp (ascii "sha256=f43b"))
        sampleBody = .ok false
      ∧ Handler sampleClient
          { Header := signedHeaders sampleMessageID sampleTimestamp (ascii "sha256=f43b"),
            Body := .ok sampleBody }
          = .ok [HandlerEffect.signatureFailure "bad_signature", HandlerEffect.writeHeader 403])
    ∧ verdict sampleClient (signedHeaders sampleMessageID sampleTimestamp sampleSignature)
        sampleBody = .ok true
    ∧ sampleClient.cl = true
    ∧ Handler sampleClient
        { Header := signedHeaders sampleMessageID sampleTimestamp sampleSignature,
          Body := .ok sampleBody }
        = .ok [HandlerEffect.downstream
            (signedHeaders sampleMessageID sampleTimestamp sampleSignature) sampleBody] :=
  ⟨⟨by decide!, by decide!⟩, by decide!, rfl,
    (Handler_forbidden_or_downstream sampleClient
      (signedHeaders sampleMessageID sampleTimestamp sampleSignature) sampleBody).2
      (by decide!) rfl⟩

/-! ## Subscription reconciler -/

theorem alreadySubscribed_iff (webhookURL eventType : String) (condition : EventSubCondition)
    (l : List EventSubSubscription) :
    alreadySubscribed webhookURL eventType condition l = true ↔
      ∃ v ∈ l, SatisfiedBy webhookURL eventType condition v := by
  induction l with
  | nil => simp [alreadySubscribed]
  | cons v rest ih =>
    unfold alreadySubscribed
    simp only [List.mem_cons, exists_eq_or_imp, SatisfiedBy]
    split_ifs with h1 h2 h3 h4
    · rw [ih]
      simp only [SatisfiedBy]
      constructor
      · exact fun h => Or.inr h
      · rintro (h | h)
        · exact absurd h.1 h1
        · exact h
    · rw [ih]
      simp only [SatisfiedBy]
      constructor
      · exact fun h => Or.inr h
      · rintro (h | h)
        · exact absurd h.2.1 h2
        · exact h
    · rw [ih]
      simp only [SatisfiedBy]
      constructor
      · exact fun h => Or.inr h
      · rintro (h | h)
        · exact absurd h.2.2.1 h3
        · exact h
    · simp only [true_iff]
      exact Or.inl ⟨not_not.mp h1, not_not.mp h2, not_not.mp h3, h4⟩
    · rw [ih]
      simp only [SatisfiedBy]
      constructor
      · exact fun h => Or.inr h
      · rintro (h | h)
        · exact absurd h.2.2.2 h4
        · exact h

theorem subscribeWithClient_of_satisfied (c : Client σ) (client : HelixClient σ) (s : σ)
    (eventType version : String) (condition : EventSubCondition)
    (listing : EventSubSubscriptionsResponse)
    (hcl : c.cl = true)
    (hlist : client.GetEventSubSubscriptions s
      { Status := "", Type_ := eventType, UserID := filterUserID condition } = .ok listing)
    (hsat : ∃ v ∈ listing.EventSubSubscriptions,
      SatisfiedBy c.webhookURL eventType condition v) :
    (subscribeWithClient c (some client) s eventType version condition).err = none
      ∧ (subscribeWithClient c (some client) s eventType version condition).created = []
      ∧ (subscribeWithClient c (some client) s eventType version condition).registry = s := by
  have ha := (alreadySubscribed_iff c.webhookURL eventType condition _).2 hsat
  simp [subscribeWithClient, hcl, hlist, ha]

theorem sampleRegistryClient_reflects : Reflects sampleRegistryClient := by
  intro s req res hres hcode
  by_cases hany : (s.any (fun v => v.Type_ = req.Type_ ∧ v.Condition = req.Condition)) = true
  · simp only [sampleRegistryClient, hany, if_true] at hres
    have h409 : res.StatusCode = 409 := by
      have hr := Except.ok.inj hres
      rw [← hr]
    omega
  · simp only [sampleRegistryClient, hany, Bool.false_eq_true, if_false]
    refine ⟨_, rfl, { req with Status := "webhook_callback_verification_pending" }, ?_, ?_⟩
    · simp
    · simp [SatisfiedBy]

/-- C5: when the listing returned to `subscribeWithClient` holds a subscription of
the same type, with the client's webhook URL as callback, an equal condition and
status enabled or pending verification, the call returns nil, sends no create
request and leaves the registry alone; hence, against a registry that reflects
what it accepted, a second call with the same type and condition after a first
call that returned nil sends no create request and returns nil. `SubscribeApp`
and `SubscribeUser` are this function on the app and the user client. -/
theorem subscribeWithClient_idempotent (c : Client σ) (client : HelixClient σ) (s : σ)
    (eventType version version' : String) (condition : EventSubCondition)
    (hcl : c.cl = true) :
    (∀ listing,
        client.GetEventSubSubscriptions s
          { Status := "", Type_ := eventType, UserID := filterUserID condition } = .ok listing →
        (∃ v ∈ listing.EventSubSubscriptions,
          v.Type_ = eventType ∧ v.Transport.Callback = c.webhookURL ∧ v.Condition = condition
            ∧ (v.Status = "enabled" ∨ v.Status = "webhook_callback_verification_pending")) →
        (subscribeWithClient c (some client) s eventType version condition).err = none
          ∧ (subscribeWithClient c (some client) s eventType version condition).created = []
          ∧ (subscribeWithClient c (some client) s eventType version condition).registry = s)
    ∧ (Reflects client →
        (subscribeWithClient c (some client) s eventType version condition).err = none →
        (subscribeWithClient c (some client)
            (subscribeWithClient c (some client) s eventType version condition).registry
            eventType version' condition).err = none
          ∧ (subscribeWithClient c (some client)
              (subscribeWithClient c (some client) s eventType version condition).registry
              eventType version' condition).created = [])
    ∧ (c.appClient = some client →
        SubscribeApp c s eventType version condition
          = subscribeWithClient c (some client) s eventType version condition)
    ∧ (c.userClient = some client →
        SubscribeUser c s eventType version condition
          = subscribeWithClient c (some client) s eventType version condition) := by
  refine ⟨fun listing hlist hsat =>
    subscribeWithClient_of_satisfied c client s eventType version condition listing hcl hlist hsat,
    ?_, fun h => by simp [SubscribeApp, h], fun h => by simp [SubscribeUser, h]⟩
  intro hrefl hfirst
  rcases hlist : client.GetEventSubSubscriptions s
      { Status := "", Type_ := eventType, UserID := filterUserID condition } with e | listing
  · simp [subscribeWithClient, hcl, hlist] at hfirst
  · by_cases ha : alreadySubscribed c.webhookURL eventType condition
        listing.EventSubSubscriptions = true
    · have hsat := (alreadySubscribed_iff c.webhookURL eventType condition _).1 ha
      have h1 := subscribeWithClient_of_satisfied c client s eventType version condition
        listing hcl hlist hsat
      rw [h1.2.2]
      have h2 := subscribeWithClient_of_satisfied c client s eventType version' condition
        listing hcl hlist hsat
      exact ⟨h2.1, h2.2.1⟩
    · rcases hcreate : client.CreateEventSubSubscription s
          (createRequest c eventType version condition) with ⟨s', r⟩
      rcases r with e | res
      · simp [subscribeWithClient, hcl, hlist, ha, hcreate] at hfirst
      · by_cases hcode : res.StatusCode = 202
        · have hreg : (subscribeWithClient c (some client) s eventType version condition).registry
              = s' := by
            simp [subscribeWithClient, hcl, hlist, ha, hcreate, hcode]
          rw [hreg]
          obtain ⟨listing', hl', hsat'⟩ := hrefl s (createRequest c eventType version condition)
            res (by rw [hcreate]) hcode
          rw [hcreate] at hl'
          have h2 := subscribeWithClient_of_satisfied c client s' eventType version' condition
            listing' hcl hl' hsat'
          exact ⟨h2.1, h2.2.1⟩
        · simp [subscribeWithClient, hcl, hlist, ha, hcreate, hcode] at hfirst

/-- C5 on the sample registry, starting empty: the first `SubscribeUser` sends one
create request, the second sends none, and both return nil. -/
theorem subscribeWithClient_idempotent_witness :
    sampleClient.cl = true
      ∧ (subscribeWithClient sampleClient (some sampleRegistryClient) []
          "channel.follow" "2" sampleCondition).err = none
      ∧ (subscribeWithClient sampleClient (some sampleRegistryClient) []
          "channel.follow" "2" sampleCondition).created.length = 1
      ∧ (subscribeWithClient sampleClient (some sampleRegistryClient)
            (subscribeWithClient sampleClient (some sampleRegistryClient) []
              "channel.follow" "2" sampleCondition).registry
            "channel.follow" "2" sampleCondition).err = none
      ∧ (subscribeWithClient sampleClient (some sampleRegistryClient)
            (subscribeWithClient sampleClient (some sampleRegistryClient) []
              "channel.follow" "2" sampleCondition).registry
            "channel.follow" "2" sampleCondition).created = [] :=
  ⟨rfl, by decide, by decide,
    (subscribeWithClient_idempotent sampleClient sampleRegistryClient []
      "channel.follow" "2" "2" sampleCondition rfl).2.1 sampleRegistryClient_reflects
      (by decide)⟩

/-- C6: when the listing succeeds and holds no subscription of this type, callback
and condition that is enabled or pending verification, `subscribeWithClient` sends
exactly one create request, carrying the type, the version (`1` for an empty
version), the condition and a webhook transport with the client's callback URL
and secret; it returns nil exactly when the request is answered with status 202,
an error joining `failed to create subscription` with the upstream error message
when it is answered with another status, and the client's error when the request
itself fails. -/
theorem subscribeWithClient_creates_once (c : Client σ) (client : HelixClient σ) (s : σ)
    (eventType version : String) (condition : EventSubCondition)
    (listing : EventSubSubscriptionsResponse)
    (hcl : c.cl = true)
    (hlist : client.GetEventSubSubscriptions s
      { Status := "", Type_ := eventType, UserID := filterUserID condition } = .ok listing)
    (hnone : ∀ v ∈ listing.EventSubSubscriptions,
      ¬ (v.Type_ = eventType ∧ v.Transport.Callback = c.webhookURL ∧ v.Condition = condition
          ∧ (v.Status = "enabled" ∨ v.Status = "webhook_callback_verification_pending"))) :
    (subscribeWithClient c (some client) s eventType version condition).created
        = [{ ID := "", Type_ := eventType, Version := if version = "" then "1" else version,
             Status := "", Condition := condition,
             Transport := { Method := "webhook", Callback := c.webhookURL,
                            Secret := c.webhookSecret } }]
      ∧ ((subscribeWithClient c (some client) s eventType version condition).err = none ↔
          ∃ res, (client.CreateEventSubSubscription s
              { ID := "", Type_ := eventType, Version := if version = "" then "1" else version,
                Status := "", Condition := condition,
                Transport := { Method := "webhook", Callback := c.webhookURL,
                               Secret := c.webhookSecret } }).2 = .ok res
            ∧ res.StatusCode = 202)
      ∧ (∀ res, (client.CreateEventSubSubscription s
              { ID := "", Type_ := eventType, Version := if version = "" then "1" else version,
                Status := "", Condition := condition,
                Transport := { Method := "webhook", Callback := c.webhookURL,
                               Secret := c.webhookSecret } }).2 = .ok res →
          res.StatusCode ≠ 202 →
          (subscribeWithClient c (some client) s eventType version condition).err
            = some (.join (.new "failed to create subscription") (.new res.ErrorMessage)))
      ∧ (∀ e, (client.CreateEventSubSubscription s
              { ID := "", Type_ := eventType, Version := if version = "" then "1" else version,
                Status := "", Condition := condition,
                Transport := { Method := "webhook", Callback := c.webhookURL,
                               Secret := c.webhookSecret } }).2 = .error e →
          (subscribeWithClient c (some client) s eventType version condition).err = some e) := by
  have ha : alreadySubscribed c.webhookURL eventType condition
      listing.EventSubSubscriptions = false := by
    rw [Bool.eq_false_iff]
    intro h
    obtain ⟨v, hv, hs⟩ := (alreadySubscribed_iff c.webhookURL eventType condition _).1 h
    exact hnone v hv hs
  show _ ∧ (_ ↔ ∃ res, (client.CreateEventSubSubscription s
      (createRequest c eventType version condition)).2 = .ok res ∧ _)
    ∧ (∀ res, (client.CreateEventSubSubscription s
      (createRequest c eventType version condition)).2 = .ok res → _)
    ∧ (∀ e, (client.CreateEventSubSubscription s
      (createRequest c eventType version condition)).2 = .error e → _)
  rcases hcreate : client.CreateEventSubSubscription s
      (createRequest c eventType version condition) with ⟨s', r⟩
  rcases r with e | res
  · simp only [subscribeWithClient, hcl, hlist, ha, hcreate]
    simp [createRequest]
  · by_cases hcode : res.StatusCode = 202
    · simp only [subscribeWithClient, hcl, hlist, ha, hcreate]
      simp [createRequest, hcode]
    · simp only [subscribeWithClient, hcl, hlist, ha, hcreate]
      simp [createRequest, hcode]

/-- C6 on the sample registry holding only a revoked subscription: one create
request with version `1` is sent, and its refusal comes back as the joined error. -/
theorem subscribeWithClient_creates_once_witness :
    sampleClient.cl = true
      ∧ (subscribeWithClient sampleClient (some sampleRegistryClient) sampleRevokedRegistry
          "channel.follow" "" sampleCondition).created
        = [{ ID := "", Type_ := "channel.follow", Version := "1", Status := "",
             Condition := sampleCondition,
             Transport := { Method := "webhook", Callback := "https://exporter.example/eventsub",
                            Secret := sampleSecret } }]
      ∧ (subscribeWithClient sampleClient (some sampleRegistryClient) sampleRevokedRegistry
          "channel.follow" "" sampleCondition).err
        = some (.join (.new "failed to create subscription")
            (.new "subscription already exists")) :=
  ⟨rfl,
   (subscribeWithClient_creates_once sampleClient sampleRegistryClient sampleRevokedRegistry
      "channel.follow" "" sampleCondition _ rfl rfl (by decide)).1,
   (subscribeWithClient_creates_once sampleClient sampleRegistryClient sampleRevokedRegistry
      "channel.follow" "" sampleCondition _ rfl rfl (by decide)).2.2.1 _ rfl (by decide)⟩

/-! ## EventSub self collector -/

theorem lookup_cons_eq {β : Type} (k k0 : String) (v0 : β) (rest : List (String × β)) :
    ((k0, v0) :: rest).lookup k = if k = k0 then some v0 else rest.lookup k := by
  by_cases h : k = k0
  · have hb : (k == k0) = true := by simpa using h
    simp [List.lookup, hb, h]
  · have hb : (k == k0) = false := by simpa using h
    simp [List.lookup, hb, h]

theorem lookup_mapStore {β : Type} (m : List (String × β)) (k k' : String) (v : β) :
    (mapStore m k v).lookup k' = if k' = k then some v else m.lookup k' := by
  induction m with
  | nil =>
    unfold mapStore
    rw [lookup_cons_eq]
  | cons kv rest ih =>
    obtain ⟨k0, v0⟩ := kv
    unfold mapStore
    by_cases h0 : k0 = k
    · subst h0
      rw [if_pos rfl, lookup_cons_eq, lookup_cons_eq]
      split_ifs <;> rfl
    · rw [if_neg h0, lookup_cons_eq, lookup_cons_eq, ih]
      by_cases h : k' = k
      · subst h
        have hne : ¬ k' = k0 := fun hx => h0 hx.symm
        simp [hne]
      · simp [h]

theorem boolAt_mapStore (m : List (String × Bool)) (k k' : String) (v : Bool) :
    boolAt (mapStore m k v) k' = if k' = k then v else boolAt m k' := by
  unfold boolAt
  rw [lookup_mapStore]
  split_ifs <;> rfl

theorem floatAt_mapIncr (m : List (String × Float64)) (k k' : String) :
    floatAt (mapIncr m k) k' = if k' = k then floatAt m k + 1 else floatAt m k' := by
  unfold mapIncr
  show ((mapStore m k (floatAt m k + 1)).lookup k').getD 0 = _
  rw [lookup_mapStore]
  split_ifs <;> rfl

theorem mem_mapStore {β : Type} (m : List (String × β)) (k : String) (v : β) :
    (k, v) ∈ mapStore m k v := by
  induction m with
  | nil => simp [mapStore]
  | cons kv rest ih =>
    unfold mapStore
    split_ifs <;> simp [ih]

/-- C7: when `HasUserScope` is false for the required scope, which is so whenever
no user token is present, `subscribeUserIfScope` makes no `SubscribeUser` call,
leaves the registry alone, records exactly one `missing_scope` disablement and
leaves the desired set unchanged; when the scope is present, it records no
disablement, makes the one `SubscribeUser` call, and the event type is in the
desired set afterwards, reported by `Update` with value 1, whatever the call
returns. -/
theorem subscribeUserIfScope_gating (caps : Capabilities) (c : eventsubSelfCollector σ)
    (p : Process σ) (eventType version : String) (cond : EventSubCondition)
    (requiredScope : String) :
    (caps.UserTokenPresent = false → HasUserScope caps requiredScope = false)
    ∧ (HasUserScope caps requiredScope = false →
        (subscribeUserIfScope caps c p eventType version cond requiredScope).2.subscribeUserCalls
          = p.subscribeUserCalls
        ∧ (subscribeUserIfScope caps c p eventType version cond requiredScope).2.registry
          = p.registry
        ∧ (subscribeUserIfScope caps c p eventType version cond requiredScope).2.collectorDisabled
          = p.collectorDisabled ++ [("eventsub_self", "missing_scope")]
        ∧ (subscribeUserIfScope caps c p eventType version cond requiredScope).1.desiredTypes
          = c.desiredTypes)
    ∧ (HasUserScope caps requiredScope = true →
        (subscribeUserIfScope caps c p eventType version cond requiredScope).2.subscribeUserCalls
          = p.subscribeUserCalls ++ [(eventType, version, cond)]
        ∧ (subscribeUserIfScope caps c p eventType version cond requiredScope).2.collectorDisabled
          = p.collectorDisabled
        ∧ (eventType, true)
          ∈ (subscribeUserIfScope caps c p eventType version cond requiredScope).1.desiredTypes
        ∧ ∀ s, ({ desc := .subDesired, value := 1, labels := [eventType] } : Metric)
          ∈ Update (subscribeUserIfScope caps c p eventType version cond requiredScope).1 s) := by
  refine ⟨?_, ?_, ?_⟩
  · intro h
    simp [HasUserScope, h]
  · intro h
    simp [subscribeUserIfScope, h]
  · intro h
    have hmem : (eventType, true) ∈ mapStore c.desiredTypes eventType true :=
      mem_mapStore c.desiredTypes eventType true
    refine ⟨by simp [subscribeUserIfScope, h], by simp [subscribeUserIfScope, h],
      by simpa [subscribeUserIfScope, h, desire] using hmem, ?_⟩
    intro s
    have hd : ({ desc := .subDesired, value := 1, labels := [eventType] } : Metric)
        ∈ (mapStore c.desiredTypes eventType true).map
          (fun kv => ({ desc := .subDesired, value := if kv.2 then 1 else 0,
                        labels := [kv.1] } : Metric)) :=
      List.mem_map.2 ⟨(eventType, true), hmem, by simp⟩
    simp only [subscribeUserIfScope, h, Update, desire, Bool.not_true, Bool.false_eq_true,
      if_false, List.append_assoc, List.mem_append]
    exact Or.inl hd

/-- C7 on the sample collector, whose user token grants `bits:read` only: the
follow subscription is skipped with one `missing_scope`, the cheer subscription
is attempted and desired. -/
theorem subscribeUserIfScope_gating_witness :
    (HasUserScope sampleCapabilities "moderator:read:followers" = false
      ∧ (subscribeUserIfScope sampleCapabilities sampleCollector sampleProcess
          "channel.follow" "2" sampleCondition "moderator:read:followers").2.collectorDisabled
        = [("eventsub_self", "missing_scope")]
      ∧ (subscribeUserIfScope sampleCapabilities sampleCollector sampleProcess
          "channel.follow" "2" sampleCondition "moderator:read:followers").1.desiredTypes
        = [("stream.online", true)])
    ∧ HasUserScope sampleCapabilities "bits:read" = true
    ∧ ("channel.cheer", true)
        ∈ (subscribeUserIfScope sampleCapabilities sampleCollector sampleProcess
            "channel.cheer" "1" sampleCondition "bits:read").1.desiredTypes :=
  ⟨⟨by decide,
    ((subscribeUserIfScope_gating sampleCapabilities sampleCollector sampleProcess
      "channel.follow" "2" sampleCondition "moderator:read:followers").2.1 (by decide)).2.2.1,
    ((subscribeUserIfScope_gating sampleCapabilities sampleCollector sampleProcess
      "channel.follow" "2" sampleCondition "moderator:read:followers").2.1 (by decide)).2.2.2⟩,
   by decide,
   ((subscribeUserIfScope_gating sampleCapabilities sampleCollector sampleProcess
      "channel.cheer" "1" sampleCondition "bits:read").2.2 (by decide)).2.2.1⟩

theorem boolAt_foldl_active (subs : List EventSubSubscription) (acc : List (String × Bool))
    (eventType : String) :
    boolAt (subs.foldl
        (fun active s =>
          if s.Status = "enabled" ∨ s.Status = "webhook_callback_verification_pending" then
            mapStore active s.Type_ true
          else active) acc) eventType = true ↔
      boolAt acc eventType = true ∨ ∃ sub ∈ subs, sub.Type_ = eventType
        ∧ (sub.Status = "enabled" ∨ sub.Status = "webhook_callback_verification_pending") := by
  induction subs generalizing acc with
  | nil => simp
  | cons s rest ih =>
    rw [List.foldl_cons, ih]
    simp only [List.mem_cons, exists_eq_or_imp]
    by_cases hs : s.Status = "enabled" ∨ s.Status = "webhook_callback_verification_pending"
    · rw [if_pos hs, boolAt_mapStore]
      by_cases ht : eventType = s.Type_
      · simp [ht, hs]
      · have ht' : ¬ s.Type_ = eventType := fun h => ht h.symm
        simp [ht, ht']
    · rw [if_neg hs]
      simp [hs]

theorem boolAt_activeTypes (subs : List EventSubSubscription) (eventType : String) :
    boolAt (activeTypes subs) eventType = true ↔
      ∃ sub ∈ subs, sub.Type_ = eventType
        ∧ (sub.Status = "enabled" ∨ sub.Status = "webhook_callback_verification_pending") := by
  unfold activeTypes
  rw [boolAt_foldl_active]
  simp [boolAt]

theorem mem_Update_subActive (c : eventsubSelfCollector σ) (s : σ)
    (subs : List EventSubSubscription) (m : Metric)
    (hlist : ListSubscriptions c.eventsub s = .ok subs) :
    (m ∈ Update c s ∧ m.desc = .subActive) ↔
      ∃ kv ∈ c.desiredTypes,
        m = { desc := .subActive, value := if boolAt (activeTypes subs) kv.1 then 1 else 0,
              labels := [kv.1] } := by
  unfold Update
  simp only [hlist, emitMap, List.mem_append, List.mem_map, List.mem_cons,
    List.mem_singleton, List.not_mem_nil, or_false]
  constructor
  · rintro ⟨h, hd⟩
    simp only [or_assoc] at h
    rcases h with ⟨kv, -, rfl⟩ | ⟨kv, hkv, rfl⟩ | ⟨kv, -, rfl⟩ | rfl | rfl | ⟨kv, -, rfl⟩
      | rfl | rfl | ⟨kv, -, rfl⟩ | rfl | rfl | rfl | rfl | ⟨kv, -, rfl⟩ | ⟨kv, -, rfl⟩
      | ⟨kv, -, rfl⟩ | ⟨kv, -, rfl⟩ | ⟨kv, -, rfl⟩ | ⟨kv, -, rfl⟩
    all_goals first
      | exact ⟨kv, hkv, rfl⟩
      | exact absurd hd (by simp)
  · rintro ⟨kv, hkv, rfl⟩
    refine ⟨?_, rfl⟩
    simp only [or_assoc]
    exact Or.inr (Or.inl ⟨kv, hkv, rfl⟩)

/-- C8, counterexample: the registry lists an enabled `channel.follow` subscription,
`channel.follow` is not in the desired set of the sample collector, and `Update`
sends no active sample for `channel.follow`, with value 1 or otherwise. -/
theorem Update_no_active_sample_for_undesired_type :
    ListSubscriptions sampleCollector.eventsub sampleFollowRegistry = .ok sampleFollowRegistry
      ∧ (∃ sub ∈ sampleFollowRegistry, sub.Type_ = "channel.follow" ∧ sub.Status = "enabled")
      ∧ (∀ d, ("channel.follow", d) ∉ sampleCollector.desiredTypes)
      ∧ ∀ m ∈ Update sampleCollector sampleFollowRegistry,
          ¬ (m.desc = .subActive ∧ m.labels = ["channel.follow"]) := by
  decide

/-- C8, as amended: when the listing succeeds, `Update` reports an active value of
1 for every event type of the desired set that has an enabled or
pending-verification subscription in the listing; an event type that is not in
the desired set gets no active sample at all. -/
theorem Update_active_for_desired_types (c : eventsubSelfCollector σ) (s : σ)
    (subs : List EventSubSubscription) (eventType : String)
    (hlist : ListSubscriptions c.eventsub s = .ok subs) :
    ((∃ d, (eventType, d) ∈ c.desiredTypes) →
      (∃ sub ∈ subs, sub.Type_ = eventType
        ∧ (sub.Status = "enabled" ∨ sub.Status = "webhook_callback_verification_pending")) →
      ({ desc := .subActive, value := 1, labels := [eventType] } : Metric) ∈ Update c s)
    ∧ ((∀ d, (eventType, d) ∉ c.desiredTypes) →
      ∀ m ∈ Update c s, m.desc = .subActive → m.labels ≠ [eventType]) := by
  constructor
  · rintro ⟨d, hd⟩ hsub
    have hact := (boolAt_activeTypes subs eventType).2 hsub
    refine ((mem_Update_subActive c s subs _ hlist).2 ⟨(eventType, d), hd, ?_⟩).1
    simp [hact]
  · intro hnot m hm hdesc hlabels
    obtain ⟨kv, hkv, rfl⟩ := (mem_Update_subActive c s subs m hlist).1 ⟨hm, hdesc⟩
    simp only [List.cons.injEq, and_true] at hlabels
    apply hnot kv.2
    rw [← hlabels]
    exact hkv

/-- The amended C8 on the sample collector: `stream.online` is desired and enabled
in the listing, so it is reported active with value 1. -/
theorem Update_active_for_desired_types_witness :
    ListSubscriptions sampleCollector.eventsub sampleForeignRegistry = .ok sampleForeignRegistry
      ∧ (∃ d, ("stream.online", d) ∈ sampleCollector.desiredTypes)
      ∧ ({ desc := .subActive, value := 1, labels := ["stream.online"] } : Metric)
          ∈ Update sampleCollector sampleForeignRegistry :=
  ⟨by decide, by decide,
    (Update_active_for_desired_types sampleCollector sampleForeignRegistry sampleForeignRegistry
      "stream.online" (by decide)).1 (by decide) (by decide)⟩

/-- C9, the code at the failing input: the only listed subscription of type
`stream.online` is registered for another callback URL, and `Update` still reports
`stream.online` as active with value 1. -/
theorem Update_active_despite_foreign_callback :
    sampleCollector.eventsub.webhookURL = "https://exporter.example/eventsub"
      ∧ (∀ sub ∈ sampleForeignRegistry,
          sub.Transport.Callback ≠ sampleCollector.eventsub.webhookURL)
      ∧ alreadySubscribed sampleCollector.eventsub.webhookURL "stream.online" sampleCondition
          sampleForeignRegistry = false
      ∧ ({ desc := .subActive, value := 1, labels := ["stream.online"] } : Metric)
          ∈ Update sampleCollector sampleForeignRegistry := by
  decide

/-! ### Decode failures -/

theorem lookup_handlers_subscribe (rt : Runtime) (cfg : rewardGroupConfig) (uid : String) :
    (handlers rt cfg uid).lookup "channel.subscribe" = some (onSubscribe rt) := rfl

theorem lookup_handlers_cheer (rt : Runtime) (cfg : rewardGroupConfig) (uid : String) :
    (handlers rt cfg uid).lookup "channel.cheer" = some (onCheer rt) := rfl

theorem lookup_handlers_redemption (rt : Runtime) (cfg : rewardGroupConfig) (uid : String) :
    (handlers rt cfg uid).lookup "channel.channel_points_custom_reward_redemption.add"
      = some (onRedemption rt cfg) := rfl

theorem lookup_handlers_raid (rt : Runtime) (cfg : rewardGroupConfig) (uid : String) :
    (handlers rt cfg uid).lookup "channel.raid" = some (onRaid rt uid) := rfl

theorem lookup_handlers_adBreakBegin (rt : Runtime) (cfg : rewardGroupConfig) (uid : String) :
    (handlers rt cfg uid).lookup "channel.ad_break.begin" = some (onAdBreakBegin rt) := rfl

theorem lookup_handlers_ban (rt : Runtime) (cfg : rewardGroupConfig) (uid : String) :
    (handlers rt cfg uid).lookup "channel.ban" = some (onBan rt) := rfl

/-- C10, counterexample: on a fresh collector, a `channel.subscribe` notification
whose payload `not json` fails to decode still raises the sub-kind counter `new`
from 0 to 1, so a payload-specific counter changes. -/
theorem dispatch_subscribe_counts_undecodable_payload :
    (malformedPayloadRuntime.unmarshalIsGift (ascii "not json")).failed = true
      ∧ floatAt sampleCollector.st.subsByKind "new" = 0
      ∧ floatAt (dispatch malformedPayloadRuntime rewardGroups "1234" sampleCollector.st
          "channel.subscribe" (ascii "not json")).subsByKind "new" = 1
      ∧ payloadCounters (dispatch malformedPayloadRuntime rewardGroups "1234" sampleCollector.st
          "channel.subscribe" (ascii "not json")) ≠ payloadCounters sampleCollector.st := by
  decide!

/-- C10, as amended: for each of the six decoding event types, one notification
raises the generic notification counter of that type by exactly 1 and leaves the
notification counters of the other types alone, whether or not the payload decodes.
For `channel.cheer`, the redemption add and `channel.raid`, a payload that fails to
decode leaves every payload-specific counter unchanged. For `channel.subscribe`,
`channel.ad_break.begin` and `channel.ban` the decode error is ignored: the
payload-specific increment is made from the event struct as decoding left it
(gift or kind `new`; one ad break, with minutes for a positive duration; action
`ban` or `timeout`). -/
theorem dispatch_decode_failure (rt : Runtime) (cfg : rewardGroupConfig) (selfUserID : String)
    (st : eventsubSelfState) (raw : Bytes) :
    (∀ eventType ∈ ["channel.subscribe", "channel.cheer",
          "channel.channel_points_custom_reward_redemption.add", "channel.raid",
          "channel.ad_break.begin", "channel.ban"],
        ∀ k, floatAt (dispatch rt cfg selfUserID st eventType raw).notifications k
          = if k = eventType then floatAt st.notifications eventType + 1
            else floatAt st.notifications k)
    ∧ ((rt.unmarshalBits raw).failed = true →
        payloadCounters (dispatch rt cfg selfUserID st "channel.cheer" raw) = payloadCounters st)
    ∧ ((rt.unmarshalReward raw).failed = true →
        payloadCounters (dispatch rt cfg selfUserID st
          "channel.channel_points_custom_reward_redemption.add" raw) = payloadCounters st)
    ∧ ((rt.unmarshalRaid raw).failed = true →
        payloadCounters (dispatch rt cfg selfUserID st "channel.raid" raw) = payloadCounters st)
    ∧ payloadCounters (dispatch rt cfg selfUserID st "channel.subscribe" raw)
        = payloadCounters
            (if (rt.unmarshalIsGift raw).ev then { st with giftSubs := st.giftSubs + 1 }
             else { st with subsByKind := mapIncr st.subsByKind "new" })
    ∧ payloadCounters (dispatch rt cfg selfUserID st "channel.ad_break.begin" raw)
        = payloadCounters
            (if (rt.unmarshalDurationSeconds raw).ev > 0 then
               { st with adsBreaks := st.adsBreaks + 1,
                         adsMinutes := st.adsMinutes
                           + ((rt.unmarshalDurationSeconds raw).ev : ℚ) / 60 }
             else { st with adsBreaks := st.adsBreaks + 1 })
    ∧ payloadCounters (dispatch rt cfg selfUserID st "channel.ban" raw)
        = payloadCounters
            (bumpModeration (if (rt.unmarshalIsPermanent raw).ev then "ban" else "timeout") st) := by
  refine ⟨?_, ?_, ?_, ?_, ?_, ?_, ?_⟩
  · intro eventType hmem k
    simp only [List.mem_cons, List.mem_singleton, List.not_mem_nil, or_false] at hmem
    rcases hmem with rfl | rfl | rfl | rfl | rfl | rfl
    · unfold dispatch
      rw [lookup_handlers_subscribe]
      simp only [onSubscribe]
      split_ifs <;> simp_all [incNotification, floatAt_mapIncr]
    · unfold dispatch
      rw [lookup_handlers_cheer]
      simp only [onCheer]
      split_ifs <;> simp_all [incNotification, floatAt_mapIncr]
    · unfold dispatch
      rw [lookup_handlers_redemption]
      simp only [onRedemption]
      split_ifs <;> simp_all [incNotification, floatAt_mapIncr]
    · unfold dispatch
      rw [lookup_handlers_raid]
      simp only [onRaid]
      split_ifs <;> simp_all [incNotification, floatAt_mapIncr]
    · unfold dispatch
      rw [lookup_handlers_adBreakBegin]
      simp only [onAdBreakBegin]
      split_ifs <;> simp_all [incNotification, floatAt_mapIncr]
    · unfold dispatch
      rw [lookup_handlers_ban]
      simp only [onBan, bumpModeration]
      split_ifs <;> simp_all [incNotification, floatAt_mapIncr]
  · intro h
    unfold dispatch
    rw [lookup_handlers_cheer]
    simp [onCheer, h, incNotification, payloadCounters]
  · intro h
    unfold dispatch
    rw [lookup_handlers_redemption]
    simp [onRedemption, h, incNotification, payloadCounters]
  · intro h
    unfold dispatch
    rw [lookup_handlers_raid]
    simp [onRaid, h, incNotification, payloadCounters]
  · unfold dispatch
    rw [lookup_handlers_subscribe]
    simp only [onSubscribe]
    split_ifs <;> simp [incNotification, payloadCounters]
  · unfold dispatch
    rw [lookup_handlers_adBreakBegin]
    simp only [onAdBreakBegin]
    split_ifs <;> simp [incNotification, payloadCounters]
  · unfold dispatch
    rw [lookup_handlers_ban]
    simp only [onBan, bumpModeration]
    cases (rt.unmarshalIsPermanent raw).ev <;> simp [incNotification, payloadCounters]

/-- The amended C10 on a fresh collector and the payload `not json`: the cheer
notification is counted once and no payload-specific counter moves. -/
theorem dispatch_decode_failure_witness :
    (malformedPayloadRuntime.unmarshalBits (ascii "not json")).failed = true
      ∧ payloadCounters (dispatch malformedPayloadRuntime rewardGroups "1234" sampleCollector.st
          "channel.cheer" (ascii "not json")) = payloadCounters sampleCollector.st
      ∧ floatAt (dispatch malformedPayloadRuntime rewardGroups "1234" sampleCollector.st
          "channel.cheer" (ascii "not json")).notifications "channel.cheer"
        = floatAt sampleCollector.st.notifications "channel.cheer" + 1 :=
  ⟨rfl,
   (dispatch_decode_failure malformedPayloadRuntime rewardGroups "1234" sampleCollector.st
      (ascii "not json")).2.1 rfl,
   ((dispatch_decode_failure malformedPayloadRuntime rewardGroups "1234" sampleCollector.st
      (ascii "not json")).1 "channel.cheer" (by decide) "channel.cheer").trans (if_pos rfl)⟩

/-! ## Event counters -/

theorem mem_of_lookup_eq_some {β : Type} (l : List (String × β)) (k : String) (v : β)
    (h : l.lookup k = some v) : (k, v) ∈ l := by
  induction l with
  | nil => simp at h
  | cons kv rest ih =>
    obtain ⟨k0, v0⟩ := kv
    rw [lookup_cons_eq] at h
    split_ifs at h with hk
    · subst hk
      rw [Option.some.inj h]
      exact List.mem_cons_self _ _
    · exact List.mem_cons_of_mem _ (ih h)

/-- A relation that every registered handler respects, and that holds between a
state and itself, holds across `dispatch`. -/
theorem dispatch_rel (rt : Runtime) (cfg : rewardGroupConfig) (uid : String)
    (R : eventsubSelfState → eventsubSelfState → Prop) (hrefl : ∀ st, R st st)
    (hh : ∀ kh ∈ handlers rt cfg uid, ∀ st raw, R st (kh.2 st raw))
    (st : eventsubSelfState) (eventType : String) (raw : Bytes) :
    R st (dispatch rt cfg uid st eventType raw) := by
  unfold dispatch
  rcases hl : (handlers rt cfg uid).lookup eventType with _ | handler
  · exact hrefl st
  · exact hh (eventType, handler) (mem_of_lookup_eq_some _ _ _ hl) st raw

theorem dispatchAll_rel (rt : Runtime) (cfg : rewardGroupConfig) (uid : String)
    (R : eventsubSelfState → eventsubSelfState → Prop) (hrefl : ∀ st, R st st)
    (htrans : ∀ a b c, R a b → R b c → R a c)
    (hh : ∀ kh ∈ handlers rt cfg uid, ∀ st raw, R st (kh.2 st raw))
    (events : List (String × Bytes)) (st : eventsubSelfState) :
    R st (dispatchAll rt cfg uid st events) := by
  induction events generalizing st with
  | nil => exact hrefl st
  | cons e rest ih =>
    exact htrans _ _ _ (dispatch_rel rt cfg uid R hrefl hh st e.1 e.2) (ih _)

theorem mapKeys_mapStore_of_mem {β : Type} (m : List (String × β)) (k : String) (v : β)
    (h : k ∈ mapKeys m) : mapKeys (mapStore m k v) = mapKeys m := by
  induction m with
  | nil => simp [mapKeys] at h
  | cons kv rest ih =>
    obtain ⟨k0, v0⟩ := kv
    unfold mapStore
    by_cases h0 : k0 = k
    · simp [mapKeys, h0]
    · have hr : k ∈ mapKeys rest := by
        simp only [mapKeys, List.map_cons, List.mem_cons] at h
        rcases h with h | h
        · exact absurd h.symm h0
        · exact h
      have := ih hr
      simp only [mapKeys] at this
      simp [mapKeys, h0, this]

theorem mapKeys_mapIncr_of_mem (m : List (String × Float64)) (k : String)
    (h : k ∈ mapKeys m) : mapKeys (mapIncr m k) = mapKeys m :=
  mapKeys_mapStore_of_mem m k _ h

theorem handlers_preserve_seeded (rt : Runtime) (cfg : rewardGroupConfig) (uid : String) :
    ∀ kh ∈ handlers rt cfg uid, ∀ st raw, Seeded st → Seeded (kh.2 st raw) := by
  intro kh hmem st raw hs
  obtain ⟨h1, h2, h3⟩ := hs
  have hh := h2 .hypeTrain
  have hg := h2 .goals
  have hp := h2 .polls
  have hpr := h2 .predictions
  have hc := h2 .charity
  simp only [stageMap] at hh hg hp hpr hc
  simp only [handlers, List.mem_cons, List.mem_singleton, List.not_mem_nil, or_false] at hmem
  rcases hmem with rfl | rfl | rfl | rfl | rfl | rfl | rfl | rfl | rfl | rfl | rfl | rfl | rfl | rfl | rfl | rfl | rfl | rfl | rfl | rfl | rfl | rfl | rfl | rfl | rfl | rfl | rfl | rfl | rfl | rfl | rfl
  all_goals
    refine ⟨?_, fun family => ?_, ?_⟩ <;>
    (try cases family) <;>
    simp only [onSubscribe, onCheer, onRedemption, onRaid, onAdBreakBegin, onBan, stageCounter,
      incNotification, bumpStage, bumpModeration, stageMap] <;>
    (try split_ifs) <;>
    simp [mapKeys_mapIncr_of_mem, h1, hh, hg, hp, hpr, hc, h3, stageLabels, moderationActions]

theorem seeded_newEventsubSelfState (toLower : String → String) (cfg : rewardGroupConfig) :
    Seeded (newEventsubSelfState toLower cfg) := by
  refine ⟨rfl, fun family => ?_, rfl⟩
  cases family <;> rfl

theorem seeded_dispatchAll (rt : Runtime) (cfg : rewardGroupConfig) (uid : String)
    (events : List (String × Bytes)) (st : eventsubSelfState) (hs : Seeded st) :
    Seeded (dispatchAll rt cfg uid st events) :=
  dispatchAll_rel rt cfg uid (fun a b => Seeded a → Seeded b) (fun _ h => h)
    (fun _ _ _ hab hbc h => hbc (hab h)) (handlers_preserve_seeded rt cfg uid) events st hs

/-! ### Pre-seeded keys -/

/-- C12, counterexample: at construction the notification map has no key
`stream.online` and the reward-group map has no key `other`; the first
`stream.online` notification adds the key, and `other` is a group the grouping
function returns. -/
theorem dispatch_adds_unseeded_key :
    "stream.online" ∉ mapKeys (newEventsubSelfState sampleRuntime.toLower rewardGroups).notifications
      ∧ "stream.online" ∈ mapKeys (dispatch sampleRuntime rewardGroups "1234"
          (newEventsubSelfState sampleRuntime.toLower rewardGroups)
          "stream.online" []).notifications
      ∧ RewardGroupFor sampleRuntime.toLower rewardGroups "unknown-id" "" = "other"
      ∧ "other" ∉ mapKeys (newEventsubSelfState sampleRuntime.toLower rewardGroups).pointsByGroup := by
  decide

/-- C12, as amended: immediately after construction the sub kinds `new` and
`resub`, the stage labels `begin`, `progress` and `end` of each of the five
families, the eight moderation actions and the reward group of the empty reward
are present with value 0, and the notification map is empty; after any sequence
of dispatch calls the key sets of the sub-kind map, of the five stage maps and of
the moderation map are still exactly those, so no dispatch call adds a key to
them. -/
theorem seeded_keys_never_change (rt : Runtime) (cfg cfg' : rewardGroupConfig)
    (selfUserID : String) (events : List (String × Bytes)) :
    (newEventsubSelfState rt.toLower cfg).subsByKind = [("new", 0), ("resub", 0)]
    ∧ (∀ family, stageMap family (newEventsubSelfState rt.toLower cfg)
        = [("begin", 0), ("progress", 0), ("end", 0)])
    ∧ (newEventsubSelfState rt.toLower cfg).moderationByAction
        = moderationActions.map (fun action => (action, 0))
    ∧ (newEventsubSelfState rt.toLower cfg).pointsByGroup
        = [(RewardGroupFor rt.toLower cfg "" "", 0)]
    ∧ (newEventsubSelfState rt.toLower cfg).notifications = []
    ∧ mapKeys (dispatchAll rt cfg' selfUserID (newEventsubSelfState rt.toLower cfg)
        events).subsByKind = ["new", "resub"]
    ∧ (∀ family, mapKeys (stageMap family
        (dispatchAll rt cfg' selfUserID (newEventsubSelfState rt.toLower cfg) events))
        = ["begin", "progress", "end"])
    ∧ mapKeys (dispatchAll rt cfg' selfUserID (newEventsubSelfState rt.toLower cfg)
        events).moderationByAction = moderationActions := by
  have hs := seeded_dispatchAll rt cfg' selfUserID events _
    (seeded_newEventsubSelfState rt.toLower cfg)
  refine ⟨rfl, fun family => ?_, rfl, rfl, rfl, hs.1, hs.2.1, hs.2.2⟩
  cases family <;> rfl

/-! ### Raids, stages, moderation and subscriptions -/

/-- C15: every lifecycle event of the five multi-stage families raises by exactly 1
the counter of its stage label in the stage map of its own family, the label is
one of `begin`, `progress`, `end`, and every other stage counter, of its own and
of the other families, keeps its value; the labels are those of the table
(`*.begin` to `begin`, `*.progress` to `progress`, `*.end` to `end`,
`channel.prediction.lock` to `progress`, `channel.charity_campaign.start` to
`begin`, `channel.charity_campaign.stop` to `end`). -/
theorem dispatch_lifecycle_stage (rt : Runtime) (cfg : rewardGroupConfig) (selfUserID : String)
    (st : eventsubSelfState) (raw : Bytes) :
    ∀ e ∈ lifecycleStages,
      e.2.2 ∈ ["begin", "progress", "end"]
      ∧ ∀ family k,
          floatAt (stageMap family (dispatch rt cfg selfUserID st e.1 raw)) k
            = if family = e.2.1 ∧ k = e.2.2 then floatAt (stageMap e.2.1 st) e.2.2 + 1
              else floatAt (stageMap family st) k := by
  intro e he
  simp only [lifecycleStages, List.mem_cons, List.mem_singleton, List.not_mem_nil,
    or_false] at he
  rcases he with rfl | rfl | rfl | rfl | rfl | rfl | rfl | rfl | rfl | rfl | rfl | rfl | rfl | rfl | rfl | rfl
  all_goals
    refine ⟨by decide, fun family k => ?_⟩
    cases family <;>
      simp [dispatch, handlers, lookup_cons_eq, stageCounter, bumpStage, incNotification,
        stageMap, floatAt_mapIncr]

/-- C16: each moderation event raises exactly one entry of the moderation-action
map by 1 and keeps every other entry: `channel.ban` raises `ban` when the
permanence flag is set and `timeout` when it is not, `channel.unban` raises
`unban`, `channel.chat.message_delete` raises `delete`, `channel.shield_mode.begin`
raises `shield_on` and `channel.shield_mode.end` raises `shield_off`; each of
these keys is one of the eight actions of the enum, and after any sequence of
dispatch calls on a new collector the keys of the map are exactly those eight. -/
theorem dispatch_moderation_action (rt : Runtime) (cfg cfg0 : rewardGroupConfig)
    (selfUserID : String) (st : eventsubSelfState) (raw : Bytes)
    (events : List (String × Bytes)) :
    (∀ e ∈ [("channel.ban", if (rt.unmarshalIsPermanent raw).ev then "ban" else "timeout"),
            ("channel.unban", "unban"),
            ("channel.chat.message_delete", "delete"),
            ("channel.shield_mode.begin", "shield_on"),
            ("channel.shield_mode.end", "shield_off")],
        e.2 ∈ ["timeout", "ban", "unban", "delete", "shield_on", "shield_off", "warn", "other"]
        ∧ ∀ k, floatAt (dispatch rt cfg selfUserID st e.1 raw).moderationByAction k
            = if k = e.2 then floatAt st.moderationByAction e.2 + 1
              else floatAt st.moderationByAction k)
    ∧ mapKeys (dispatchAll rt cfg selfUserID (newEventsubSelfState rt.toLower cfg0)
        events).moderationByAction
        = ["timeout", "ban", "unban", "delete", "shield_on", "shield_off", "warn", "other"] := by
  refine ⟨?_, (seeded_dispatchAll rt cfg selfUserID events _
    (seeded_newEventsubSelfState rt.toLower cfg0)).2.2⟩
  intro e he
  simp only [List.mem_cons, List.mem_singleton, List.not_mem_nil, or_false] at he
  rcases he with rfl | rfl | rfl | rfl | rfl
  · refine ⟨?_, fun k => ?_⟩
    · cases (rt.unmarshalIsPermanent raw).ev <;> simp
    · cases hev : (rt.unmarshalIsPermanent raw).ev <;>
        simp [dispatch, handlers, lookup_cons_eq, onBan, bumpModeration, incNotification,
          floatAt_mapIncr, hev]
  all_goals
    refine ⟨by decide, fun k => ?_⟩
    simp [dispatch, handlers, lookup_cons_eq, bumpModeration, incNotification, floatAt_mapIncr]

/-- C17: a `channel.subscribe` event raises the gift counter by 1 and no kind
counter when its `is_gift` flag decodes to true, and raises the kind counter
`new` by 1, not the gift counter, when it decodes to false; a
`channel.subscription.message` event raises only the kind counter `resub` by 1,
whatever its payload; a `channel.subscription.gift` event raises only the gift
counter by 1. No other payload-specific counter changes. -/
theorem dispatch_subscription_kinds (rt : Runtime) (cfg : rewardGroupConfig)
    (selfUserID : String) (st : eventsubSelfState) (raw : Bytes) :
    ((rt.unmarshalIsGift raw).ev = true →
        payloadCounters (dispatch rt cfg selfUserID st "channel.subscribe" raw)
          = payloadCounters { st with giftSubs := st.giftSubs + 1 })
    ∧ ((rt.unmarshalIsGift raw).ev = false →
        payloadCounters (dispatch rt cfg selfUserID st "channel.subscribe" raw)
          = payloadCounters { st with subsByKind := mapIncr st.subsByKind "new" })
    ∧ payloadCounters (dispatch rt cfg selfUserID st "channel.subscription.message" raw)
        = payloadCounters { st with subsByKind := mapIncr st.subsByKind "resub" }
    ∧ payloadCounters (dispatch rt cfg selfUserID st "channel.subscription.gift" raw)
        = payloadCounters { st with giftSubs := st.giftSubs + 1 }
    ∧ (∀ kind k, floatAt (mapIncr st.subsByKind kind) k
        = if k = kind then floatAt st.subsByKind kind + 1 else floatAt st.subsByKind k) := by
  refine ⟨?_, ?_, ?_, ?_, fun kind k => floatAt_mapIncr _ _ _⟩
  · intro h
    simp [dispatch, handlers, lookup_cons_eq, onSubscribe, incNotification, payloadCounters, h]
  · intro h
    simp [dispatch, handlers, lookup_cons_eq, onSubscribe, incNotification, payloadCounters, h]
  · simp [dispatch, handlers, lookup_cons_eq, incNotification, payloadCounters]
  · simp [dispatch, handlers, lookup_cons_eq, incNotification, payloadCounters]

/-- C17 on a new collector and the sample payload with `is_gift` true: the gift
counter goes to 1 and the kind counters stay at 0. -/
theorem dispatch_subscription_kinds_witness :
    (sampleRuntime.unmarshalIsGift (ascii "\x7b\"is_gift\":true\x7d")).ev = true
      ∧ payloadCounters (dispatch sampleRuntime rewardGroups "1234" sampleCollector.st
          "channel.subscribe" (ascii "\x7b\"is_gift\":true\x7d"))
        = payloadCounters { sampleCollector.st with giftSubs := sampleCollector.st.giftSubs + 1 } :=
  ⟨by decide,
   (dispatch_subscription_kinds sampleRuntime rewardGroups "1234" sampleCollector.st
      (ascii "\x7b\"is_gift\":true\x7d")).1 (by decide)⟩

/-- C14: for a decoded raid event, when the to-broadcaster id is the self channel
id the raids-in counter rises by 1 and nothing else; otherwise, when the
from-broadcaster id is the self channel id, the raids-out counter rises by 1 and
nothing else; when neither is, no payload-specific counter changes. In each case
raids-in plus raids-out rises by at most 1. -/
theorem dispatch_raid_direction (rt : Runtime) (cfg : rewardGroupConfig) (selfUserID : String)
    (st : eventsubSelfState) (raw : Bytes)
    (hdec : (rt.unmarshalRaid raw).failed = false) :
    ((rt.unmarshalRaid raw).ev.2 = selfUserID →
        payloadCounters (dispatch rt cfg selfUserID st "channel.raid" raw)
          = payloadCounters { st with raidsIn := st.raidsIn + 1 })
    ∧ ((rt.unmarshalRaid raw).ev.2 ≠ selfUserID → (rt.unmarshalRaid raw).ev.1 = selfUserID →
        payloadCounters (dispatch rt cfg selfUserID st "channel.raid" raw)
          = payloadCounters { st with raidsOut := st.raidsOut + 1 })
    ∧ ((rt.unmarshalRaid raw).ev.2 ≠ selfUserID → (rt.unmarshalRaid raw).ev.1 ≠ selfUserID →
        payloadCounters (dispatch rt cfg selfUserID st "channel.raid" raw) = payloadCounters st)
    ∧ (dispatch rt cfg selfUserID st "channel.raid" raw).raidsIn
        + (dispatch rt cfg selfUserID st "channel.raid" raw).raidsOut
        ≤ st.raidsIn + st.raidsOut + 1 := by
  refine ⟨?_, ?_, ?_, ?_⟩
  · intro h
    simp [dispatch, handlers, lookup_cons_eq, onRaid, incNotification, payloadCounters, h, hdec]
  · intro h1 h2
    simp [dispatch, handlers, lookup_cons_eq, onRaid, incNotification, payloadCounters, h1, h2,
      hdec]
  · intro h1 h2
    simp [dispatch, handlers, lookup_cons_eq, onRaid, incNotification, payloadCounters, h1, h2,
      hdec]
  · have hd : dispatch rt cfg selfUserID st "channel.raid" raw = onRaid rt selfUserID st raw := rfl
    rw [hd]
    simp only [onRaid, incNotification, hdec, Bool.false_eq_true, if_false]
    split_ifs <;> simp <;> linarith

/-- C14 on a new collector of the channel `1234` and a raid from `777` to `1234`:
raids-in rises by 1. -/
theorem dispatch_raid_direction_witness :
    (sampleRuntime.unmarshalRaid (ascii
        "\x7b\"from_broadcaster_user_id\":\"777\",\"to_broadcaster_user_id\":\"1234\"\x7d")).failed
        = false
      ∧ payloadCounters (dispatch sampleRuntime rewardGroups "1234" sampleCollector.st
          "channel.raid" (ascii
            "\x7b\"from_broadcaster_user_id\":\"777\",\"to_broadcaster_user_id\":\"1234\"\x7d"))
        = payloadCounters { sampleCollector.st with raidsIn := sampleCollector.st.raidsIn + 1 } :=
  ⟨by decide,
   (dispatch_raid_direction sampleRuntime rewardGroups "1234" sampleCollector.st
      (ascii "\x7b\"from_broadcaster_user_id\":\"777\",\"to_broadcaster_user_id\":\"1234\"\x7d")
      (by decide)).1 (by decide)⟩

/-- C15 on a new collector: `channel.prediction.lock` raises the `progress` counter
of the predictions family by 1. -/
theorem dispatch_lifecycle_stage_witness :
    ("channel.prediction.lock", StageFamily.predictions, "progress") ∈ lifecycleStages
      ∧ floatAt (stageMap .predictions (dispatch sampleRuntime rewardGroups "1234"
          sampleCollector.st "channel.prediction.lock" [])) "progress"
        = floatAt (stageMap .predictions sampleCollector.st) "progress" + 1 :=
  ⟨by decide,
   (((dispatch_lifecycle_stage sampleRuntime rewardGroups "1234" sampleCollector.st [])
      ("channel.prediction.lock", StageFamily.predictions, "progress") (by decide)).2
      .predictions "progress").trans (if_pos ⟨rfl, rfl⟩)⟩

/-- C16 on a new collector: a ban whose payload decodes with the permanence flag
set raises `ban` by 1. -/
theorem dispatch_moderation_action_witness :
    (sampleRuntime.unmarshalIsPermanent (ascii "\x7b\"is_permanent\":true\x7d")).ev = true
      ∧ floatAt (dispatch sampleRuntime rewardGroups "1234" sampleCollector.st "channel.ban"
          (ascii "\x7b\"is_permanent\":true\x7d")).moderationByAction "ban"
        = floatAt sampleCollector.st.moderationByAction "ban" + 1 :=
  ⟨by decide,
   (((dispatch_moderation_action sampleRuntime rewardGroups rewardGroups "1234"
        sampleCollector.st (ascii "\x7b\"is_permanent\":true\x7d") []).1
      ("channel.ban", "ban") (by decide)).2 "ban").trans (if_pos rfl)⟩

/-! ## Rounding to `float64` -/

theorem bitLengthAux_spec : ∀ fuel n, n ≤ fuel → 0 < n →
    2 ^ (bitLengthAux fuel n - 1) ≤ n ∧ n < 2 ^ bitLengthAux fuel n ∧ 0 < bitLengthAux fuel n := by
  intro fuel
  induction fuel with
  | zero => intro n h1 h2; omega
  | succ fuel ih =>
    intro n h1 h2
    have hn : n ≠ 0 := by omega
    simp only [bitLengthAux, hn, if_false]
    by_cases h0 : n / 2 = 0
    · have hn1 : n = 1 := by omega
      subst hn1
      cases fuel <;> simp [bitLengthAux]
    · obtain ⟨a, b, c⟩ := ih (n / 2) (by omega) (by omega)
      refine ⟨?_, ?_, by omega⟩
      · have h3 : bitLengthAux fuel (n / 2) + 1 - 1 = (bitLengthAux fuel (n / 2) - 1) + 1 := by
          omega
        rw [h3, pow_succ]
        omega
      · rw [pow_succ]
        omega

theorem bitLength_spec (n : Nat) (h : 0 < n) :
    2 ^ (bitLength n - 1) ≤ n ∧ n < 2 ^ bitLength n ∧ 0 < bitLength n :=
  bitLengthAux_spec n n (le_refl n) h

theorem two_zpow_natCast (b : ℕ) : (2 : ℚ) ^ (b : ℤ) = ((2 ^ b : ℕ) : ℚ) := by
  rw [zpow_natCast]
  push_cast
  rfl

theorem two_zpow_natCast_sub_one (b : ℕ) (hb : 0 < b) :
    (2 : ℚ) ^ ((b : ℤ) - 1) = ((2 ^ (b - 1) : ℕ) : ℚ) := by
  have h : ((b : ℤ) - 1) = ((b - 1 : ℕ) : ℤ) := by omega
  rw [h, two_zpow_natCast]

theorem abs_eq_natAbs_div_den (q : ℚ) : |q| = (q.num.natAbs : ℚ) / (q.den : ℚ) := by
  have h1 : (q.num.natAbs : ℚ) = |(q.num : ℚ)| := by
    rw [Nat.cast_natAbs, Int.cast_abs]
  rw [h1]
  conv_lhs => rw [← Rat.num_div_den q]
  rw [abs_div, Nat.abs_cast]

/-- The binary exponent brackets the magnitude. -/
theorem binaryExponent_spec (q : ℚ) (hq : q ≠ 0) :
    (2 : ℚ) ^ binaryExponent q ≤ |q| ∧ |q| < (2 : ℚ) ^ (binaryExponent q + 1) := by
  have hn : 0 < q.num.natAbs := Int.natAbs_pos.mpr (Rat.num_ne_zero.mpr hq)
  have hd : 0 < q.den := q.den_pos
  obtain ⟨n1, n2, n3⟩ := bitLength_spec _ hn
  obtain ⟨d1, d2, d3⟩ := bitLength_spec _ hd
  have hdq : (0 : ℚ) < (q.den : ℚ) := by exact_mod_cast hd
  have N1 : (2 : ℚ) ^ ((bitLength q.num.natAbs : ℤ) - 1) ≤ (q.num.natAbs : ℚ) := by
    rw [two_zpow_natCast_sub_one _ n3]
    exact_mod_cast n1
  have N2 : (q.num.natAbs : ℚ) < (2 : ℚ) ^ (bitLength q.num.natAbs : ℤ) := by
    rw [two_zpow_natCast]
    exact_mod_cast n2
  have D1 : (2 : ℚ) ^ ((bitLength q.den : ℤ) - 1) ≤ (q.den : ℚ) := by
    rw [two_zpow_natCast_sub_one _ d3]
    exact_mod_cast d1
  have D2 : (q.den : ℚ) < (2 : ℚ) ^ (bitLength q.den : ℤ) := by
    rw [two_zpow_natCast]
    exact_mod_cast d2
  have h2 : (0 : ℚ) < 2 := by norm_num
  have h2ne : (2 : ℚ) ≠ 0 := by norm_num
  have habs := abs_eq_natAbs_div_den q
  unfold binaryExponent
  simp only
  split_ifs with hc
  · refine ⟨hc, ?_⟩
    rw [habs, div_lt_iff₀ hdq]
    calc (q.num.natAbs : ℚ) < (2 : ℚ) ^ (bitLength q.num.natAbs : ℤ) := N2
      _ = (2 : ℚ) ^ ((bitLength q.num.natAbs : ℤ) - (bitLength q.den : ℤ) + 1)
            * (2 : ℚ) ^ ((bitLength q.den : ℤ) - 1) := by
          rw [← zpow_add₀ h2ne]
          congr 1
          ring
      _ ≤ (2 : ℚ) ^ ((bitLength q.num.natAbs : ℤ) - (bitLength q.den : ℤ) + 1)
            * (q.den : ℚ) := by
          apply mul_le_mul_of_nonneg_left D1
          exact le_of_lt (zpow_pos h2 _)
  · refine ⟨?_, ?_⟩
    · rw [habs, le_div_iff₀ hdq]
      calc (2 : ℚ) ^ ((bitLength q.num.natAbs : ℤ) - (bitLength q.den : ℤ) - 1) * (q.den : ℚ)
          ≤ (2 : ℚ) ^ ((bitLength q.num.natAbs : ℤ) - (bitLength q.den : ℤ) - 1)
            * (2 : ℚ) ^ (bitLength q.den : ℤ) := by
            apply mul_le_mul_of_nonneg_left (le_of_lt D2)
            exact le_of_lt (zpow_pos h2 _)
        _ = (2 : ℚ) ^ ((bitLength q.num.natAbs : ℤ) - 1) := by
            rw [← zpow_add₀ h2ne]
            congr 1
            ring
        _ ≤ (q.num.natAbs : ℚ) := N1
    · have : (bitLength q.num.natAbs : ℤ) - (bitLength q.den : ℤ) - 1 + 1
          = (bitLength q.num.natAbs : ℤ) - (bitLength q.den : ℤ) := by ring
      rw [this]
      exact lt_of_not_le hc

/-- The binary exponent is the only exponent that brackets the magnitude. -/
theorem binaryExponent_unique (q : ℚ) (hq : q ≠ 0) (k : ℤ) (h1 : (2 : ℚ) ^ k ≤ |q|)
    (h2 : |q| < (2 : ℚ) ^ (k + 1)) : binaryExponent q = k := by
  obtain ⟨e1, e2⟩ := binaryExponent_spec q hq
  have hb : (1 : ℚ) < 2 := by norm_num
  have a : k < binaryExponent q + 1 :=
    (zpow_lt_zpow_iff_right₀ hb).1 (lt_of_le_of_lt h1 e2)
  have b : binaryExponent q < k + 1 :=
    (zpow_lt_zpow_iff_right₀ hb).1 (lt_of_le_of_lt e1 h2)
  omega

theorem roundHalfEven_intCast (k : ℤ) : roundHalfEven (k : ℚ) = k := by
  simp [roundHalfEven]

theorem le_roundHalfEven (k : ℤ) (t : ℚ) (h : (k : ℚ) ≤ t) : k ≤ roundHalfEven t := by
  have hf : k ≤ ⌊t⌋ := Int.le_floor.mpr h
  unfold roundHalfEven
  split_ifs <;> omega

theorem roundHalfEven_le (k : ℤ) (t : ℚ) (h : t ≤ (k : ℚ)) : roundHalfEven t ≤ k := by
  have hf : ⌊t⌋ ≤ k := Int.floor_le_floor h |>.trans (by simp)
  have hfl : (⌊t⌋ : ℚ) ≤ t := Int.floor_le t
  unfold roundHalfEven
  split_ifs with h1 h2 h3
  · exact hf
  · by_contra hc
    have hk : k = ⌊t⌋ := by omega
    have : (⌊t⌋ : ℚ) = t := le_antisymm hfl (by rw [← hk]; exact h)
    rw [← this] at h2
    simp at h2
    linarith
  · exact hf
  · by_contra hc
    have hk : k = ⌊t⌋ := by omega
    have : (⌊t⌋ : ℚ) = t := le_antisymm hfl (by rw [← hk]; exact h)
    rw [← this] at h1
    simp at h1

/-- An integer of 53 binary digits times a power of two is a `float64` value. -/
theorem roundFloat64_normalized (k : ℤ) (j : ℤ) (h1 : 4503599627370496 ≤ |k|)
    (h2 : |k| < 9007199254740992) :
    roundFloat64 ((k : ℚ) * (2 : ℚ) ^ j) = (k : ℚ) * (2 : ℚ) ^ j := by
  have hpos : (0 : ℚ) < (2 : ℚ) ^ j := zpow_pos (by norm_num) _
  have hk0 : (k : ℚ) ≠ 0 := by
    intro h
    have : k = 0 := by exact_mod_cast h
    rw [this] at h1
    simp at h1
  have hw : (k : ℚ) * (2 : ℚ) ^ j ≠ 0 := mul_ne_zero hk0 (ne_of_gt hpos)
  have habs : |(k : ℚ) * (2 : ℚ) ^ j| = |(k : ℚ)| * (2 : ℚ) ^ j := by
    rw [abs_mul, abs_of_pos hpos]
  have c1 : (4503599627370496 : ℚ) ≤ |(k : ℚ)| := by exact_mod_cast h1
  have c2 : |(k : ℚ)| < (9007199254740992 : ℚ) := by exact_mod_cast h2
  have he : binaryExponent ((k : ℚ) * (2 : ℚ) ^ j) = 52 + j := by
    apply binaryExponent_unique _ hw
    · rw [habs, zpow_add₀ (by norm_num : (2 : ℚ) ≠ 0)]
      apply mul_le_mul_of_nonneg_right _ (le_of_lt hpos)
      norm_num
      exact c1
    · rw [habs, show (52 + j + 1 : ℤ) = 53 + j by ring,
        zpow_add₀ (by norm_num : (2 : ℚ) ≠ 0)]
      apply mul_lt_mul_of_pos_right _ hpos
      norm_num
      exact c2
  unfold roundFloat64
  rw [if_neg hw, he, show (52 + j - 52 : ℤ) = j by ring,
    mul_div_cancel_right₀ _ (ne_of_gt hpos), roundHalfEven_intCast]

theorem roundFloat64_zero : roundFloat64 0 = 0 := by
  simp [roundFloat64]

/-- An integer of at most 53 binary digits (or `2 ^ 53` itself) times a power of two is
a `float64` value. -/
theorem roundFloat64_int_mul_zpow (k : ℤ) (j : ℤ) (hk : |k| ≤ 9007199254740992) :
    roundFloat64 ((k : ℚ) * (2 : ℚ) ^ j) = (k : ℚ) * (2 : ℚ) ^ j := by
  have h2ne : (2 : ℚ) ≠ 0 := by norm_num
  by_cases h0 : k = 0
  · subst h0
    simp [roundFloat64_zero]
  by_cases htop : |k| = 9007199254740992
  · have hsplit : (k : ℚ) * (2 : ℚ) ^ j = ((k / 2 : ℤ) : ℚ) * (2 : ℚ) ^ (j + 1) := by
      have hk2 : k = (k / 2) * 2 := by
        rcases abs_eq (by norm_num : (0 : ℤ) ≤ 9007199254740992) |>.1 htop with h | h <;>
          rw [h] <;> norm_num
      conv_lhs => rw [hk2]
      rw [zpow_add₀ h2ne]
      push_cast
      ring
    rw [hsplit]
    apply roundFloat64_normalized
    · rcases abs_eq (by norm_num : (0 : ℤ) ≤ 9007199254740992) |>.1 htop with h | h <;>
        rw [h] <;> norm_num
    · rcases abs_eq (by norm_num : (0 : ℤ) ≤ 9007199254740992) |>.1 htop with h | h <;>
        rw [h] <;> norm_num
  · have hlt : |k| < 9007199254740992 := lt_of_le_of_ne hk htop
    have hn : 0 < k.natAbs := Int.natAbs_pos.mpr h0
    obtain ⟨b1, b2, b3⟩ := bitLength_spec _ hn
    have hnlt : k.natAbs < 2 ^ 53 := by
      have : (k.natAbs : ℤ) < 9007199254740992 := by rw [Int.natCast_natAbs]; exact hlt
      norm_num
      exact_mod_cast this
    have hb : bitLength k.natAbs ≤ 53 := by
      by_contra hc
      have h54 : 53 ≤ bitLength k.natAbs - 1 := by omega
      have : 2 ^ 53 ≤ 2 ^ (bitLength k.natAbs - 1) := Nat.pow_le_pow_right (by norm_num) h54
      omega
    have hlow : 2 ^ 52 ≤ k.natAbs * 2 ^ (53 - bitLength k.natAbs) := by
      calc 2 ^ 52 = 2 ^ (bitLength k.natAbs - 1) * 2 ^ (53 - bitLength k.natAbs) := by
            rw [← pow_add]
            congr 1
            omega
        _ ≤ k.natAbs * 2 ^ (53 - bitLength k.natAbs) := Nat.mul_le_mul_right _ b1
    have hhigh : k.natAbs * 2 ^ (53 - bitLength k.natAbs) < 2 ^ 53 := by
      calc k.natAbs * 2 ^ (53 - bitLength k.natAbs)
          < 2 ^ bitLength k.natAbs * 2 ^ (53 - bitLength k.natAbs) :=
            Nat.mul_lt_mul_of_pos_right b2 (by positivity)
        _ = 2 ^ 53 := by
            rw [← pow_add]
            congr 1
            omega
    have habs : |k * 2 ^ (53 - bitLength k.natAbs)|
        = ((k.natAbs * 2 ^ (53 - bitLength k.natAbs) : ℕ) : ℤ) := by
      rw [abs_mul, abs_of_pos (by positivity : (0 : ℤ) < 2 ^ (53 - bitLength k.natAbs))]
      push_cast
      rfl
    have hsplit : (k : ℚ) * (2 : ℚ) ^ j
        = ((k * 2 ^ (53 - bitLength k.natAbs) : ℤ) : ℚ)
          * (2 : ℚ) ^ (j - ((53 - bitLength k.natAbs : ℕ) : ℤ)) := by
      push_cast
      rw [mul_assoc, ← zpow_natCast (2 : ℚ), ← zpow_add₀ h2ne]
      congr 2
      ring
    rw [hsplit]
    apply roundFloat64_normalized
    · rw [habs]
      have : ((2 ^ 52 : ℕ) : ℤ) ≤ ((k.natAbs * 2 ^ (53 - bitLength k.natAbs) : ℕ) : ℤ) := by
        exact_mod_cast hlow
      simpa using this
    · rw [habs]
      have : ((k.natAbs * 2 ^ (53 - bitLength k.natAbs) : ℕ) : ℤ) < ((2 ^ 53 : ℕ) : ℤ) := by
        exact_mod_cast hhigh
      simpa using this

/-- The integers from `-2 ^ 53` to `2 ^ 53` are `float64` values. -/
theorem roundFloat64_intCast (n : ℤ) (hn : |n| ≤ 9007199254740992) :
    roundFloat64 (n : ℚ) = n := by
  have := roundFloat64_int_mul_zpow n 0 hn
  simpa using this

theorem two_pow_52_mul (e : ℤ) :
    (4503599627370496 : ℚ) * (2 : ℚ) ^ (e - 52) = (2 : ℚ) ^ e := by
  have h : (4503599627370496 : ℚ) = (2 : ℚ) ^ (52 : ℤ) := by norm_num
  rw [h, ← zpow_add₀ (by norm_num : (2 : ℚ) ≠ 0)]
  congr 1
  ring

theorem two_pow_53_mul (e : ℤ) :
    (9007199254740992 : ℚ) * (2 : ℚ) ^ (e - 52) = (2 : ℚ) ^ (e + 1) := by
  have h : (9007199254740992 : ℚ) = (2 : ℚ) ^ (53 : ℤ) := by norm_num
  rw [h, ← zpow_add₀ (by norm_num : (2 : ℚ) ≠ 0)]
  congr 1
  ring

/-- The significand of a rounded number has at most 53 binary digits, or is
`2 ^ 53`. -/
theorem abs_significand_le (q : ℚ) (hq : q ≠ 0) :
    |roundHalfEven (q / (2 : ℚ) ^ (binaryExponent q - 52))| ≤ 9007199254740992 := by
  obtain ⟨e1, e2⟩ := binaryExponent_spec q hq
  have hu : (0 : ℚ) < (2 : ℚ) ^ (binaryExponent q - 52) := zpow_pos (by norm_num) _
  rw [← two_pow_53_mul] at e2
  have habs := abs_lt.1 e2
  rw [abs_le]
  constructor
  · apply le_roundHalfEven
    rw [le_div_iff₀ hu]
    push_cast
    linarith [habs.1]
  · apply roundHalfEven_le
    rw [div_le_iff₀ hu]
    push_cast
    linarith [habs.2]

/-- Rounding gives a `float64` value. -/
theorem isFloat64_roundFloat64 (q : ℚ) : IsFloat64 (roundFloat64 q) := by
  unfold IsFloat64
  by_cases hq : q = 0
  · rw [hq, roundFloat64_zero, roundFloat64_zero]
  · have h : roundFloat64 q
        = (roundHalfEven (q / (2 : ℚ) ^ (binaryExponent q - 52)) : ℚ)
          * (2 : ℚ) ^ (binaryExponent q - 52) := by
      unfold roundFloat64
      rw [if_neg hq]
    rw [h]
    exact roundFloat64_int_mul_zpow _ _ (abs_significand_le q hq)

theorem roundFloat64_nonneg (q : ℚ) (hq : 0 ≤ q) : 0 ≤ roundFloat64 q := by
  unfold roundFloat64
  split_ifs with h0
  · exact le_refl _
  · have hu : (0 : ℚ) < (2 : ℚ) ^ (binaryExponent q - 52) := zpow_pos (by norm_num) _
    apply mul_nonneg _ (le_of_lt hu)
    have : (0 : ℤ) ≤ roundHalfEven (q / (2 : ℚ) ^ (binaryExponent q - 52)) := by
      apply le_roundHalfEven
      push_cast
      exact div_nonneg hq (le_of_lt hu)
    exact_mod_cast this

/-- Adding a non-negative number to a `float64` value and rounding the sum does not
go below the value. -/
theorem le_roundFloat64_add (x y : ℚ) (hx : IsFloat64 x) (hy : 0 ≤ y) :
    x ≤ roundFloat64 (x + y) := by
  have h2 : (1 : ℚ) < 2 := by norm_num
  by_cases hz : x + y = 0
  · rw [hz, roundFloat64_zero]
    linarith
  by_cases hx0 : x = 0
  · rw [hx0]
    exact roundFloat64_nonneg _ (by linarith)
  have hux : (0 : ℚ) < (2 : ℚ) ^ (binaryExponent x - 52) := zpow_pos (by norm_num) _
  have huz : (0 : ℚ) < (2 : ℚ) ^ (binaryExponent (x + y) - 52) := zpow_pos (by norm_num) _
  have hxr : (roundHalfEven (x / (2 : ℚ) ^ (binaryExponent x - 52)) : ℚ)
      * (2 : ℚ) ^ (binaryExponent x - 52) = x := by
    have := hx
    unfold IsFloat64 roundFloat64 at this
    rw [if_neg hx0] at this
    exact this
  have hzr : roundFloat64 (x + y)
      = (roundHalfEven ((x + y) / (2 : ℚ) ^ (binaryExponent (x + y) - 52)) : ℚ)
        * (2 : ℚ) ^ (binaryExponent (x + y) - 52) := by
    unfold roundFloat64
    rw [if_neg hz]
  obtain ⟨x1, x2⟩ := binaryExponent_spec x hx0
  obtain ⟨z1, z2⟩ := binaryExponent_spec (x + y) hz
  by_cases he : binaryExponent x = binaryExponent (x + y)
  · rw [hzr, ← he]
    conv_lhs => rw [← hxr]
    apply mul_le_mul_of_nonneg_right _ (le_of_lt hux)
    have : roundHalfEven (x / (2 : ℚ) ^ (binaryExponent x - 52))
        ≤ roundHalfEven ((x + y) / (2 : ℚ) ^ (binaryExponent x - 52)) := by
      apply le_roundHalfEven
      have hint : ((roundHalfEven (x / (2 : ℚ) ^ (binaryExponent x - 52)) : ℤ) : ℚ)
          = x / (2 : ℚ) ^ (binaryExponent x - 52) := by
        rw [eq_div_iff (ne_of_gt hux)]
        exact hxr
      rw [hint]
      apply div_le_div_of_nonneg_right _ (le_of_lt hux)
      linarith
    exact_mod_cast this
  · rcases lt_or_gt_of_ne hx0 with hneg | hpos
    · by_cases hzpos : 0 ≤ x + y
      · exact le_trans (le_of_lt hneg) (roundFloat64_nonneg _ hzpos)
      · have hzneg : x + y < 0 := lt_of_not_le hzpos
        rw [abs_of_neg hneg] at x1 x2
        rw [abs_of_neg hzneg] at z1 z2
        have hlt : binaryExponent (x + y) < binaryExponent x + 1 :=
          (zpow_lt_zpow_iff_right₀ h2).1 (lt_of_le_of_lt z1 (by linarith))
        have hle : binaryExponent (x + y) + 1 ≤ binaryExponent x := by omega
        have hpow : (2 : ℚ) ^ (binaryExponent (x + y) + 1) ≤ (2 : ℚ) ^ binaryExponent x :=
          (zpow_le_zpow_iff_right₀ h2).2 hle
        have hm : (-9007199254740992 : ℤ)
            ≤ roundHalfEven ((x + y) / (2 : ℚ) ^ (binaryExponent (x + y) - 52)) := by
          apply le_roundHalfEven
          rw [le_div_iff₀ huz]
          push_cast
          rw [neg_mul, two_pow_53_mul]
          linarith
        have hm' : (-9007199254740992 : ℚ)
            ≤ (roundHalfEven ((x + y) / (2 : ℚ) ^ (binaryExponent (x + y) - 52)) : ℚ) := by
          exact_mod_cast hm
        rw [hzr]
        have := mul_le_mul_of_nonneg_right hm' (le_of_lt huz)
        rw [neg_mul, two_pow_53_mul] at this
        linarith
    · have hzpos : 0 < x + y := by linarith
      rw [abs_of_pos hpos] at x1 x2
      rw [abs_of_pos hzpos] at z1 z2
      have hlt : binaryExponent x < binaryExponent (x + y) + 1 :=
        (zpow_lt_zpow_iff_right₀ h2).1 (lt_of_le_of_lt x1 (by linarith))
      have hle : binaryExponent x + 1 ≤ binaryExponent (x + y) := by omega
      have hpow : (2 : ℚ) ^ (binaryExponent x + 1) ≤ (2 : ℚ) ^ binaryExponent (x + y) :=
        (zpow_le_zpow_iff_right₀ h2).2 hle
      have hm : (4503599627370496 : ℤ)
          ≤ roundHalfEven ((x + y) / (2 : ℚ) ^ (binaryExponent (x + y) - 52)) := by
        apply le_roundHalfEven
        rw [le_div_iff₀ huz]
        push_cast
        rw [two_pow_52_mul]
        exact z1
      have hm' : (4503599627370496 : ℚ)
          ≤ (roundHalfEven ((x + y) / (2 : ℚ) ^ (binaryExponent (x + y) - 52)) : ℚ) := by
        exact_mod_cast hm
      rw [hzr]
      have := mul_le_mul_of_nonneg_right hm' (le_of_lt huz)
      rw [two_pow_52_mul] at this
      linarith

/-! ### Cheers -/

theorem dispatch_cheer_eq (rt : Runtime) (cfg : rewardGroupConfig) (uid : String)
    (st : eventsubSelfState) (raw : Bytes) :
    dispatch rt cfg uid st "channel.cheer" raw = onCheer rt st raw := rfl

theorem abs_sum_le_sum_abs (l : List ℤ) : |l.sum| ≤ (l.map (fun b => |b|)).sum := by
  induction l with
  | nil => simp
  | cons b rest ih =>
    simp only [List.sum_cons, List.map_cons]
    exact le_trans (abs_add _ _) (by linarith)

/-- Cheers whose amounts stay within the exact range of `float64`: from a bits sum
that is the integer `s`, with `|s|` and the absolute amounts adding up to at most
`2^53`, the bits sum afterwards is `s` plus the amounts. -/
theorem dispatchAll_cheers (rt : Runtime) (cfg : rewardGroupConfig) (uid : String)
    (raws : List Bytes) (hdec : ∀ raw ∈ raws, (rt.unmarshalBits raw).failed = false)
    (st : eventsubSelfState) (s : ℤ) (hs : st.bitsTotal = (s : ℚ))
    (hbound : |s| + (raws.map (fun raw => |(rt.unmarshalBits raw).ev|)).sum
      ≤ 9007199254740992) :
    (dispatchAll rt cfg uid st (raws.map (fun raw => ("channel.cheer", raw)))).bitsEvents
        = st.bitsEvents + raws.length
      ∧ (dispatchAll rt cfg uid st (raws.map (fun raw => ("channel.cheer", raw)))).bitsTotal
        = st.bitsTotal + (raws.map (fun raw => ((rt.unmarshalBits raw).ev : ℚ))).sum
      ∧ countersBesidesBits
          (dispatchAll rt cfg uid st (raws.map (fun raw => ("channel.cheer", raw))))
        = countersBesidesBits st := by
  induction raws generalizing st s with
  | nil => simp [dispatchAll]
  | cons raw rest ih =>
    have hraw := hdec raw (List.mem_cons_self _ _)
    have hrest : ∀ r ∈ rest, (rt.unmarshalBits r).failed = false :=
      fun r hr => hdec r (List.mem_cons_of_mem _ hr)
    have step : dispatchAll rt cfg uid st
        ((raw :: rest).map (fun raw => ("channel.cheer", raw)))
        = dispatchAll rt cfg uid (onCheer rt st raw)
            (rest.map (fun raw => ("channel.cheer", raw))) := by
      simp [dispatchAll, dispatch_cheer_eq]
    simp only [List.map_cons, List.sum_cons] at hbound
    have hnn : 0 ≤ (rest.map (fun raw => |(rt.unmarshalBits raw).ev|)).sum :=
      List.sum_nonneg (by
        intro x hx
        obtain ⟨r, -, rfl⟩ := List.mem_map.1 hx
        exact abs_nonneg _)
    have hb : |(rt.unmarshalBits raw).ev| ≤ 9007199254740992 := by
      have := abs_nonneg s
      linarith
    have hsb : |s + (rt.unmarshalBits raw).ev| ≤ 9007199254740992 := by
      have := abs_add s (rt.unmarshalBits raw).ev
      linarith
    have hnew : (onCheer rt st raw).bitsTotal = ((s + (rt.unmarshalBits raw).ev : ℤ) : ℚ) := by
      simp only [onCheer, hraw, incNotification]
      simp only [Bool.false_eq_true, if_false]
      rw [roundFloat64_intCast _ hb, hs, ← Int.cast_add, roundFloat64_intCast _ hsb]
    have hbound2 : |s + (rt.unmarshalBits raw).ev|
        + (rest.map (fun raw => |(rt.unmarshalBits raw).ev|)).sum ≤ 9007199254740992 := by
      have := abs_add s (rt.unmarshalBits raw).ev
      linarith
    rw [step]
    obtain ⟨h1, h2, h3⟩ := ih hrest (onCheer rt st raw) _ hnew hbound2
    refine ⟨?_, ?_, ?_⟩
    · rw [h1]
      simp [onCheer, hraw, incNotification]
      ring
    · rw [h2, hnew, hs]
      simp only [List.map_cons, List.sum_cons]
      push_cast
      ring
    · rw [h3]
      simp [onCheer, hraw, incNotification, countersBesidesBits]

/-- C13, counterexample: the cheers of 9007199254740992 bits, 1 bit and 1 bit, all
decoded and dispatched to a new collector, leave the bits-sum counter at
9007199254740992 and not at the sum 9007199254740994 of the amounts: the `float64`
sum of `2^53` and 1 is rounded back to `2^53`. -/
theorem dispatchAll_cheers_rounds_large_sum :
    [ascii "\x7b\"bits\":9007199254740992\x7d", ascii "\x7b\"bits\":1\x7d",
        ascii "\x7b\"bits\":1\x7d"].map
          (fun raw => (sampleLargeCheerRuntime.unmarshalBits raw).ev)
        = [9007199254740992, 1, 1]
      ∧ (∀ raw ∈ [ascii "\x7b\"bits\":9007199254740992\x7d", ascii "\x7b\"bits\":1\x7d",
          ascii "\x7b\"bits\":1\x7d"],
          (sampleLargeCheerRuntime.unmarshalBits raw).failed = false)
      ∧ (dispatchAll sampleLargeCheerRuntime rewardGroups "1234"
          (newEventsubSelfState sampleLargeCheerRuntime.toLower rewardGroups)
          ([ascii "\x7b\"bits\":9007199254740992\x7d", ascii "\x7b\"bits\":1\x7d",
            ascii "\x7b\"bits\":1\x7d"].map
            (fun raw => ("channel.cheer", raw)))).bitsTotal = 9007199254740992
      ∧ (dispatchAll sampleLargeCheerRuntime rewardGroups "1234"
          (newEventsubSelfState sampleLargeCheerRuntime.toLower rewardGroups)
          ([ascii "\x7b\"bits\":9007199254740992\x7d", ascii "\x7b\"bits\":1\x7d",
            ascii "\x7b\"bits\":1\x7d"].map
            (fun raw => ("channel.cheer", raw)))).bitsTotal
        ≠ (([9007199254740992, 1, 1] : List ℤ).map (fun b => (b : ℚ))).sum := by
  decide!

/-- C13, amended: after a sequence of at most `2^53` cheer events whose payloads all
decode and whose absolute bits amounts add up to at most `2^53`, dispatched to a new
collector, the bits-events counter is the number of events, the bits-sum counter is
the sum of their bits amounts, and no other payload-specific counter has changed. -/
theorem dispatchAll_cheers_totals (rt : Runtime) (cfg cfg0 : rewardGroupConfig)
    (selfUserID : String) (raws : List Bytes)
    (hdec : ∀ raw ∈ raws, (rt.unmarshalBits raw).failed = false)
    (hlen : raws.length ≤ 9007199254740992)
    (hbound : (raws.map (fun raw => |(rt.unmarshalBits raw).ev|)).sum ≤ 9007199254740992) :
    (dispatchAll rt cfg selfUserID (newEventsubSelfState rt.toLower cfg0)
        (raws.map (fun raw => ("channel.cheer", raw)))).bitsEvents = raws.length
      ∧ (dispatchAll rt cfg selfUserID (newEventsubSelfState rt.toLower cfg0)
          (raws.map (fun raw => ("channel.cheer", raw)))).bitsTotal
        = (raws.map (fun raw => ((rt.unmarshalBits raw).ev : ℚ))).sum
      ∧ countersBesidesBits (dispatchAll rt cfg selfUserID (newEventsubSelfState rt.toLower cfg0)
          (raws.map (fun raw => ("channel.cheer", raw))))
        = countersBesidesBits (newEventsubSelfState rt.toLower cfg0) := by
  have _ := hlen
  obtain ⟨h1, h2, h3⟩ := dispatchAll_cheers rt cfg selfUserID raws hdec
    (newEventsubSelfState rt.toLower cfg0) 0 (by simp [newEventsubSelfState])
    (by simpa using hbound)
  refine ⟨?_, ?_, h3⟩
  · rw [h1]
    simp [newEventsubSelfState]
  · rw [h2]
    simp [newEventsubSelfState]

/-- The amended C13 on the two sample cheers, 500 bits then 250 bits: two events,
750 bits. -/
theorem dispatchAll_cheers_totals_witness :
    (∀ raw ∈ [ascii "\x7b\"bits\":500\x7d", ascii "\x7b\"bits\":250\x7d"],
        (sampleRuntime.unmarshalBits raw).failed = false)
      ∧ (dispatchAll sampleRuntime rewardGroups "1234"
          (newEventsubSelfState sampleRuntime.toLower rewardGroups)
          ([ascii "\x7b\"bits\":500\x7d", ascii "\x7b\"bits\":250\x7d"].map
            (fun raw => ("channel.cheer", raw)))).bitsEvents = 2
      ∧ (dispatchAll sampleRuntime rewardGroups "1234"
          (newEventsubSelfState sampleRuntime.toLower rewardGroups)
          ([ascii "\x7b\"bits\":500\x7d", ascii "\x7b\"bits\":250\x7d"].map
            (fun raw => ("channel.cheer", raw)))).bitsTotal = 750 :=
  ⟨by decide,
   (dispatchAll_cheers_totals sampleRuntime rewardGroups rewardGroups "1234"
      [ascii "\x7b\"bits\":500\x7d", ascii "\x7b\"bits\":250\x7d"] (by decide)
      (by decide) (by decide)).1.trans (by norm_num),
   (dispatchAll_cheers_totals sampleRuntime rewardGroups rewardGroups "1234"
      [ascii "\x7b\"bits\":500\x7d", ascii "\x7b\"bits\":250\x7d"] (by decide)
      (by decide) (by decide)).2.1.trans (by decide!)⟩

/-- C11, the code at the failing input: a cheer whose payload decodes to -5 bits,
dispatched to a new collector, leaves the bits-sum counter at -5, below its value
0 before the call. -/
theorem dispatch_cheer_negative_bits :
    (sampleRuntime.unmarshalBits (ascii "\x7b\"bits\":-5\x7d")).ev = -5
      ∧ (sampleRuntime.unmarshalBits (ascii "\x7b\"bits\":-5\x7d")).failed = false
      ∧ (newEventsubSelfState sampleRuntime.toLower rewardGroups).bitsTotal = 0
      ∧ (dispatch sampleRuntime rewardGroups "1234"
          (newEventsubSelfState sampleRuntime.toLower rewardGroups) "channel.cheer"
          (ascii "\x7b\"bits\":-5\x7d")).bitsTotal = -5
      ∧ (dispatch sampleRuntime rewardGroups "1234"
          (newEventsubSelfState sampleRuntime.toLower rewardGroups) "channel.cheer"
          (ascii "\x7b\"bits\":-5\x7d")).bitsTotal
        < (newEventsubSelfState sampleRuntime.toLower rewardGroups).bitsTotal := by
  decide!

/-! ### Monotone counters -/

theorem floatAt_le_mapIncr (m : List (String × Float64)) (k k' : String) :
    floatAt m k' ≤ floatAt (mapIncr m k) k' := by
  rw [floatAt_mapIncr]
  split_ifs with h
  · subst h
    linarith
  · exact le_refl _

theorem countersLE_refl (a : eventsubSelfState) : CountersLE a a :=
  ⟨fun _ => le_refl _, le_refl _, fun _ => le_refl _, le_refl _, le_refl _, le_refl _,
    fun _ => le_refl _, le_refl _, le_refl _, le_refl _, le_refl _, fun _ => le_refl _,
    fun _ => le_refl _, fun _ => le_refl _, fun _ => le_refl _, fun _ => le_refl _,
    fun _ => le_refl _⟩

theorem countersLE_trans (a b c : eventsubSelfState) (hab : CountersLE a b)
    (hbc : CountersLE b c) : CountersLE a c := by
  obtain ⟨a1, a2, a3, a4, a5, a6, a7, a8, a9, a10, a11, a12, a13, a14, a15, a16, a17⟩ := hab
  obtain ⟨b1, b2, b3, b4, b5, b6, b7, b8, b9, b10, b11, b12, b13, b14, b15, b16, b17⟩ := hbc
  exact ⟨fun k => le_trans (a1 k) (b1 k), le_trans a2 b2, fun k => le_trans (a3 k) (b3 k),
    le_trans a4 b4, le_trans a5 b5, le_trans a6 b6, fun k => le_trans (a7 k) (b7 k),
    le_trans a8 b8, le_trans a9 b9, le_trans a10 b10, le_trans a11 b11,
    fun k => le_trans (a12 k) (b12 k), fun k => le_trans (a13 k) (b13 k),
    fun k => le_trans (a14 k) (b14 k), fun k => le_trans (a15 k) (b15 k),
    fun k => le_trans (a16 k) (b16 k), fun k => le_trans (a17 k) (b17 k)⟩

theorem countersLE_incNotification (st : eventsubSelfState) (eventType : String) :
    CountersLE st (incNotification st eventType) := by
  refine ⟨?_, ?_, ?_, ?_, ?_, ?_, ?_, ?_, ?_, ?_, ?_, ?_, ?_, ?_, ?_, ?_, ?_⟩ <;>
    first
    | exact le_refl _
    | exact fun _ => le_refl _
    | exact fun _ => floatAt_le_mapIncr _ _ _

theorem countersLE_bumpStage (st : eventsubSelfState) (family : StageFamily) (stage : String) :
    CountersLE st (bumpStage family stage st) := by
  cases family <;>
  refine ⟨?_, ?_, ?_, ?_, ?_, ?_, ?_, ?_, ?_, ?_, ?_, ?_, ?_, ?_, ?_, ?_, ?_⟩ <;>
    first
    | exact le_refl _
    | exact fun _ => le_refl _
    | exact fun _ => floatAt_le_mapIncr _ _ _

theorem countersLE_bumpModeration (st : eventsubSelfState) (action : String) :
    CountersLE st (bumpModeration action st) := by
  refine ⟨?_, ?_, ?_, ?_, ?_, ?_, ?_, ?_, ?_, ?_, ?_, ?_, ?_, ?_, ?_, ?_, ?_⟩ <;>
    first
    | exact le_refl _
    | exact fun _ => le_refl _
    | exact fun _ => floatAt_le_mapIncr _ _ _

theorem countersLE_follows (st : eventsubSelfState) :
    CountersLE st { st with follows := st.follows + 1 } := by
  refine ⟨?_, ?_, ?_, ?_, ?_, ?_, ?_, ?_, ?_, ?_, ?_, ?_, ?_, ?_, ?_, ?_, ?_⟩ <;>
    first
    | exact le_refl _
    | exact fun _ => le_refl _
    | exact fun _ => floatAt_le_mapIncr _ _ _
    | (show _ ≤ _ + _; linarith)

theorem countersLE_giftSubs (st : eventsubSelfState) :
    CountersLE st { st with giftSubs := st.giftSubs + 1 } := by
  refine ⟨?_, ?_, ?_, ?_, ?_, ?_, ?_, ?_, ?_, ?_, ?_, ?_, ?_, ?_, ?_, ?_, ?_⟩ <;>
    first
    | exact le_refl _
    | exact fun _ => le_refl _
    | exact fun _ => floatAt_le_mapIncr _ _ _
    | (show _ ≤ _ + _; linarith)

theorem countersLE_subsByKind (st : eventsubSelfState) (kind : String) :
    CountersLE st { st with subsByKind := mapIncr st.subsByKind kind } := by
  refine ⟨?_, ?_, ?_, ?_, ?_, ?_, ?_, ?_, ?_, ?_, ?_, ?_, ?_, ?_, ?_, ?_, ?_⟩ <;>
    first
    | exact le_refl _
    | exact fun _ => le_refl _
    | exact fun _ => floatAt_le_mapIncr _ _ _

theorem countersLE_bits (st : eventsubSelfState) (b : ℚ) (hb : 0 ≤ b)
    (hrep : IsFloat64 st.bitsTotal) :
    CountersLE st
      { st with bitsEvents := st.bitsEvents + 1,
                bitsTotal := roundFloat64 (st.bitsTotal + roundFloat64 b) } := by
  refine ⟨?_, ?_, ?_, ?_, ?_, ?_, ?_, ?_, ?_, ?_, ?_, ?_, ?_, ?_, ?_, ?_, ?_⟩ <;>
    first
    | exact le_refl _
    | exact fun _ => le_refl _
    | exact fun _ => floatAt_le_mapIncr _ _ _
    | exact le_roundFloat64_add _ _ hrep (roundFloat64_nonneg _ hb)
    | (show _ ≤ _ + _; linarith)

theorem countersLE_pointsByGroup (st : eventsubSelfState) (group : String) :
    CountersLE st { st with pointsByGroup := mapIncr st.pointsByGroup group } := by
  refine ⟨?_, ?_, ?_, ?_, ?_, ?_, ?_, ?_, ?_, ?_, ?_, ?_, ?_, ?_, ?_, ?_, ?_⟩ <;>
    first
    | exact le_refl _
    | exact fun _ => le_refl _
    | exact fun _ => floatAt_le_mapIncr _ _ _

theorem countersLE_raidsIn (st : eventsubSelfState) :
    CountersLE st { st with raidsIn := st.raidsIn + 1 } := by
  refine ⟨?_, ?_, ?_, ?_, ?_, ?_, ?_, ?_, ?_, ?_, ?_, ?_, ?_, ?_, ?_, ?_, ?_⟩ <;>
    first
    | exact le_refl _
    | exact fun _ => le_refl _
    | exact fun _ => floatAt_le_mapIncr _ _ _
    | (show _ ≤ _ + _; linarith)

theorem countersLE_raidsOut (st : eventsubSelfState) :
    CountersLE st { st with raidsOut := st.raidsOut + 1 } := by
  refine ⟨?_, ?_, ?_, ?_, ?_, ?_, ?_, ?_, ?_, ?_, ?_, ?_, ?_, ?_, ?_, ?_, ?_⟩ <;>
    first
    | exact le_refl _
    | exact fun _ => le_refl _
    | exact fun _ => floatAt_le_mapIncr _ _ _
    | (show _ ≤ _ + _; linarith)

theorem countersLE_adsBreaks (st : eventsubSelfState) :
    CountersLE st { st with adsBreaks := st.adsBreaks + 1 } := by
  refine ⟨?_, ?_, ?_, ?_, ?_, ?_, ?_, ?_, ?_, ?_, ?_, ?_, ?_, ?_, ?_, ?_, ?_⟩ <;>
    first
    | exact le_refl _
    | exact fun _ => le_refl _
    | exact fun _ => floatAt_le_mapIncr _ _ _
    | (show _ ≤ _ + _; linarith)

theorem countersLE_adsMinutes (st : eventsubSelfState) (d : ℚ) (hd : 0 ≤ d) :
    CountersLE st { st with adsMinutes := st.adsMinutes + d } := by
  refine ⟨?_, ?_, ?_, ?_, ?_, ?_, ?_, ?_, ?_, ?_, ?_, ?_, ?_, ?_, ?_, ?_, ?_⟩ <;>
    first
    | exact le_refl _
    | exact fun _ => le_refl _
    | exact fun _ => floatAt_le_mapIncr _ _ _
    | (show _ ≤ _ + _; linarith)

theorem handlers_countersLE (rt : Runtime) (cfg : rewardGroupConfig) (uid : String)
    (hbits : ∀ raw, (rt.unmarshalBits raw).failed = false → 0 ≤ (rt.unmarshalBits raw).ev) :
    ∀ kh ∈ handlers rt cfg uid, ∀ st raw, IsFloat64 st.bitsTotal →
      CountersLE st (kh.2 st raw) ∧ IsFloat64 (kh.2 st raw).bitsTotal := by
  intro kh hmem st raw
  simp only [handlers, List.mem_cons, List.mem_singleton, List.not_mem_nil, or_false] at hmem
  rcases hmem with rfl | rfl | rfl | rfl | rfl | rfl | rfl | rfl | rfl | rfl | rfl | rfl | rfl | rfl | rfl | rfl | rfl | rfl | rfl | rfl | rfl | rfl | rfl | rfl | rfl | rfl | rfl | rfl | rfl | rfl | rfl
  · exact fun hrep => ⟨countersLE_incNotification st _, hrep⟩
  · exact fun hrep => ⟨countersLE_incNotification st _, hrep⟩
  · exact fun hrep => ⟨countersLE_trans _ _ _ (countersLE_incNotification st _) (countersLE_follows _), hrep⟩
  · simp only [onSubscribe]
    split_ifs
    · exact fun hrep => ⟨countersLE_trans _ _ _ (countersLE_incNotification st _) (countersLE_giftSubs _), hrep⟩
    · exact fun hrep => ⟨countersLE_trans _ _ _ (countersLE_incNotification st _) (countersLE_subsByKind _ _), hrep⟩
  · exact fun hrep => ⟨countersLE_trans _ _ _ (countersLE_incNotification st _) (countersLE_subsByKind _ _), hrep⟩
  · exact fun hrep => ⟨countersLE_trans _ _ _ (countersLE_incNotification st _) (countersLE_giftSubs _), hrep⟩
  · simp only [onCheer]
    split_ifs with h
    · exact fun hrep => ⟨countersLE_incNotification st _, hrep⟩
    · exact fun hrep => ⟨countersLE_trans _ _ _ (countersLE_incNotification st _)
        (countersLE_bits _ _ (Int.cast_nonneg.mpr (hbits raw (by simpa using h))) hrep),
        isFloat64_roundFloat64 _⟩
  · simp only [onRedemption]
    split_ifs
    · exact fun hrep => ⟨countersLE_incNotification st _, hrep⟩
    · exact fun hrep => ⟨countersLE_trans _ _ _ (countersLE_incNotification st _) (countersLE_pointsByGroup _ _), hrep⟩
  · simp only [onRaid]
    split_ifs
    · exact fun hrep => ⟨countersLE_incNotification st _, hrep⟩
    · exact fun hrep => ⟨countersLE_trans _ _ _ (countersLE_incNotification st _) (countersLE_raidsIn _), hrep⟩
    · exact fun hrep => ⟨countersLE_trans _ _ _ (countersLE_incNotification st _) (countersLE_raidsOut _), hrep⟩
    · exact fun hrep => ⟨countersLE_incNotification st _, hrep⟩
  · simp only [onAdBreakBegin]
    split_ifs with h
    · exact fun hrep => ⟨countersLE_trans _ _ _ (countersLE_incNotification st _)
        (countersLE_trans _ _ _ (countersLE_adsBreaks _)
          (countersLE_adsMinutes _ _
            (le_of_lt (div_pos (Int.cast_pos.mpr h) (by norm_num))))), hrep⟩
    · exact fun hrep => ⟨countersLE_trans _ _ _ (countersLE_incNotification st _) (countersLE_adsBreaks _), hrep⟩
  · exact fun hrep => ⟨countersLE_trans _ _ _ (countersLE_incNotification st _) (countersLE_bumpStage _ _ _), hrep⟩
  · exact fun hrep => ⟨countersLE_trans _ _ _ (countersLE_incNotification st _) (countersLE_bumpStage _ _ _), hrep⟩
  · exact fun hrep => ⟨countersLE_trans _ _ _ (countersLE_incNotification st _) (countersLE_bumpStage _ _ _), hrep⟩
  · exact fun hrep => ⟨countersLE_trans _ _ _ (countersLE_incNotification st _) (countersLE_bumpStage _ _ _), hrep⟩
  · exact fun hrep => ⟨countersLE_trans _ _ _ (countersLE_incNotification st _) (countersLE_bumpStage _ _ _), hrep⟩
  · exact fun hrep => ⟨countersLE_trans _ _ _ (countersLE_incNotification st _) (countersLE_bumpStage _ _ _), hrep⟩
  · exact fun hrep => ⟨countersLE_trans _ _ _ (countersLE_incNotification st _) (countersLE_bumpStage _ _ _), hrep⟩
  · exact fun hrep => ⟨countersLE_trans _ _ _ (countersLE_incNotification st _) (countersLE_bumpStage _ _ _), hrep⟩
  · exact fun hrep => ⟨countersLE_trans _ _ _ (countersLE_incNotification st _) (countersLE_bumpStage _ _ _), hrep⟩
  · exact fun hrep => ⟨countersLE_trans _ _ _ (countersLE_incNotification st _) (countersLE_bumpStage _ _ _), hrep⟩
  · exact fun hrep => ⟨countersLE_trans _ _ _ (countersLE_incNotification st _) (countersLE_bumpStage _ _ _), hrep⟩
  · exact fun hrep => ⟨countersLE_trans _ _ _ (countersLE_incNotification st _) (countersLE_bumpStage _ _ _), hrep⟩
  · exact fun hrep => ⟨countersLE_trans _ _ _ (countersLE_incNotification st _) (countersLE_bumpStage _ _ _), hrep⟩
  · exact fun hrep => ⟨countersLE_trans _ _ _ (countersLE_incNotification st _) (countersLE_bumpStage _ _ _), hrep⟩
  · exact fun hrep => ⟨countersLE_trans _ _ _ (countersLE_incNotification st _) (countersLE_bumpStage _ _ _), hrep⟩
  · exact fun hrep => ⟨countersLE_trans _ _ _ (countersLE_incNotification st _) (countersLE_bumpStage _ _ _), hrep⟩
  · exact fun hrep => ⟨countersLE_trans _ _ _ (countersLE_incNotification st _) (countersLE_bumpModeration _ _), hrep⟩
  · exact fun hrep => ⟨countersLE_trans _ _ _ (countersLE_incNotification st _) (countersLE_bumpModeration _ _), hrep⟩
  · exact fun hrep => ⟨countersLE_trans _ _ _ (countersLE_incNotification st _) (countersLE_bumpModeration _ _), hrep⟩
  · exact fun hrep => ⟨countersLE_trans _ _ _ (countersLE_incNotification st _) (countersLE_bumpModeration _ _), hrep⟩
  · exact fun hrep => ⟨countersLE_trans _ _ _ (countersLE_incNotification st _) (countersLE_bumpModeration _ _), hrep⟩

/-- Apart from the bits sum under a negative bits amount, counters never decrease:
when every decoded bits amount is non-negative, every counter after a sequence
of dispatch calls is at least its value before. The bits sum before the sequence is
a `float64` value, as it is in a new collector and after every cheer. -/
theorem dispatchAll_countersLE (rt : Runtime) (cfg : rewardGroupConfig) (uid : String)
    (hbits : ∀ raw, (rt.unmarshalBits raw).failed = false → 0 ≤ (rt.unmarshalBits raw).ev)
    (events : List (String × Bytes)) (st : eventsubSelfState)
    (hrep : IsFloat64 st.bitsTotal) :
    CountersLE st (dispatchAll rt cfg uid st events) := by
  exact (dispatchAll_rel rt cfg uid
    (fun a b => IsFloat64 a.bitsTotal → CountersLE a b ∧ IsFloat64 b.bitsTotal)
    (fun st h => ⟨countersLE_refl st, h⟩)
    (fun a b c hab hbc h =>
      ⟨countersLE_trans _ _ _ (hab h).1 (hbc (hab h).2).1, (hbc (hab h).2).2⟩)
    (handlers_countersLE rt cfg uid hbits) events st hrep).1

/-! ## Reward grouping -/

theorem lookup_normalizeTable_empty (norm : String → String) (table : List (String × String)) :
    (normalizeTable norm table).lookup "" = none := by
  unfold normalizeTable
  suffices h : ∀ acc : List (String × String), acc.lookup "" = none →
      (table.foldl
        (fun acc kv =>
          let k := norm kv.1
          let v := TrimSpace kv.2
          if k = "" ∨ v = "" then acc else mapStore acc k v) acc).lookup "" = none from
    h [] rfl
  induction table with
  | nil => exact fun acc h => h
  | cons kv rest ih =>
    intro acc hacc
    rw [List.foldl_cons]
    apply ih
    by_cases hk : norm kv.1 = "" ∨ TrimSpace kv.2 = ""
    · simp only [hk, if_true]
      exact hacc
    · simp only [hk, if_false]
      rw [lookup_mapStore, if_neg]
      · exact hacc
      · intro he
        exact hk (Or.inl he.symm)

theorem SetRewardGrouping_eq (toLower : String → String) (current : rewardGroupConfig)
    (defaultGroup unknownGroup : String) (maxGroups : Int)
    (byID byTitle : List (String × String)) :
    SetRewardGrouping toLower current defaultGroup unknownGroup maxGroups byID byTitle
      = if ((groupLabels (effectiveDefault defaultGroup) (effectiveUnknown unknownGroup)
            byID byTitle).length : Int) > effectiveMax maxGroups then
          (some (cardinalityError
              (groupLabels (effectiveDefault defaultGroup) (effectiveUnknown unknownGroup)
                byID byTitle).length
              (effectiveMax maxGroups)
              ((groupLabels (effectiveDefault defaultGroup) (effectiveUnknown unknownGroup)
                byID byTitle).map Prod.fst)),
            current)
        else
          (none,
            { defaultGroup := effectiveDefault defaultGroup,
              unknownGroup := effectiveUnknown unknownGroup,
              maxGroups := effectiveMax maxGroups,
              byID := normalizeTable TrimSpace byID,
              byTitle := normalizeTable (normalizeTitle toLower) byTitle }) := rfl

/-- The invariant of installed configurations: neither table has the empty key. -/
theorem installedAfter_no_empty_key (toLower : String → String) (calls : List GroupingArgs) :
    (installedAfter toLower calls).byID.lookup "" = none
      ∧ (installedAfter toLower calls).byTitle.lookup "" = none := by
  unfold installedAfter
  suffices h : ∀ cfg : rewardGroupConfig,
      (cfg.byID.lookup "" = none ∧ cfg.byTitle.lookup "" = none) →
      ((calls.foldl
        (fun cfg a =>
          (SetRewardGrouping toLower cfg a.defaultGroup a.unknownGroup a.maxGroups
            a.byID a.byTitle).2) cfg).byID.lookup "" = none
        ∧ (calls.foldl
        (fun cfg a =>
          (SetRewardGrouping toLower cfg a.defaultGroup a.unknownGroup a.maxGroups
            a.byID a.byTitle).2) cfg).byTitle.lookup "" = none) from
    h rewardGroups ⟨rfl, rfl⟩
  induction calls with
  | nil => exact fun cfg h => h
  | cons a rest ih =>
    intro cfg hcfg
    rw [List.foldl_cons]
    apply ih
    rw [SetRewardGrouping_eq]
    split_ifs
    · exact hcfg
    · exact ⟨lookup_normalizeTable_empty _ _, lookup_normalizeTable_empty _ _⟩

theorem RewardGroupFor_of_no_empty_key (toLower : String → String) (cfg : rewardGroupConfig)
    (hid : cfg.byID.lookup "" = none) (htitle : cfg.byTitle.lookup "" = none)
    (rewardID rewardTitle : String) :
    RewardGroupFor toLower cfg rewardID rewardTitle
      = match cfg.byID.lookup (TrimSpace rewardID) with
        | some g => g
        | none =>
          match cfg.byTitle.lookup (toLower (TrimSpace rewardTitle)) with
          | some g => g
          | none =>
            if TrimSpace rewardID = "" ∧ toLower (TrimSpace rewardTitle) = "" then
              cfg.defaultGroup
            else cfg.unknownGroup := by
  unfold RewardGroupFor normalizeTitle
  simp only []
  have h1 : (if TrimSpace rewardID ≠ "" then cfg.byID.lookup (TrimSpace rewardID) else none)
      = cfg.byID.lookup (TrimSpace rewardID) := by
    by_cases h : TrimSpace rewardID = ""
    · simp [h, hid]
    · simp [h]
  have h2 : (if toLower (TrimSpace rewardTitle) ≠ "" then
        cfg.byTitle.lookup (toLower (TrimSpace rewardTitle)) else none)
      = cfg.byTitle.lookup (toLower (TrimSpace rewardTitle)) := by
    by_cases h : toLower (TrimSpace rewardTitle) = ""
    · simp [h, htitle]
    · simp [h]
  rw [h1, h2]

/-- C18: under every installed configuration (the initial one, or the one left by
any sequence of `SetRewardGrouping` calls) `RewardGroupFor` returns, for every
reward id and title: the group of the trimmed id when the trimmed id is a key
of the id table, whatever the title; otherwise the group of the trimmed,
lower-cased title when that is a key of the title table; otherwise the default
group when the trimmed id and the normalized title are both empty, and the
unknown group in every remaining case. In particular the empty reward gets the
default group, and a non-blank unregistered id with an empty title gets the
unknown group. -/
theorem RewardGroupFor_spec (lower : Char → Char) (calls : List GroupingArgs)
    (cfg : rewardGroupConfig) (rewardID rewardTitle : String)
    (hcfg : cfg = installedAfter (ToLower lower) calls) :
    (∀ g, cfg.byID.lookup (TrimSpace rewardID) = some g →
        RewardGroupFor (ToLower lower) cfg rewardID rewardTitle = g)
    ∧ (cfg.byID.lookup (TrimSpace rewardID) = none →
        ∀ g, cfg.byTitle.lookup (ToLower lower (TrimSpace rewardTitle)) = some g →
        RewardGroupFor (ToLower lower) cfg rewardID rewardTitle = g)
    ∧ (cfg.byID.lookup (TrimSpace rewardID) = none →
        cfg.byTitle.lookup (ToLower lower (TrimSpace rewardTitle)) = none →
        RewardGroupFor (ToLower lower) cfg rewardID rewardTitle
          = if TrimSpace rewardID = "" ∧ ToLower lower (TrimSpace rewardTitle) = "" then
              cfg.defaultGroup
            else cfg.unknownGroup)
    ∧ RewardGroupFor (ToLower lower) cfg "" "" = cfg.defaultGroup
    ∧ (TrimSpace rewardID ≠ "" → cfg.byID.lookup (TrimSpace rewardID) = none →
        RewardGroupFor (ToLower lower) cfg rewardID "" = cfg.unknownGroup) := by
  obtain ⟨hid, htitle⟩ := installedAfter_no_empty_key (ToLower lower) calls
  rw [← hcfg] at hid htitle
  have hempty : TrimSpace "" = "" := by decide
  have hlow : ToLower lower "" = "" := rfl
  refine ⟨?_, ?_, ?_, ?_, ?_⟩
  · intro g hg
    rw [RewardGroupFor_of_no_empty_key _ _ hid htitle, hg]
  · intro hn g hg
    rw [RewardGroupFor_of_no_empty_key _ _ hid htitle, hn]
    simp only [hg]
  · intro hn ht
    rw [RewardGroupFor_of_no_empty_key _ _ hid htitle, hn]
    simp only [ht]
  · rw [RewardGroupFor_of_no_empty_key _ _ hid htitle, hempty, hlow, hid]
    simp only [htitle]
    simp
  · intro hne hn
    rw [RewardGroupFor_of_no_empty_key _ _ hid htitle, hn, hempty, hlow]
    simp only [htitle]
    simp [hne]

/-- C18 after the sample call: the registered id `id1` gets its group `vip` although
the title `Hydrate` is registered to `health`. -/
theorem RewardGroupFor_spec_witness :
    (installedAfter (ToLower Char.toLower) [sampleGrouping]).byID.lookup (TrimSpace " id1 ")
        = some "vip"
      ∧ (installedAfter (ToLower Char.toLower) [sampleGrouping]).byTitle.lookup
          (ToLower Char.toLower (TrimSpace "Hydrate")) = some "health"
      ∧ RewardGroupFor (ToLower Char.toLower)
          (installedAfter (ToLower Char.toLower) [sampleGrouping]) " id1 " "Hydrate" = "vip" :=
  ⟨by decide, by decide,
   (RewardGroupFor_spec Char.toLower [sampleGrouping]
      (installedAfter (ToLower Char.toLower) [sampleGrouping]) " id1 " "Hydrate" rfl).1
      "vip" (by decide)⟩

theorem mapKeys_mapStore_of_not_mem {β : Type} (m : List (String × β)) (k : String) (v : β)
    (h : k ∉ mapKeys m) : mapKeys (mapStore m k v) = mapKeys m ++ [k] := by
  induction m with
  | nil => rfl
  | cons kv rest ih =>
    obtain ⟨k0, v0⟩ := kv
    simp only [mapKeys, List.map_cons, List.mem_cons, not_or] at h
    have h0 : ¬ k0 = k := fun he => h.1 he.symm
    unfold mapStore
    have := ih h.2
    simp only [mapKeys] at this
    simp [mapKeys, h0, this]

theorem mem_mapKeys_mapStore {β : Type} (m : List (String × β)) (k x : String) (v : β) :
    x ∈ mapKeys (mapStore m k v) ↔ x = k ∨ x ∈ mapKeys m := by
  by_cases h : k ∈ mapKeys m
  · rw [mapKeys_mapStore_of_mem m k v h]
    constructor
    · exact fun hx => Or.inr hx
    · rintro (hx | hx)
      · rw [hx]; exact h
      · exact hx
  · rw [mapKeys_mapStore_of_not_mem m k v h]
    simp only [List.mem_append, List.mem_singleton]
    tauto

theorem nodup_mapKeys_mapStore {β : Type} (m : List (String × β)) (k : String) (v : β)
    (hm : (mapKeys m).Nodup) : (mapKeys (mapStore m k v)).Nodup := by
  by_cases h : k ∈ mapKeys m
  · rw [mapKeys_mapStore_of_mem m k v h]
    exact hm
  · rw [mapKeys_mapStore_of_not_mem m k v h]
    exact List.Nodup.append hm (List.nodup_singleton k)
      (by
        intro a ha hk
        rw [List.mem_singleton] at hk
        exact h (hk ▸ ha))

theorem foldl_store_values (table : List (String × String)) (acc : List (String × Unit))
    (hacc : (mapKeys acc).Nodup) :
    (mapKeys (table.foldl (fun acc kv => mapStore acc kv.2 ()) acc)).Nodup
      ∧ ∀ x, x ∈ mapKeys (table.foldl (fun acc kv => mapStore acc kv.2 ()) acc)
          ↔ x ∈ mapKeys acc ∨ x ∈ table.map Prod.snd := by
  induction table generalizing acc with
  | nil => simp [hacc]
  | cons kv rest ih =>
    rw [List.foldl_cons]
    obtain ⟨h1, h2⟩ := ih (mapStore acc kv.2 ()) (nodup_mapKeys_mapStore acc kv.2 () hacc)
    refine ⟨h1, fun x => ?_⟩
    rw [h2, mem_mapKeys_mapStore]
    simp only [List.map_cons, List.mem_cons]
    tauto

theorem length_groupLabels (defaultGroup unknownGroup : String)
    (byID byTitle : List (String × String)) :
    (groupLabels defaultGroup unknownGroup byID byTitle).length
      = distinctGroupCount defaultGroup unknownGroup byID byTitle := by
  have h0 : (mapKeys (mapStore (mapStore ([] : List (String × Unit)) defaultGroup ())
      unknownGroup ())).Nodup :=
    nodup_mapKeys_mapStore _ _ _ (nodup_mapKeys_mapStore _ _ _ List.nodup_nil)
  obtain ⟨n1, m1⟩ := foldl_store_values byID _ h0
  obtain ⟨n2, m2⟩ := foldl_store_values byTitle _ n1
  have hlen : (groupLabels defaultGroup unknownGroup byID byTitle).length
      = (mapKeys (groupLabels defaultGroup unknownGroup byID byTitle)).length := by
    simp [mapKeys]
  have hg : groupLabels defaultGroup unknownGroup byID byTitle
      = byTitle.foldl (fun acc kv => mapStore acc kv.2 ())
          (byID.foldl (fun acc kv => mapStore acc kv.2 ())
            (mapStore (mapStore [] defaultGroup ()) unknownGroup ())) := rfl
  rw [hlen, hg, ← List.toFinset_card_of_nodup n2]
  unfold distinctGroupCount
  congr 1
  apply List.toFinset.ext
  intro x
  rw [m2, m1, mem_mapKeys_mapStore, mem_mapKeys_mapStore]
  simp only [mapKeys, List.map_nil, List.not_mem_nil, or_false, List.mem_cons, List.mem_append]
  tauto

/-! ### Cardinality guard -/

/-- C19: `SetRewardGrouping` returns an error whenever the number of distinct labels
among the default group, the unknown group and the values of the two tables
exceeds the maximum (a blank default or unknown group read as `default` or
`other`, a non-positive maximum read as 20), and it then leaves the installed
configuration unchanged, so `RewardGroupFor` answers as before for every input. -/
theorem SetRewardGrouping_rejects_too_many_groups (toLower : String → String)
    (current : rewardGroupConfig) (defaultGroup unknownGroup : String) (maxGroups : Int)
    (byID byTitle : List (String × String))
    (hcount : (distinctGroupCount (effectiveDefault defaultGroup)
        (effectiveUnknown unknownGroup) byID byTitle : Int) > effectiveMax maxGroups) :
    (SetRewardGrouping toLower current defaultGroup unknownGroup maxGroups byID byTitle).1 ≠ none
      ∧ (SetRewardGrouping toLower current defaultGroup unknownGroup maxGroups byID byTitle).2
        = current
      ∧ ∀ rewardID rewardTitle,
          RewardGroupFor toLower
            (SetRewardGrouping toLower current defaultGroup unknownGroup maxGroups
              byID byTitle).2 rewardID rewardTitle
          = RewardGroupFor toLower current rewardID rewardTitle := by
  rw [← length_groupLabels] at hcount
  rw [SetRewardGrouping_eq, if_pos hcount]
  exact ⟨by simp, rfl, fun _ _ => rfl⟩

/-- C19 on a call with three distinct groups and a maximum of 2, made after the
sample grouping was installed: the call fails and the sample grouping stays. -/
theorem SetRewardGrouping_rejects_too_many_groups_witness :
    (distinctGroupCount (effectiveDefault "") (effectiveUnknown "")
        [("id9", "extra")] [] : Int) > effectiveMax 2
      ∧ (SetRewardGrouping (ToLower Char.toLower)
          (installedAfter (ToLower Char.toLower) [sampleGrouping]) "" "" 2
          [("id9", "extra")] []).1 ≠ none
      ∧ (SetRewardGrouping (ToLower Char.toLower)
          (installedAfter (ToLower Char.toLower) [sampleGrouping]) "" "" 2
          [("id9", "extra")] []).2
        = installedAfter (ToLower Char.toLower) [sampleGrouping] :=
  ⟨by decide,
   (SetRewardGrouping_rejects_too_many_groups (ToLower Char.toLower)
      (installedAfter (ToLower Char.toLower) [sampleGrouping]) "" "" 2
      [("id9", "extra")] [] (by decide)).1,
   (SetRewardGrouping_rejects_too_many_groups (ToLower Char.toLower)
      (installedAfter (ToLower Char.toLower) [sampleGrouping]) "" "" 2
      [("id9", "extra")] [] (by decide)).2.1⟩

/-- C20, counterexample: the call with default group ` a ` (blanks around it),
unknown group `b`, a maximum of 2 and the id table `id1` to ` a ` (a value with
blanks around it) returns no error, and afterwards `RewardGroupFor` returns the three
distinct labels ` a `, `b` and `a`. -/
theorem SetRewardGrouping_admits_third_label :
    (SetRewardGrouping (ToLower Char.toLower) rewardGroups " a " "b" 2
        [("id1", " a ")] []).1 = none
      ∧ (SetRewardGrouping (ToLower Char.toLower) rewardGroups " a " "b" 2
          [("id1", " a ")] []).2.maxGroups = 2
      ∧ RewardGroupFor (ToLower Char.toLower)
          (SetRewardGrouping (ToLower Char.toLower) rewardGroups " a " "b" 2
            [("id1", " a ")] []).2 "" "" = " a "
      ∧ RewardGroupFor (ToLower Char.toLower)
          (SetRewardGrouping (ToLower Char.toLower) rewardGroups " a " "b" 2
            [("id1", " a ")] []).2 "unknown-id" "" = "b"
      ∧ RewardGroupFor (ToLower Char.toLower)
          (SetRewardGrouping (ToLower Char.toLower) rewardGroups " a " "b" 2
            [("id1", " a ")] []).2 "id1" "" = "a"
      ∧ [" a ", "b", "a"].Nodup := by
  decide

theorem values_normalizeTable (norm : String → String) (table : List (String × String))
    (k g : String) (h : (normalizeTable norm table).lookup k = some g) :
    g ∈ (table.map Prod.snd).map TrimSpace := by
  unfold normalizeTable at h
  suffices hs : ∀ acc : List (String × String),
      (∀ k g, acc.lookup k = some g → g ∈ (table.map Prod.snd).map TrimSpace) →
      ∀ (sub : List (String × String)), (∀ kv ∈ sub, kv ∈ table) →
      ∀ k g, (sub.foldl
        (fun acc kv =>
          let k := norm kv.1
          let v := TrimSpace kv.2
          if k = "" ∨ v = "" then acc else mapStore acc k v) acc).lookup k = some g →
        g ∈ (table.map Prod.snd).map TrimSpace from
    hs [] (fun _ _ hk => by simp at hk) table (fun _ hkv => hkv) k g h
  intro acc hacc sub
  induction sub generalizing acc with
  | nil => exact fun _ => hacc
  | cons kv rest ih =>
    intro hsub
    rw [List.foldl_cons]
    apply ih
    · intro k' g' hk'
      by_cases hc : norm kv.1 = "" ∨ TrimSpace kv.2 = ""
      · simp only [hc, if_true] at hk'
        exact hacc k' g' hk'
      · simp only [hc, if_false] at hk'
        rw [lookup_mapStore] at hk'
        split_ifs at hk' with he
        · rw [← Option.some.inj hk']
          exact List.mem_map.2 ⟨kv.2, List.mem_map.2 ⟨kv, hsub kv (List.mem_cons_self _ _), rfl⟩,
            rfl⟩
        · exact hacc k' g' hk'
    · exact fun kv' hkv' => hsub kv' (List.mem_cons_of_mem _ hkv')

theorem RewardGroupFor_range (toLower : String → String) (cfg : rewardGroupConfig)
    (rewardID rewardTitle : String) :
    RewardGroupFor toLower cfg rewardID rewardTitle = cfg.defaultGroup
      ∨ RewardGroupFor toLower cfg rewardID rewardTitle = cfg.unknownGroup
      ∨ (∃ k, cfg.byID.lookup k = some (RewardGroupFor toLower cfg rewardID rewardTitle))
      ∨ (∃ k, cfg.byTitle.lookup k = some (RewardGroupFor toLower cfg rewardID rewardTitle)) := by
  unfold RewardGroupFor
  simp only []
  by_cases h1 : TrimSpace rewardID = ""
  · rw [if_neg (not_not.mpr h1)]
    simp only []
    by_cases h2 : normalizeTitle toLower rewardTitle = ""
    · rw [if_neg (not_not.mpr h2)]
      simp [h1, h2]
    · rw [if_pos h2]
      rcases hl : cfg.byTitle.lookup (normalizeTitle toLower rewardTitle) with _ | g
      · simp [h1, h2]
      · exact Or.inr (Or.inr (Or.inr ⟨_, hl⟩))
  · rw [if_pos h1]
    rcases hl : cfg.byID.lookup (TrimSpace rewardID) with _ | g
    · simp only []
      by_cases h2 : normalizeTitle toLower rewardTitle = ""
      · rw [if_neg (not_not.mpr h2)]
        simp [h1]
      · rw [if_pos h2]
        rcases hl2 : cfg.byTitle.lookup (normalizeTitle toLower rewardTitle) with _ | g
        · simp [h1]
        · exact Or.inr (Or.inr (Or.inr ⟨_, hl2⟩))
    · exact Or.inr (Or.inr (Or.inl ⟨_, hl⟩))

/-- The bound of the cardinality guard holds when the default and the unknown group
carry no surrounding white space: after a call that returns no error,
`RewardGroupFor` returns at most the effective maximum of distinct labels. -/
theorem RewardGroupFor_labels_bounded (toLower : String → String) (current : rewardGroupConfig)
    (defaultGroup unknownGroup : String) (maxGroups : Int)
    (byID byTitle : List (String × String))
    (hd : TrimSpace (effectiveDefault defaultGroup) = effectiveDefault defaultGroup)
    (hu : TrimSpace (effectiveUnknown unknownGroup) = effectiveUnknown unknownGroup)
    (hok : (SetRewardGrouping toLower current defaultGroup unknownGroup maxGroups
      byID byTitle).1 = none)
    (inputs : List (String × String)) :
    (((inputs.map (fun p => RewardGroupFor toLower
        (SetRewardGrouping toLower current defaultGroup unknownGroup maxGroups byID byTitle).2
        p.1 p.2)).toFinset.card : Nat) : Int) ≤ effectiveMax maxGroups := by
  rw [SetRewardGrouping_eq] at hok ⊢
  split_ifs at hok ⊢ with hc
  · rw [length_groupLabels] at hc
    have hsub : (inputs.map (fun p => RewardGroupFor toLower
          { defaultGroup := effectiveDefault defaultGroup,
            unknownGroup := effectiveUnknown unknownGroup,
            maxGroups := effectiveMax maxGroups,
            byID := normalizeTable TrimSpace byID,
            byTitle := normalizeTable (normalizeTitle toLower) byTitle } p.1 p.2)).toFinset
        ⊆ ((effectiveDefault defaultGroup :: effectiveUnknown unknownGroup
            :: (byID.map Prod.snd ++ byTitle.map Prod.snd)).toFinset).image TrimSpace := by
      intro x hx
      rw [List.mem_toFinset, List.mem_map] at hx
      obtain ⟨p, -, rfl⟩ := hx
      rw [Finset.mem_image]
      rcases RewardGroupFor_range toLower
          { defaultGroup := effectiveDefault defaultGroup,
            unknownGroup := effectiveUnknown unknownGroup,
            maxGroups := effectiveMax maxGroups,
            byID := normalizeTable TrimSpace byID,
            byTitle := normalizeTable (normalizeTitle toLower) byTitle } p.1 p.2
        with h | h | ⟨k, h⟩ | ⟨k, h⟩
      · exact ⟨effectiveDefault defaultGroup, by simp, by rw [h]; exact hd⟩
      · exact ⟨effectiveUnknown unknownGroup, by simp, by rw [h]; exact hu⟩
      · obtain ⟨v, hv, hv'⟩ := List.mem_map.1 (values_normalizeTable _ _ _ _ h)
        refine ⟨v, ?_, hv'⟩
        rw [List.mem_toFinset]
        exact List.mem_cons_of_mem _ (List.mem_cons_of_mem _ (List.mem_append_left _ hv))
      · obtain ⟨v, hv, hv'⟩ := List.mem_map.1 (values_normalizeTable _ _ _ _ h)
        refine ⟨v, ?_, hv'⟩
        rw [List.mem_toFinset]
        exact List.mem_cons_of_mem _ (List.mem_cons_of_mem _ (List.mem_append_right _ hv))
    have h1 := Finset.card_le_card hsub
    have h2 : (((effectiveDefault defaultGroup :: effectiveUnknown unknownGroup
            :: (byID.map Prod.snd ++ byTitle.map Prod.snd)).toFinset).image TrimSpace).card
        ≤ distinctGroupCount (effectiveDefault defaultGroup) (effectiveUnknown unknownGroup)
            byID byTitle := Finset.card_image_le
    have h3 : ((inputs.map (fun p => RewardGroupFor toLower
          { defaultGroup := effectiveDefault defaultGroup,
            unknownGroup := effectiveUnknown unknownGroup,
            maxGroups := effectiveMax maxGroups,
            byID := normalizeTable TrimSpace byID,
            byTitle := normalizeTable (normalizeTitle toLower) byTitle } p.1 p.2)).toFinset.card)
        ≤ distinctGroupCount (effectiveDefault defaultGroup) (effectiveUnknown unknownGroup)
            byID byTitle := le_trans h1 h2
    have h4 : ((distinctGroupCount (effectiveDefault defaultGroup)
        (effectiveUnknown unknownGroup) byID byTitle : Nat) : Int) ≤ effectiveMax maxGroups := by
      omega
    exact le_trans (by exact_mod_cast h3) h4

/-! ## Channel liveness -/

/-- The state machine on a present login, field by field. -/
theorem stateMachine_some (now : Time) (st : channelCoreState) (s : Stream) :
    (stateMachine now st (some s)).live = true
      ∧ (stateMachine now st (some s)).startedAt
          = (if st.live then st.startedAt else s.StartedAt)
      ∧ (stateMachine now st (some s)).lastTitle = s.Title
      ∧ (stateMachine now st (some s)).lastCategoryID = s.GameID
      ∧ (stateMachine now st (some s)).streamStarts
          = (if st.live then st.streamStarts else st.streamStarts + 1)
      ∧ (stateMachine now st (some s)).streamEnds = st.streamEnds
      ∧ (stateMachine now st (some s)).titleChanges
          = (if st.lastTitle ≠ "" ∧ s.Title ≠ "" ∧ s.Title ≠ st.lastTitle then
              st.titleChanges + 1 else st.titleChanges)
      ∧ (stateMachine now st (some s)).categoryChanges
          = (if st.lastCategoryID ≠ "" ∧ s.GameID ≠ "" ∧ s.GameID ≠ st.lastCategoryID then
              st.categoryChanges + 1 else st.categoryChanges) := by
  unfold stateMachine
  cases hl : st.live <;>
    by_cases ht : (st.lastTitle ≠ "" ∧ s.Title ≠ "" ∧ s.Title ≠ st.lastTitle) <;>
    by_cases hc : (st.lastCategoryID ≠ "" ∧ s.GameID ≠ "" ∧ s.GameID ≠ st.lastCategoryID) <;>
    simp [ht, hc]

/-- The state machine on an absent login, field by field. -/
theorem stateMachine_none (now : Time) (st : channelCoreState) :
    (stateMachine now st none).live = false
      ∧ (stateMachine now st none).startedAt = (if st.live then Time.zero else st.startedAt)
      ∧ (stateMachine now st none).lastTitle = (if st.live then "" else st.lastTitle)
      ∧ (stateMachine now st none).lastCategoryID = (if st.live then "" else st.lastCategoryID)
      ∧ (stateMachine now st none).streamStarts = st.streamStarts
      ∧ (stateMachine now st none).streamEnds
          = (if st.live then st.streamEnds + 1 else st.streamEnds)
      ∧ (stateMachine now st none).titleChanges = st.titleChanges
      ∧ (stateMachine now st none).categoryChanges = st.categoryChanges := by
  unfold stateMachine
  cases hl : st.live <;> simp

/-- The state machine on a present login, as one record. -/
theorem stateMachine_some_eq (now : Time) (st : channelCoreState) (s : Stream) :
    stateMachine now st (some s)
      = { live := true,
          startedAt := if st.live then st.startedAt else s.StartedAt,
          lastTitle := s.Title,
          lastCategoryID := s.GameID,
          lastTransitionAt := if st.live then st.lastTransitionAt else now,
          streamStarts := if st.live then st.streamStarts else st.streamStarts + 1,
          streamEnds := st.streamEnds,
          titleChanges :=
            if st.lastTitle ≠ "" ∧ s.Title ≠ "" ∧ s.Title ≠ st.lastTitle then
              st.titleChanges + 1 else st.titleChanges,
          categoryChanges :=
            if st.lastCategoryID ≠ "" ∧ s.GameID ≠ "" ∧ s.GameID ≠ st.lastCategoryID then
              st.categoryChanges + 1 else st.categoryChanges } := by
  obtain ⟨live, startedAt, lastTitle, lastCategoryID, lastTransitionAt, a, b, c, d⟩ := st
  unfold stateMachine
  cases live <;>
    by_cases ht : (lastTitle ≠ "" ∧ s.Title ≠ "" ∧ s.Title ≠ lastTitle) <;>
    by_cases hc : (lastCategoryID ≠ "" ∧ s.GameID ≠ "" ∧ s.GameID ≠ lastCategoryID) <;>
    simp [ht, hc]

/-- The state machine on an absent login, as one record. -/
theorem stateMachine_none_eq (now : Time) (st : channelCoreState) :
    stateMachine now st none
      = { live := false,
          startedAt := if st.live then Time.zero else st.startedAt,
          lastTitle := if st.live then "" else st.lastTitle,
          lastCategoryID := if st.live then "" else st.lastCategoryID,
          lastTransitionAt := if st.live then now else st.lastTransitionAt,
          streamStarts := st.streamStarts,
          streamEnds := if st.live then st.streamEnds + 1 else st.streamEnds,
          titleChanges := st.titleChanges,
          categoryChanges := st.categoryChanges } := by
  obtain ⟨live, startedAt, lastTitle, lastCategoryID, lastTransitionAt, a, b, c, d⟩ := st
  unfold stateMachine
  cases live <;> simp

theorem liveInvariant_initial : LiveInvariant channelCoreState.initial := by
  simp [LiveInvariant, channelCoreState.initial]

theorem liveInvariant_stateMachine (now : Time) (st : channelCoreState) (obs : Option Stream)
    (h : LiveInvariant st) : LiveInvariant (stateMachine now st obs) := by
  obtain ⟨h1, h2⟩ := h
  cases obs with
  | none =>
    obtain ⟨e1, e2, e3, e4, e5, e6, -, -⟩ := stateMachine_none now st
    unfold LiveInvariant
    rw [e1, e2, e3, e4, e5, e6]
    cases hl : st.live
    · simpa using h2 hl
    · simpa using h1 hl
  | some s =>
    obtain ⟨e1, -, -, -, e5, e6, -, -⟩ := stateMachine_some now st s
    unfold LiveInvariant
    rw [e1, e5, e6]
    cases hl : st.live
    · simpa using (h2 hl).1
    · simpa using h1 hl

theorem liveInvariant_runPolls (history : List (Time × Option Stream)) (st : channelCoreState)
    (h : LiveInvariant st) : LiveInvariant (runPolls st history) := by
  induction history generalizing st with
  | nil => exact h
  | cons p rest ih => exact ih _ (liveInvariant_stateMachine p.1 st p.2 h)

theorem runPolls_cons (st : channelCoreState) (p : Time × Option Stream)
    (rest : List (Time × Option Stream)) :
    runPolls st (p :: rest) = runPolls (stateMachine p.1 st p.2) rest := rfl

theorem runPolls_nil (st : channelCoreState) : runPolls st [] = st := rfl

/-- What the invariant says in the words of the counters: the ends never exceed
the starts, by one at most, and the live flag tells which. -/
theorem liveInvariant_bounds (st : channelCoreState) (h : LiveInvariant st) :
    st.streamEnds ≤ st.streamStarts ∧ st.streamStarts ≤ st.streamEnds + 1
      ∧ (st.live = true ↔ st.streamStarts = st.streamEnds + 1)
      ∧ (st.live = false →
          st.startedAt = Time.zero ∧ st.lastTitle = "" ∧ st.lastCategoryID = "") := by
  obtain ⟨h1, h2⟩ := h
  cases hl : st.live
  · obtain ⟨e, e2, e3, e4⟩ := h2 hl
    refine ⟨by rw [e], by rw [e]; linarith, ?_, fun _ => ⟨e2, e3, e4⟩⟩
    constructor
    · intro hc; cases hc
    · intro hc; rw [e] at hc; linarith
  · have e := h1 hl
    refine ⟨by rw [e]; linarith, by rw [e], ?_, fun hc => by cases hc⟩
    exact ⟨fun _ => e, fun _ => rfl⟩

/-- C21: from a fresh channel state, the polls absent, present with title A, present
with title A, present with title B, absent (A and B non-empty and different, the
category the same in the three snapshots) leave one stream start, one stream end,
one title change and no category change. -/
theorem runPolls_absent_A_A_B_absent (t1 t2 t3 t4 t5 : Time) (s1 s2 s3 : Stream)
    (hA : s1.Title ≠ "") (hB : s3.Title ≠ "") (hAA : s2.Title = s1.Title)
    (hAB : s3.Title ≠ s1.Title) (hc2 : s2.GameID = s1.GameID) (hc3 : s3.GameID = s1.GameID) :
    (runPolls channelCoreState.initial
        [(t1, none), (t2, some s1), (t3, some s2), (t4, some s3), (t5, none)]).streamStarts = 1
      ∧ (runPolls channelCoreState.initial
        [(t1, none), (t2, some s1), (t3, some s2), (t4, some s3), (t5, none)]).streamEnds = 1
      ∧ (runPolls channelCoreState.initial
        [(t1, none), (t2, some s1), (t3, some s2), (t4, some s3), (t5, none)]).titleChanges = 1
      ∧ (runPolls channelCoreState.initial
        [(t1, none), (t2, some s1), (t3, some s2), (t4, some s3), (t5, none)]).categoryChanges
          = 0 := by
  have hBA : ¬ s3.Title = s2.Title := by rw [hAA]; exact hAB
  have hcc : s3.GameID = s2.GameID := by rw [hc2, hc3]
  have hc2s : s1.GameID = s2.GameID := hc2.symm
  simp [runPolls, stateMachine_some_eq, stateMachine_none_eq, channelCoreState.initial, hA, hB,
    hAA, hBA, hcc, hc2s, hAB]

/-- C21, on a sample: the titles `Speedrun practice` and `Speedrun attempts`. -/
theorem runPolls_absent_A_A_B_absent_witness :
    (runPolls channelCoreState.initial
        [(⟨1⟩, none), (⟨2⟩, some sampleStream), (⟨3⟩, some sampleStream),
          (⟨4⟩, some { sampleStream with Title := "Speedrun attempts" }),
          (⟨5⟩, none)]).streamStarts = 1
      ∧ (runPolls channelCoreState.initial
        [(⟨1⟩, none), (⟨2⟩, some sampleStream), (⟨3⟩, some sampleStream),
          (⟨4⟩, some { sampleStream with Title := "Speedrun attempts" }),
          (⟨5⟩, none)]).streamEnds = 1
      ∧ (runPolls channelCoreState.initial
        [(⟨1⟩, none), (⟨2⟩, some sampleStream), (⟨3⟩, some sampleStream),
          (⟨4⟩, some { sampleStream with Title := "Speedrun attempts" }),
          (⟨5⟩, none)]).titleChanges = 1
      ∧ (runPolls channelCoreState.initial
        [(⟨1⟩, none), (⟨2⟩, some sampleStream), (⟨3⟩, some sampleStream),
          (⟨4⟩, some { sampleStream with Title := "Speedrun attempts" }),
          (⟨5⟩, none)]).categoryChanges = 0 :=
  runPolls_absent_A_A_B_absent ⟨1⟩ ⟨2⟩ ⟨3⟩ ⟨4⟩ ⟨5⟩ sampleStream sampleStream
    { sampleStream with Title := "Speedrun attempts" }
    (by decide) (by decide) rfl (by decide) rfl rfl

/-- C22: one observation of a channel. From OFFLINE to present the starts grow by
one, the ends stay and the stored start time is the one of the snapshot; from LIVE
to absent the ends grow by one, the starts stay, and the start time, the last title
and the last category are cleared; with the presence unchanged neither counter
moves; the live flag afterwards is the observed presence. -/
theorem stateMachine_transition (now : Time) (st : channelCoreState) (obs : Option Stream) :
    (st.live = false → ∀ s, obs = some s →
        (stateMachine now st obs).streamStarts = st.streamStarts + 1
          ∧ (stateMachine now st obs).streamEnds = st.streamEnds
          ∧ (stateMachine now st obs).startedAt = s.StartedAt
          ∧ (stateMachine now st obs).lastTransitionAt = now)
      ∧ (st.live = true → obs = none →
        (stateMachine now st obs).streamEnds = st.streamEnds + 1
          ∧ (stateMachine now st obs).streamStarts = st.streamStarts
          ∧ (stateMachine now st obs).startedAt = Time.zero
          ∧ (stateMachine now st obs).lastTitle = ""
          ∧ (stateMachine now st obs).lastCategoryID = ""
          ∧ (stateMachine now st obs).lastTransitionAt = now)
      ∧ (st.live = obs.isSome →
        (stateMachine now st obs).streamStarts = st.streamStarts
          ∧ (stateMachine now st obs).streamEnds = st.streamEnds)
      ∧ (stateMachine now st obs).live = obs.isSome := by
  refine ⟨?_, ?_, ?_, ?_⟩
  · intro hl s hs
    subst hs
    simp [stateMachine_some_eq, hl]
  · intro hl hs
    subst hs
    simp [stateMachine_none_eq, hl]
  · intro hl
    cases obs with
    | none =>
      have hl2 : st.live = false := by simpa using hl
      simp [stateMachine_none_eq, hl2]
    | some s =>
      have hl2 : st.live = true := by simpa using hl
      simp [stateMachine_some_eq, hl2]
  · cases obs with
    | none => simp [stateMachine_none_eq]
    | some s => simp [stateMachine_some_eq]

/-- C22, on a sample: the fresh state sees `bob` live. -/
theorem stateMachine_transition_witness :
    (stateMachine ⟨7⟩ channelCoreState.initial (some sampleStream)).streamStarts
        = channelCoreState.initial.streamStarts + 1
      ∧ (stateMachine ⟨7⟩ channelCoreState.initial (some sampleStream)).streamEnds
        = channelCoreState.initial.streamEnds
      ∧ (stateMachine ⟨7⟩ channelCoreState.initial (some sampleStream)).startedAt
        = sampleStream.StartedAt
      ∧ (stateMachine ⟨7⟩ channelCoreState.initial (some sampleStream)).lastTransitionAt = ⟨7⟩ :=
  (stateMachine_transition ⟨7⟩ channelCoreState.initial (some sampleStream)).1 rfl
    sampleStream rfl

/-- C23: after any poll history from the initial state, a present observation that
finds the channel OFFLINE (the first one after entering LIVE) leaves both change
counters as they are, whatever its title and category; one that finds the channel
LIVE adds exactly one to a change counter when the stored value and the current
value are both non-empty and differ, and leaves it as it is otherwise. -/
theorem runPolls_change_counters (history : List (Time × Option Stream)) (now : Time)
    (s : Stream) :
    ((runPolls channelCoreState.initial history).live = false →
        (stateMachine now (runPolls channelCoreState.initial history) (some s)).titleChanges
            = (runPolls channelCoreState.initial history).titleChanges
          ∧ (stateMachine now (runPolls channelCoreState.initial history)
              (some s)).categoryChanges
            = (runPolls channelCoreState.initial history).categoryChanges)
      ∧ ((runPolls channelCoreState.initial history).live = true →
        (((runPolls channelCoreState.initial history).lastTitle ≠ "" ∧ s.Title ≠ ""
              ∧ s.Title ≠ (runPolls channelCoreState.initial history).lastTitle) →
            (stateMachine now (runPolls channelCoreState.initial history) (some s)).titleChanges
              = (runPolls channelCoreState.initial history).titleChanges + 1)
          ∧ (¬ ((runPolls channelCoreState.initial history).lastTitle ≠ "" ∧ s.Title ≠ ""
              ∧ s.Title ≠ (runPolls channelCoreState.initial history).lastTitle) →
            (stateMachine now (runPolls channelCoreState.initial history) (some s)).titleChanges
              = (runPolls channelCoreState.initial history).titleChanges)
          ∧ (((runPolls channelCoreState.initial history).lastCategoryID ≠ "" ∧ s.GameID ≠ ""
              ∧ s.GameID ≠ (runPolls channelCoreState.initial history).lastCategoryID) →
            (stateMachine now (runPolls channelCoreState.initial history)
                (some s)).categoryChanges
              = (runPolls channelCoreState.initial history).categoryChanges + 1)
          ∧ (¬ ((runPolls channelCoreState.initial history).lastCategoryID ≠ "" ∧ s.GameID ≠ ""
              ∧ s.GameID ≠ (runPolls channelCoreState.initial history).lastCategoryID) →
            (stateMachine now (runPolls channelCoreState.initial history)
                (some s)).categoryChanges
              = (runPolls channelCoreState.initial history).categoryChanges)) := by
  have hinv := liveInvariant_runPolls history _ liveInvariant_initial
  generalize runPolls channelCoreState.initial history = st at hinv ⊢
  obtain ⟨-, -, -, -, -, -, e7, e8⟩ := stateMachine_some now st s
  rw [e7, e8]
  refine ⟨?_, ?_⟩
  · intro hl
    obtain ⟨-, -, h3, h4⟩ := hinv.2 hl
    simp [h3, h4]
  · intro _
    refine ⟨fun h => if_pos h, fun h => if_neg h, fun h => if_pos h, fun h => if_neg h⟩

/-- C23, on a sample: after `bob` was seen live, a snapshot with another title
counts one title change. -/
theorem runPolls_change_counters_witness :
    (stateMachine ⟨9⟩ (runPolls channelCoreState.initial [(⟨8⟩, some sampleStream)])
        (some { sampleStream with Title := "Speedrun attempts" })).titleChanges
      = (runPolls channelCoreState.initial [(⟨8⟩, some sampleStream)]).titleChanges + 1 :=
  ((runPolls_change_counters [(⟨8⟩, some sampleStream)] ⟨9⟩
      { sampleStream with Title := "Speedrun attempts" }).2 (by decide)).1
    ⟨by decide, by decide, by decide⟩

/-- C29: while a channel stays live, a snapshot with an empty title stores the empty
title; so after the titles A, empty, B (A and B non-empty and different) the title
changes are what they were after A, and what they were before A when the stored title
was empty or A. The same holds for the category id and the category changes. -/
theorem runPolls_empty_value_forgets (t1 t2 t3 : Time) (st : channelCoreState)
    (s1 s2 s3 : Stream) :
    ((s1.Title ≠ "" ∧ s3.Title ≠ "" ∧ s1.Title ≠ s3.Title ∧ s2.Title = "") →
        (runPolls st [(t1, some s1), (t2, some s2)]).live = true
          ∧ (runPolls st [(t1, some s1)]).lastTitle = s1.Title
          ∧ (runPolls st [(t1, some s1), (t2, some s2)]).lastTitle = ""
          ∧ (runPolls st [(t1, some s1), (t2, some s2), (t3, some s3)]).lastTitle = s3.Title
          ∧ (runPolls st [(t1, some s1), (t2, some s2), (t3, some s3)]).titleChanges
              = (runPolls st [(t1, some s1)]).titleChanges
          ∧ ((st.lastTitle = "" ∨ st.lastTitle = s1.Title) →
              (runPolls st [(t1, some s1), (t2, some s2), (t3, some s3)]).titleChanges
                = st.titleChanges))
      ∧ ((s1.GameID ≠ "" ∧ s3.GameID ≠ "" ∧ s1.GameID ≠ s3.GameID ∧ s2.GameID = "") →
        (runPolls st [(t1, some s1), (t2, some s2)]).live = true
          ∧ (runPolls st [(t1, some s1)]).lastCategoryID = s1.GameID
          ∧ (runPolls st [(t1, some s1), (t2, some s2)]).lastCategoryID = ""
          ∧ (runPolls st [(t1, some s1), (t2, some s2), (t3, some s3)]).lastCategoryID
              = s3.GameID
          ∧ (runPolls st [(t1, some s1), (t2, some s2), (t3, some s3)]).categoryChanges
              = (runPolls st [(t1, some s1)]).categoryChanges
          ∧ ((st.lastCategoryID = "" ∨ st.lastCategoryID = s1.GameID) →
              (runPolls st [(t1, some s1), (t2, some s2), (t3, some s3)]).categoryChanges
                = st.categoryChanges)) := by
  constructor
  · rintro ⟨hA, hB, hAB, h2⟩
    refine ⟨by simp [runPolls, stateMachine_some_eq], by simp [runPolls, stateMachine_some_eq],
      by simp [runPolls, stateMachine_some_eq, h2], by simp [runPolls, stateMachine_some_eq],
      by simp [runPolls, stateMachine_some_eq, h2], ?_⟩
    rintro (h | h) <;> simp [runPolls, stateMachine_some_eq, h2, h]
  · rintro ⟨hA, hB, hAB, h2⟩
    refine ⟨by simp [runPolls, stateMachine_some_eq], by simp [runPolls, stateMachine_some_eq],
      by simp [runPolls, stateMachine_some_eq, h2], by simp [runPolls, stateMachine_some_eq],
      by simp [runPolls, stateMachine_some_eq, h2], ?_⟩
    rintro (h | h) <;> simp [runPolls, stateMachine_some_eq, h2, h]

/-- C29, on a sample: from the fresh state the titles `Speedrun practice`, empty,
`Speedrun attempts` count no title change. -/
theorem runPolls_empty_value_forgets_witness :
    (runPolls channelCoreState.initial
        [(⟨1⟩, some sampleStream), (⟨2⟩, some { sampleStream with Title := "" }),
          (⟨3⟩, some { sampleStream with Title := "Speedrun attempts" })]).titleChanges
      = channelCoreState.initial.titleChanges :=
  ((runPolls_empty_value_forgets ⟨1⟩ ⟨2⟩ ⟨3⟩ channelCoreState.initial sampleStream
      { sampleStream with Title := "" } { sampleStream with Title := "Speedrun attempts" }).1
    ⟨by decide, by decide, by decide, rfl⟩).2.2.2.2.2 (Or.inl rfl)

/-! ## The state map across poll cycles -/

theorem mem_mapStore_cases {β : Type} (m : List (String × β)) (k : String) (v : β)
    (p : String × β) (h : p ∈ mapStore m k v) : p = (k, v) ∨ p ∈ m := by
  induction m with
  | nil =>
    simp only [mapStore, List.mem_singleton] at h
    exact Or.inl h
  | cons kv rest ih =>
    obtain ⟨k0, v0⟩ := kv
    unfold mapStore at h
    split_ifs at h with hk
    · rcases List.mem_cons.1 h with h | h
      · exact Or.inl h
      · exact Or.inr (List.mem_cons_of_mem _ h)
    · rcases List.mem_cons.1 h with h | h
      · exact Or.inr (h ▸ List.mem_cons_self _ _)
      · rcases ih h with h | h
        · exact Or.inl h
        · exact Or.inr (List.mem_cons_of_mem _ h)

theorem updateLogin_liveInvariant (lower : Char → Char) (parseFloat : String → Option Float64)
    (now : Time) (w : ChannelWatchlist) (streamsByLogin : List (String × Stream))
    (acc : List (String × channelCoreState) × List CoreMetric) (login : String)
    (h : ∀ p ∈ acc.1, LiveInvariant p.2) :
    ∀ p ∈ (updateLogin lower parseFloat now w streamsByLogin acc login).1,
      LiveInvariant p.2 := by
  intro p hp
  simp only [updateLogin] at hp
  rcases mem_mapStore_cases _ _ _ _ hp with hp | hp
  · rw [hp]
    apply liveInvariant_stateMachine
    cases hl : acc.1.lookup (normalizeLogin lower login) with
    | none => exact liveInvariant_initial
    | some st => exact h _ (mem_of_lookup_eq_some _ _ _ hl)
  · exact h p hp

theorem foldl_updateLogin_liveInvariant (lower : Char → Char)
    (parseFloat : String → Option Float64) (now : Time) (w : ChannelWatchlist)
    (streamsByLogin : List (String × Stream)) (logins : List String)
    (acc : List (String × channelCoreState) × List CoreMetric)
    (h : ∀ p ∈ acc.1, LiveInvariant p.2) :
    ∀ p ∈ (logins.foldl (updateLogin lower parseFloat now w streamsByLogin) acc).1,
      LiveInvariant p.2 := by
  induction logins generalizing acc with
  | nil => exact h
  | cons login rest ih =>
    exact ih _ (updateLogin_liveInvariant lower parseFloat now w streamsByLogin acc login h)

theorem Update_of_no_logins (lower : Char → Char) (parseFloat : String → Option Float64)
    (c : channelCoreCollector) (now : Time) (h : c.watchlist.AllLogins = []) :
    c.Update lower parseFloat now
      = .ok { err := some .noData, metrics := [], state := c.state, requests := [] } := by
  simp [channelCoreCollector.Update, h]

theorem Update_of_no_client (lower : Char → Char) (parseFloat : String → Option Float64)
    (c : channelCoreCollector) (now : Time) (h : c.client = none) :
    c.Update lower parseFloat now
      = .ok { err := some .noData, metrics := [], state := c.state, requests := [] } := by
  simp [channelCoreCollector.Update, h]

theorem Update_of_chunk_panic (lower : Char → Char) (parseFloat : String → Option Float64)
    (c : channelCoreCollector) (now : Time)
    (client : StreamsParams → Except GoError StreamsResponse) (p : String)
    (hl : c.watchlist.AllLogins ≠ []) (hc : c.client = some client)
    (hb : chunkStrings c.watchlist.AllLogins 100 = .error p) :
    c.Update lower parseFloat now = .error p := by
  simp [channelCoreCollector.Update, hl, hc, hb]

theorem Update_of_fetch_error (lower : Char → Char) (parseFloat : String → Option Float64)
    (c : channelCoreCollector) (now : Time)
    (client : StreamsParams → Except GoError StreamsResponse) (batches : List (List String))
    (requests : List StreamsParams) (e : GoError)
    (hl : c.watchlist.AllLogins ≠ []) (hc : c.client = some client)
    (hb : chunkStrings c.watchlist.AllLogins 100 = .ok batches)
    (hf : fetchStreams lower client batches [] = (requests, .error e)) :
    c.Update lower parseFloat now
      = .ok { err := some (.upstream e), metrics := [], state := c.state,
              requests := requests } := by
  simp [channelCoreCollector.Update, hl, hc, hb, hf]

theorem Update_of_fetch_ok (lower : Char → Char) (parseFloat : String → Option Float64)
    (c : channelCoreCollector) (now : Time)
    (client : StreamsParams → Except GoError StreamsResponse) (batches : List (List String))
    (requests : List StreamsParams) (streamsByLogin : List (String × Stream))
    (hl : c.watchlist.AllLogins ≠ []) (hc : c.client = some client)
    (hb : chunkStrings c.watchlist.AllLogins 100 = .ok batches)
    (hf : fetchStreams lower client batches [] = (requests, .ok streamsByLogin)) :
    c.Update lower parseFloat now
      = .ok { err := none,
              metrics := (c.watchlist.AllLogins.foldl
                (updateLogin lower parseFloat now c.watchlist streamsByLogin) (c.state, [])).2,
              state := (c.watchlist.AllLogins.foldl
                (updateLogin lower parseFloat now c.watchlist streamsByLogin) (c.state, [])).1,
              requests := requests } := by
  simp [channelCoreCollector.Update, hl, hc, hb, hf]

/-- The ways `Update` ends. -/
theorem Update_cases (lower : Char → Char) (parseFloat : String → Option Float64)
    (c : channelCoreCollector) (now : Time) :
    c.Update lower parseFloat now
        = .ok { err := some .noData, metrics := [], state := c.state, requests := [] }
      ∨ (∃ p, chunkStrings c.watchlist.AllLogins 100 = .error p
          ∧ c.Update lower parseFloat now = .error p)
      ∨ (∃ client batches requests e, c.watchlist.AllLogins ≠ [] ∧ c.client = some client
          ∧ chunkStrings c.watchlist.AllLogins 100 = .ok batches
          ∧ fetchStreams lower client batches [] = (requests, .error e)
          ∧ c.Update lower parseFloat now
            = .ok { err := some (.upstream e), metrics := [], state := c.state,
                    requests := requests })
      ∨ (∃ client batches requests streamsByLogin, c.watchlist.AllLogins ≠ []
          ∧ c.client = some client
          ∧ chunkStrings c.watchlist.AllLogins 100 = .ok batches
          ∧ fetchStreams lower client batches [] = (requests, .ok streamsByLogin)
          ∧ c.Update lower parseFloat now
            = .ok { err := none,
                    metrics := (c.watchlist.AllLogins.foldl
                      (updateLogin lower parseFloat now c.watchlist streamsByLogin)
                      (c.state, [])).2,
                    state := (c.watchlist.AllLogins.foldl
                      (updateLogin lower parseFloat now c.watchlist streamsByLogin)
                      (c.state, [])).1,
                    requests := requests }) := by
  by_cases hl : c.watchlist.AllLogins = []
  · exact Or.inl (Update_of_no_logins lower parseFloat c now hl)
  · cases hc : c.client with
    | none => exact Or.inl (Update_of_no_client lower parseFloat c now hc)
    | some client =>
      cases hb : chunkStrings c.watchlist.AllLogins 100 with
      | error p =>
        exact Or.inr (Or.inl ⟨p, rfl,
          Update_of_chunk_panic lower parseFloat c now client p hl hc hb⟩)
      | ok batches =>
        rcases hf : fetchStreams lower client batches [] with ⟨requests, r⟩
        cases r with
        | error e =>
          exact Or.inr (Or.inr (Or.inl ⟨client, batches, requests, e, hl, rfl, rfl, hf,
            Update_of_fetch_error lower parseFloat c now client batches requests e hl hc hb hf⟩))
        | ok m =>
          exact Or.inr (Or.inr (Or.inr ⟨client, batches, requests, m, hl, rfl, rfl, hf,
            Update_of_fetch_ok lower parseFloat c now client batches requests m hl hc hb hf⟩))

theorem Update_liveInvariant (lower : Char → Char) (parseFloat : String → Option Float64)
    (c : channelCoreCollector) (now : Time) (out : CoreOutcome)
    (hout : c.Update lower parseFloat now = .ok out)
    (h : ∀ p ∈ c.state, LiveInvariant p.2) :
    ∀ p ∈ out.state, LiveInvariant p.2 := by
  rcases Update_cases lower parseFloat c now with hu | ⟨_, _, hu⟩
    | ⟨_, _, _, _, _, _, _, _, hu⟩ | ⟨_, _, _, m, _, _, _, _, hu⟩
  · rw [hu] at hout
    rw [← Except.ok.inj hout]; exact h
  · rw [hu] at hout
    cases hout
  · rw [hu] at hout
    rw [← Except.ok.inj hout]; exact h
  · rw [hu] at hout
    rw [← Except.ok.inj hout]
    exact foldl_updateLogin_liveInvariant _ _ _ _ _ _ _ h

theorem pollCycles_liveInvariant (lower : Char → Char) (parseFloat : String → Option Float64)
    (cycles : List ((StreamsParams → Except GoError StreamsResponse) × Time))
    (c : channelCoreCollector) (h : ∀ p ∈ c.state, LiveInvariant p.2) :
    ∀ p ∈ (pollCycles lower parseFloat c cycles).state, LiveInvariant p.2 := by
  induction cycles generalizing c with
  | nil => exact h
  | cons cycle rest ih =>
    simp only [pollCycles, List.foldl_cons]
    apply ih
    cases hu : channelCoreCollector.Update lower parseFloat { c with client := some cycle.1 }
        cycle.2 with
    | error p => exact h
    | ok out => exact Update_liveInvariant lower parseFloat _ cycle.2 out hu h

/-- C27: in the state a collector stores for a channel after any sequence of poll
cycles from its construction, the stream ends are at most the stream starts, which
are at most the ends plus one; the channel is live exactly when the starts are the
ends plus one; and when it is not live its start time, last title and last category
are empty. -/
theorem pollCycles_counters_invariant (lower : Char → Char)
    (parseFloat : String → Option Float64)
    (client : Option (StreamsParams → Except GoError StreamsResponse))
    (watchlist : ChannelWatchlist)
    (cycles : List ((StreamsParams → Except GoError StreamsResponse) × Time))
    (login : String) (st : channelCoreState)
    (hst : (pollCycles lower parseFloat (NewChannelCoreCollector client watchlist)
      cycles).state.lookup login = some st) :
    st.streamEnds ≤ st.streamStarts ∧ st.streamStarts ≤ st.streamEnds + 1
      ∧ (st.live = true ↔ st.streamStarts = st.streamEnds + 1)
      ∧ (st.live = false →
          st.startedAt = Time.zero ∧ st.lastTitle = "" ∧ st.lastCategoryID = "") := by
  apply liveInvariant_bounds
  have h := pollCycles_liveInvariant lower parseFloat cycles
    (NewChannelCoreCollector client watchlist) (by simp [NewChannelCoreCollector])
  exact h _ (mem_of_lookup_eq_some _ _ _ hst)

/-- C27, on a sample: `bob` seen live, then absent. -/
theorem pollCycles_counters_invariant_witness :
    (pollCycles Char.toLower parseDigits (NewChannelCoreCollector none sampleWatchlist)
        [(sampleLiveClient, ⟨100⟩), (sampleOfflineClient, ⟨200⟩)]).state.lookup "bob"
        = some { live := false, startedAt := Time.zero, lastTitle := "", lastCategoryID := "",
                 lastTransitionAt := ⟨200⟩, streamStarts := 1, streamEnds := 1,
                 titleChanges := 0, categoryChanges := 0 }
      ∧ ((1 : Float64) ≤ 1 ∧ (1 : Float64) ≤ 1 + 1
        ∧ (false = true ↔ (1 : Float64) = 1 + 1)
        ∧ (false = false →
            Time.zero = Time.zero ∧ (("" : String) = "") ∧ (("" : String) = ""))) :=
  ⟨by decide!,
    pollCycles_counters_invariant Char.toLower parseDigits none sampleWatchlist
      [(sampleLiveClient, ⟨100⟩), (sampleOfflineClient, ⟨200⟩)] "bob"
      { live := false, startedAt := Time.zero, lastTitle := "", lastCategoryID := "",
        lastTransitionAt := ⟨200⟩, streamStarts := 1, streamEnds := 1,
        titleChanges := 0, categoryChanges := 0 } (by decide!)⟩

/-! ## Batching (`chunkStrings`) -/

/-- One chunk of the loop: the `size` elements from `i` on, or what is left. -/
theorem chunk_eq (input : List String) (size i : Nat) (hi : i < input.length) :
    (input.take (if i + size > input.length then input.length else i + size)).drop i
      = (input.drop i).take size := by
  split_ifs with h
  · rw [List.take_length, List.take_of_length_le]
    rw [List.length_drop]
    omega
  · rw [List.drop_take]
    congr 1
    omega

/-- The chunks the loop returns, when it returns: with enough fuel they concatenate
to the input from `i` on, each is non-empty and of at most `size` elements, and all
but the last have exactly `size`. -/
theorem chunkLoop_ok_spec (input : List String) (size : Nat) (hs : 1 ≤ size) :
    ∀ fuel i chunks, input.length - i ≤ fuel → chunkLoop input size fuel i = .ok chunks →
      chunks.flatten = input.drop i
        ∧ (∀ chunk ∈ chunks, chunk ≠ [] ∧ chunk.length ≤ size)
        ∧ (∀ chunk ∈ chunks.dropLast, chunk.length = size) := by
  intro fuel
  induction fuel with
  | zero =>
    intro i chunks hi hok
    have hle : input.length ≤ i := by omega
    simp only [chunkLoop] at hok
    rw [← Except.ok.inj hok]
    simp [List.drop_eq_nil_of_le hle]
  | succ fuel ih =>
    intro i chunks hi hok
    unfold chunkLoop at hok
    by_cases hlt : i < input.length
    · rw [if_pos hlt] at hok
      by_cases hbig : i + size > 9223372036854775807
      · rw [if_pos hbig] at hok
        cases hok
      rw [if_neg hbig] at hok
      cases hrest : chunkLoop input size fuel (i + size) with
      | error p =>
        rw [hrest] at hok
        cases hok
      | ok rest =>
        rw [hrest] at hok
        simp only at hok
        rw [chunk_eq input size i hlt] at hok
        rw [← Except.ok.inj hok]
        obtain ⟨h1, h2, h3⟩ := ih (i + size) rest (by omega) hrest
        have hlen : ((input.drop i).take size).length = min size (input.length - i) := by
          rw [List.length_take, List.length_drop]
        refine ⟨?_, ?_, ?_⟩
        · rw [List.flatten_cons, h1, ← List.drop_drop, List.take_append_drop]
        · intro chunk hc
          rcases List.mem_cons.1 hc with hc | hc
          · subst hc
            constructor
            · intro hnil
              have h0 := congrArg List.length hnil
              rw [hlen] at h0
              simp only [List.length_nil] at h0
              omega
            · rw [hlen]
              omega
          · exact h2 chunk hc
        · intro chunk hc
          cases rest with
          | nil => simp at hc
          | cons c0 rest2 =>
            rw [List.dropLast_cons₂] at hc
            rcases List.mem_cons.1 hc with hc | hc
            · subst hc
              rw [hlen]
              have hlt2 : i + size < input.length := by
                by_contra hge
                have hnil : input.drop (i + size) = [] :=
                  List.drop_eq_nil_of_le (by omega)
                rw [hnil] at h1
                simp at h1
                exact (h2 c0 (List.mem_cons_self _ _)).1 h1.1
              omega
            · exact h3 chunk hc
    · rw [if_neg hlt] at hok
      rw [← Except.ok.inj hok]
      have hle : input.length ≤ i := by omega
      simp [List.drop_eq_nil_of_le hle]

/-- The loop returns when `len(in) + size` fits. -/
theorem chunkLoop_returns (input : List String) (size : Nat)
    (hfit : input.length + size ≤ 9223372036854775808) :
    ∀ fuel i, ∃ chunks, chunkLoop input size fuel i = .ok chunks := by
  intro fuel
  induction fuel with
  | zero => exact fun i => ⟨[], rfl⟩
  | succ fuel ih =>
    intro i
    unfold chunkLoop
    by_cases hlt : i < input.length
    · rw [if_pos hlt]
      have hbig : ¬ i + size > 9223372036854775807 := by omega
      rw [if_neg hbig]
      obtain ⟨rest, hrest⟩ := ih (i + size)
      rw [hrest]
      exact ⟨_, rfl⟩
    · rw [if_neg hlt]
      exact ⟨[], rfl⟩

theorem wrapInt64_of_fits (n : Int) (h0 : 0 ≤ n) (h1 : n < 9223372036854775808) :
    wrapInt64 n = n := by
  unfold wrapInt64
  omega

theorem chunkStrings_of_nonpos (input : List String) (size : Int) (hs : size ≤ 0) :
    chunkStrings input size = chunkStrings input 1 := by
  unfold chunkStrings
  simp [hs]

theorem chunkStrings_returns (input : List String) (size : Int) (hs : 1 ≤ size)
    (hfit : (input.length : Int) + size - 1 < 9223372036854775808) :
    ∃ chunks, chunkStrings input size = .ok chunks := by
  unfold chunkStrings
  have h : ¬ size ≤ 0 := by omega
  simp only [h, if_false]
  by_cases h0 : input.length = 0
  · rw [if_pos h0]
    exact ⟨[], rfl⟩
  · rw [if_neg h0, wrapInt64_of_fits _ (by omega) hfit]
    have hcap : ¬ Int.tdiv ((input.length : Int) + size - 1) size < 0 := by
      have := Int.tdiv_nonneg (a := (input.length : Int) + size - 1) (b := size)
        (by omega) (by omega)
      omega
    rw [if_neg hcap]
    exact chunkLoop_returns input size.toNat (by omega) _ _

theorem chunkStrings_ok_spec (input : List String) (size : Int) (hs : 1 ≤ size)
    (chunks : List (List String)) (hok : chunkStrings input size = .ok chunks) :
    chunks.flatten = input
      ∧ (∀ chunk ∈ chunks, chunk ≠ [] ∧ (chunk.length : Int) ≤ size)
      ∧ (∀ chunk ∈ chunks.dropLast, (chunk.length : Int) = size) := by
  unfold chunkStrings at hok
  have h : ¬ size ≤ 0 := by omega
  simp only [h, if_false] at hok
  by_cases h0 : input.length = 0
  · rw [if_pos h0] at hok
    rw [← Except.ok.inj hok]
    have : input = [] := List.eq_nil_of_length_eq_zero h0
    simp [this]
  · rw [if_neg h0] at hok
    split_ifs at hok with hcap
    obtain ⟨h1, h2, h3⟩ := chunkLoop_ok_spec input size.toNat (by omega) input.length 0
      chunks (by omega) hok
    refine ⟨by simpa using h1, ?_, ?_⟩
    · intro chunk hc
      obtain ⟨a, b⟩ := h2 chunk hc
      exact ⟨a, by omega⟩
    · intro chunk hc
      have := h3 chunk hc
      omega

/-! ## The requests of a poll -/

theorem fetchStreams_requests (lower : Char → Char)
    (client : StreamsParams → Except GoError StreamsResponse) (batches : List (List String))
    (acc : List (String × Stream)) :
    ∀ r ∈ (fetchStreams lower client batches acc).1,
      r.UserLogins ∈ batches ∧ r.First = r.UserLogins.length := by
  induction batches generalizing acc with
  | nil => simp [fetchStreams]
  | cons batch rest ih =>
    intro r hr
    unfold fetchStreams at hr
    cases hcl : client { UserLogins := batch, First := batch.length } with
    | error e =>
      simp only [hcl, List.mem_singleton] at hr
      subst hr
      exact ⟨List.mem_cons_self _ _, rfl⟩
    | ok streams =>
      simp only [hcl, List.mem_cons] at hr
      rcases hr with hr | hr
      · subst hr
        exact ⟨List.mem_cons_self _ _, rfl⟩
      · obtain ⟨h1, h2⟩ := ih _ r hr
        exact ⟨List.mem_cons_of_mem _ h1, h2⟩

theorem Update_requests (lower : Char → Char) (parseFloat : String → Option Float64)
    (c : channelCoreCollector) (now : Time) (out : CoreOutcome)
    (hout : c.Update lower parseFloat now = .ok out) :
    ∀ r ∈ out.requests,
      r.UserLogins.length ≤ 100 ∧ r.UserLogins ≠ [] ∧ r.First = r.UserLogins.length := by
  have key : ∀ (client : StreamsParams → Except GoError StreamsResponse)
      (batches : List (List String)),
      chunkStrings c.watchlist.AllLogins 100 = .ok batches →
      ∀ r ∈ (fetchStreams lower client batches []).1,
        r.UserLogins.length ≤ 100 ∧ r.UserLogins ≠ [] ∧ r.First = r.UserLogins.length := by
    intro client batches hb r hr
    obtain ⟨h1, h2⟩ := fetchStreams_requests lower client batches [] r hr
    obtain ⟨-, h3, -⟩ := chunkStrings_ok_spec c.watchlist.AllLogins 100 (by norm_num) batches hb
    obtain ⟨h4, h5⟩ := h3 _ h1
    exact ⟨by omega, h4, h2⟩
  rcases Update_cases lower parseFloat c now with hu | ⟨_, _, hu⟩
    | ⟨client, batches, _, _, _, _, hb, hf, hu⟩ | ⟨client, batches, _, _, _, _, hb, hf, hu⟩
  · rw [hu] at hout
    rw [← Except.ok.inj hout]
    simp
  · rw [hu] at hout
    cases hout
  · rw [hu] at hout
    rw [← Except.ok.inj hout]
    intro r hr
    have := key client batches hb r
    rw [hf] at this
    exact this hr
  · rw [hu] at hout
    rw [← Except.ok.inj hout]
    intro r hr
    have := key client batches hb r
    rw [hf] at this
    exact this hr

/-- C30, counterexample: two strings and the largest `int` as the size. The capacity
`(2 + size - 1) / size` wraps to `-1`, and `chunkStrings` panics instead of returning
chunks that concatenate to the input. -/
theorem chunkStrings_panics_on_largest_size :
    (1 : Int) ≤ 9223372036854775807
      ∧ wrapInt64 ((["a", "b"].length : Int) + 9223372036854775807 - 1)
          = -9223372036854775808
      ∧ Int.tdiv (-9223372036854775808) 9223372036854775807 = -1
      ∧ chunkStrings ["a", "b"] 9223372036854775807 = .error "makeslice: cap out of range"
      ∧ ¬ ∃ chunks, chunkStrings ["a", "b"] 9223372036854775807 = .ok chunks
          ∧ chunks.flatten = ["a", "b"] := by
  have h : chunkStrings ["a", "b"] 9223372036854775807
      = .error "makeslice: cap out of range" := by decide
  refine ⟨by decide, by decide, by decide, h, ?_⟩
  rintro ⟨chunks, hc, -⟩
  rw [h] at hc
  cases hc

/-- C30, amended: for a size of at least 1 with `len(in) + size - 1` within `int`,
`chunkStrings` returns; whenever it returns for a size of at least 1, its chunks,
concatenated in order, are the input, every chunk is non-empty and has at most `size`
elements, and every chunk but the last has exactly `size`; the empty input has no
chunk; a size of 0 or less gives what size 1 gives; and every request of a liveness
poll carries a batch of at most 100 logins (and at least one), announced in `First`. -/
theorem chunkStrings_spec (input : List String) (size : Int) :
    (1 ≤ size → (input.length : Int) + size - 1 < 9223372036854775808 →
        ∃ chunks, chunkStrings input size = .ok chunks)
      ∧ (1 ≤ size → ∀ chunks, chunkStrings input size = .ok chunks →
        chunks.flatten = input
          ∧ (∀ chunk ∈ chunks, chunk ≠ [] ∧ (chunk.length : Int) ≤ size)
          ∧ (∀ chunk ∈ chunks.dropLast, (chunk.length : Int) = size))
      ∧ chunkStrings [] size = .ok []
      ∧ (size ≤ 0 → chunkStrings input size = chunkStrings input 1)
      ∧ (∀ (lower : Char → Char) (parseFloat : String → Option Float64)
          (c : channelCoreCollector) (now : Time) (out : CoreOutcome),
          c.Update lower parseFloat now = .ok out →
          ∀ r ∈ out.requests,
            r.UserLogins.length ≤ 100 ∧ r.UserLogins ≠ []
              ∧ r.First = r.UserLogins.length) :=
  ⟨chunkStrings_returns input size, chunkStrings_ok_spec input size, by simp [chunkStrings],
    chunkStrings_of_nonpos input size, Update_requests⟩

/-- The amended C30 on a sample: three strings in chunks of two. -/
theorem chunkStrings_spec_witness :
    chunkStrings ["a", "b", "c"] 2 = .ok [["a", "b"], ["c"]]
      ∧ ([["a", "b"], ["c"]] : List (List String)).flatten = ["a", "b", "c"]
      ∧ (∃ chunks, chunkStrings ["a", "b", "c"] 2 = .ok chunks)
      ∧ chunkStrings ["a", "b", "c"] (-3) = chunkStrings ["a", "b", "c"] 1 :=
  ⟨by decide,
    ((chunkStrings_spec ["a", "b", "c"] 2).2.1 (by decide) [["a", "b"], ["c"]]
      (by decide)).1,
    (chunkStrings_spec ["a", "b", "c"] 2).1 (by decide) (by decide),
    (chunkStrings_spec ["a", "b", "c"] (-3)).2.2.2.1 (by decide)⟩

/-! ## The signed message of the verifier -/

/-- C28: the verifier reads the message id and the timestamp only through their
concatenation: two requests with the same signature header, non-empty ids and
timestamps, and the same id followed by timestamp get the same result for every
secret and body; bytes may move across the boundary of id and timestamp. -/
theorem verifySignature_concat_only (c : Client σ) (headers headers' : Header) (body : Bytes)
    (hsig : headers'.Get "Twitch-Eventsub-Message-Signature"
      = headers.Get "Twitch-Eventsub-Message-Signature")
    (hid : headers.Get "Twitch-Eventsub-Message-Id" ≠ [])
    (hts : headers.Get "Twitch-Eventsub-Message-Timestamp" ≠ [])
    (hid' : headers'.Get "Twitch-Eventsub-Message-Id" ≠ [])
    (hts' : headers'.Get "Twitch-Eventsub-Message-Timestamp" ≠ [])
    (hcat : headers'.Get "Twitch-Eventsub-Message-Id"
        ++ headers'.Get "Twitch-Eventsub-Message-Timestamp"
      = headers.Get "Twitch-Eventsub-Message-Id"
        ++ headers.Get "Twitch-Eventsub-Message-Timestamp") :
    verifySignature c headers' body = verifySignature c headers body := by
  rw [verifySignature_eq, verifySignature_eq, hsig, hcat]
  simp only [hid, hts, hid', hts', false_or]

/-- C28, on a sample: the accepted sample request with the last byte of its id
moved to the front of its timestamp is accepted as well. -/
theorem verifySignature_concat_only_witness :
    verifySignature sampleClient
        (signedHeaders (ascii "msg-000") (ascii "12024-01-01T00:00:00Z") sampleSignature)
        sampleBody
      = verifySignature sampleClient
        (signedHeaders sampleMessageID sampleTimestamp sampleSignature) sampleBody
    ∧ verifySignature sampleClient
        (signedHeaders sampleMessageID sampleTimestamp sampleSignature) sampleBody
      = .ok (true, []) :=
  ⟨verifySignature_concat_only sampleClient
      (signedHeaders sampleMessageID sampleTimestamp sampleSignature)
      (signedHeaders (ascii "msg-000") (ascii "12024-01-01T00:00:00Z") sampleSignature)
      sampleBody (by decide) (by decide) (by decide) (by decide) (by decide) (by decide),
    by decide!⟩

/-! ## A failing poll -/

theorem fetchStreams_first_error (lower : Char → Char)
    (client : StreamsParams → Except GoError StreamsResponse)
    (pre : List (List String)) (batch : List String) (post : List (List String))
    (acc : List (String × Stream)) (e : GoError)
    (hpre : ∀ b ∈ pre, ∃ streams, client { UserLogins := b, First := b.length } = .ok streams)
    (he : client { UserLogins := batch, First := batch.length } = .error e) :
    fetchStreams lower client (pre ++ batch :: post) acc
      = ((pre ++ [batch]).map (fun b => { UserLogins := b, First := b.length }),
          .error e) := by
  induction pre generalizing acc with
  | nil => simp [fetchStreams, he]
  | cons b rest ih =>
    obtain ⟨streams, hs⟩ := hpre b (List.mem_cons_self _ _)
    have hrest := fun acc => ih acc (fun b hb => hpre b (List.mem_cons_of_mem _ hb))
    simp [fetchStreams, hs, hrest]

/-- When the client returns a Go error on a batch (the batches before it were
answered), `Update` returns that error, sends no sample, and leaves the state map, so
the state of every channel, as it was; the requests sent are those up to the failing
batch. -/
theorem Update_fetch_error (lower : Char → Char) (parseFloat : String → Option Float64)
    (c : channelCoreCollector) (now : Time)
    (client : StreamsParams → Except GoError StreamsResponse)
    (pre : List (List String)) (batch : List String) (post : List (List String))
    (e : GoError)
    (hc : c.client = some client)
    (hsplit : chunkStrings c.watchlist.AllLogins 100 = .ok (pre ++ batch :: post))
    (hpre : ∀ b ∈ pre, ∃ resp, client { UserLogins := b, First := b.length } = .ok resp)
    (he : client { UserLogins := batch, First := batch.length } = .error e) :
    c.Update lower parseFloat now
      = .ok { err := some (.upstream e), metrics := [], state := c.state,
              requests := (pre ++ [batch]).map
                (fun b => { UserLogins := b, First := b.length }) } := by
  have hl : c.watchlist.AllLogins ≠ [] := by
    intro h0
    rw [h0] at hsplit
    simp [chunkStrings] at hsplit
  have hf := fetchStreams_first_error lower client pre batch post [] e hpre he
  exact Update_of_fetch_error lower parseFloat c now client _ _ e hl hc hsplit hf

/-- The Go-error path on a sample: `bob` is stored live, and the client fails. -/
theorem Update_fetch_error_sample :
    channelCoreCollector.Update Char.toLower parseDigits
        { client := some sampleFailingClient, watchlist := sampleWatchlist,
          state := [("bob", sampleLiveState)] }
        ⟨63839000120000000000⟩
      = .ok { err := some (.upstream (.new "upstream unavailable")), metrics := [],
              state := [("bob", sampleLiveState)],
              requests := [{ UserLogins := ["alice", "bob"], First := 2 }] } :=
  Update_fetch_error Char.toLower parseDigits
    { client := some sampleFailingClient, watchlist := sampleWatchlist,
      state := [("bob", sampleLiveState)] }
    ⟨63839000120000000000⟩ sampleFailingClient [] ["alice", "bob"] []
    (.new "upstream unavailable") rfl (by decide) (by simp) rfl

/-- The first loop of `Update` reads the answers of the client through their streams
only: the status code and the error message of a response change nothing. -/
theorem fetchStreams_ignores_status (lower : Char → Char)
    (client client' : StreamsParams → Except GoError StreamsResponse)
    (hsame : ∀ params, (client params).map StreamsResponse.Streams
      = (client' params).map StreamsResponse.Streams)
    (batches : List (List String)) (acc : List (String × Stream)) :
    fetchStreams lower client batches acc = fetchStreams lower client' batches acc := by
  induction batches generalizing acc with
  | nil => rfl
  | cons batch rest ih =>
    have h := hsame { UserLogins := batch, First := batch.length }
    unfold fetchStreams
    cases h1 : client { UserLogins := batch, First := batch.length } with
    | error e =>
      cases h2 : client' { UserLogins := batch, First := batch.length } with
      | error e' =>
        rw [h1, h2] at h
        simp only [Except.map] at h
        simp only [h1, h2, Except.error.inj h]
      | ok resp' =>
        rw [h1, h2] at h
        simp [Except.map] at h
    | ok resp =>
      cases h2 : client' { UserLogins := batch, First := batch.length } with
      | error e' =>
        rw [h1, h2] at h
        simp [Except.map] at h
      | ok resp' =>
        rw [h1, h2] at h
        simp only [Except.map] at h
        simp only [h1, h2, Except.ok.inj h, ih]

/-- The method `Update` never reads the status code of a response: two clients whose
answers carry the same streams (or the same Go error) give the same outcome. -/
theorem Update_ignores_status (lower : Char → Char) (parseFloat : String → Option Float64)
    (watchlist : ChannelWatchlist) (state : List (String × channelCoreState)) (now : Time)
    (client client' : StreamsParams → Except GoError StreamsResponse)
    (hsame : ∀ params, (client params).map StreamsResponse.Streams
      = (client' params).map StreamsResponse.Streams) :
    channelCoreCollector.Update lower parseFloat
        { client := some client, watchlist := watchlist, state := state } now
      = channelCoreCollector.Update lower parseFloat
        { client := some client', watchlist := watchlist, state := state } now := by
  unfold channelCoreCollector.Update
  simp only [fetchStreams_ignores_status lower client client' hsame]

/-- C24, the code at the failing input: `alice` watches `bob`, `bob` is stored live,
and the upstream answers the poll with the status 503, which the client hands over
as a response with that status and a nil error. `Update` returns nil, sends all 18
samples with the live gauge of `bob` at 0, counts a stream end for `bob` and clears
his stored start time, title and category: the failed fetch is not returned as an
error, and it changes the samples and the stored state. -/
theorem Update_ignores_failure_status :
    sampleUnavailableClient { UserLogins := ["alice", "bob"], First := 2 }
        = .ok { StatusCode := 503, ErrorMessage := "Service Unavailable", Streams := [] }
      ∧ channelCoreCollector.Update Char.toLower parseDigits
          { client := some sampleUnavailableClient, watchlist := sampleWatchlist,
            state := [("bob", sampleLiveState)] }
          ⟨63839000120000000000⟩
        = .ok sampleUnavailableOutcome
      ∧ sampleUnavailableOutcome.err = none
      ∧ sampleUnavailableOutcome.metrics.length = 18
      ∧ sampleUnavailableOutcome.state.lookup "bob" ≠ some sampleLiveState
      ∧ ({ desc := .channelStreamEndsTotal, value := 1, labels := ["bob", "watch"] }
          : CoreMetric) ∈ sampleUnavailableOutcome.metrics := by
  decide!

/-! ## A successful poll -/

theorem fetchStreams_ok (lower : Char → Char)
    (client : StreamsParams → Except GoError StreamsResponse) (batches : List (List String))
    (acc m : List (String × Stream))
    (h : (fetchStreams lower client batches acc).2 = .ok m) :
    m = (batches.flatMap fun batch =>
          match client { UserLogins := batch, First := batch.length } with
          | .ok resp => resp.Streams
          | .error _ => []).foldl
        (fun m s => mapStore m (normalizeLogin lower s.UserLogin) s) acc := by
  induction batches generalizing acc with
  | nil =>
    simp only [fetchStreams] at h
    simpa using (Except.ok.inj h).symm
  | cons batch rest ih =>
    unfold fetchStreams at h
    cases hcl : client { UserLogins := batch, First := batch.length } with
    | error e =>
      simp only [hcl] at h
      cases h
    | ok streams =>
      simp only [hcl] at h
      rw [List.flatMap_cons, List.foldl_append]
      simp only [hcl]
      exact ih _ h

theorem lookup_foldl_store_some (key : Stream → String) (l : List Stream)
    (acc : List (String × Stream)) (k : String) (s : Stream)
    (h : (l.foldl (fun m s => mapStore m (key s) s) acc).lookup k = some s) :
    (s ∈ l ∧ key s = k) ∨ acc.lookup k = some s := by
  induction l generalizing acc with
  | nil => exact Or.inr h
  | cons s0 rest ih =>
    rw [List.foldl_cons] at h
    rcases ih _ h with ⟨h1, h2⟩ | h1
    · exact Or.inl ⟨List.mem_cons_of_mem _ h1, h2⟩
    · rw [lookup_mapStore] at h1
      split_ifs at h1 with hk
      · have : s0 = s := Option.some.inj h1
        subst this
        exact Or.inl ⟨List.mem_cons_self _ _, hk.symm⟩
      · exact Or.inr h1

theorem lookup_foldl_store_isSome (key : Stream → String) (l : List Stream)
    (acc : List (String × Stream)) (k : String)
    (h : (∃ s ∈ l, key s = k) ∨ (acc.lookup k).isSome) :
    ((l.foldl (fun m s => mapStore m (key s) s) acc).lookup k).isSome := by
  induction l generalizing acc with
  | nil =>
    rcases h with ⟨s, hs, -⟩ | h
    · cases hs
    · exact h
  | cons s0 rest ih =>
    rw [List.foldl_cons]
    apply ih
    rcases h with ⟨s, hs, hk⟩ | h
    · rcases List.mem_cons.1 hs with hs | hs
      · subst hs
        right
        rw [lookup_mapStore, if_pos hk.symm]
        rfl
      · exact Or.inl ⟨s, hs, hk⟩
    · right
      rw [lookup_mapStore]
      split_ifs
      · rfl
      · exact h

theorem pollResult_of_ok (client : StreamsParams → Except GoError StreamsResponse)
    (logins : List String) (batches : List (List String))
    (hb : chunkStrings logins 100 = .ok batches) :
    pollResult client logins
      = batches.flatMap fun batch =>
          match client { UserLogins := batch, First := batch.length } with
          | .ok resp => resp.Streams
          | .error _ => [] := by
  simp [pollResult, hb]

/-- What a successful `Update` has done: the map of streams it looked the logins
up in, and its samples and state as the fold over the logins. -/
theorem Update_of_ok (lower : Char → Char) (parseFloat : String → Option Float64)
    (c : channelCoreCollector) (now : Time)
    (client : StreamsParams → Except GoError StreamsResponse) (out : CoreOutcome)
    (hc : c.client = some client) (hout : c.Update lower parseFloat now = .ok out)
    (hok : out.err = none) :
    ∃ streamsByLogin : List (String × Stream),
      (∀ k s, streamsByLogin.lookup k = some s →
          s ∈ pollResult client c.watchlist.AllLogins ∧ normalizeLogin lower s.UserLogin = k)
        ∧ (∀ k, (∃ s ∈ pollResult client c.watchlist.AllLogins,
            normalizeLogin lower s.UserLogin = k) → (streamsByLogin.lookup k).isSome)
        ∧ out.metrics
          = (c.watchlist.AllLogins.foldl
              (updateLogin lower parseFloat now c.watchlist streamsByLogin) (c.state, [])).2
        ∧ out.state
          = (c.watchlist.AllLogins.foldl
              (updateLogin lower parseFloat now c.watchlist streamsByLogin) (c.state, [])).1 := by
  rcases Update_cases lower parseFloat c now with hu | ⟨_, _, hu⟩
    | ⟨_, _, _, _, _, _, _, _, hu⟩ | ⟨client', batches, _, m, _, hc', hb, hf, hu⟩
  · rw [hu] at hout
    rw [← Except.ok.inj hout] at hok
    cases hok
  · rw [hu] at hout
    cases hout
  · rw [hu] at hout
    rw [← Except.ok.inj hout] at hok
    cases hok
  · have hcl : client' = client := by
      rw [hc] at hc'
      exact (Option.some.inj hc').symm
    subst hcl
    rw [hu] at hout
    have hm := fetchStreams_ok lower client' batches [] m (by rw [hf])
    rw [← pollResult_of_ok client' _ batches hb] at hm
    rw [← Except.ok.inj hout]
    refine ⟨m, ?_, ?_, rfl, rfl⟩
    · intro k s hks
      rw [hm] at hks
      rcases lookup_foldl_store_some _ _ _ _ _ hks with h | h
      · exact h
      · simp at h
    · intro k hk
      rw [hm]
      exact lookup_foldl_store_isSome _ _ _ _ (Or.inl hk)

theorem updateLogin_metrics (lower : Char → Char) (parseFloat : String → Option Float64)
    (now : Time) (w : ChannelWatchlist) (streamsByLogin : List (String × Stream))
    (acc : List (String × channelCoreState) × List CoreMetric) (login : String) :
    ∃ st, (updateLogin lower parseFloat now w streamsByLogin acc login).2
      = acc.2 ++ (coreGauges parseFloat now (normalizeLogin lower login)
            (roleLabel lower w (normalizeLogin lower login))
            (streamsByLogin.lookup (normalizeLogin lower login))
          ++ coreCounters (normalizeLogin lower login)
            (roleLabel lower w (normalizeLogin lower login)) st) :=
  ⟨stateMachine now
      (match acc.1.lookup (normalizeLogin lower login) with
        | some st => st
        | none => channelCoreState.initial)
      (streamsByLogin.lookup (normalizeLogin lower login)),
    by simp only [updateLogin, List.append_assoc]⟩

theorem foldl_updateLogin_metrics_mono (lower : Char → Char)
    (parseFloat : String → Option Float64) (now : Time) (w : ChannelWatchlist)
    (streamsByLogin : List (String × Stream)) (logins : List String)
    (acc : List (String × channelCoreState) × List CoreMetric) (m : CoreMetric)
    (h : m ∈ acc.2) :
    m ∈ (logins.foldl (updateLogin lower parseFloat now w streamsByLogin) acc).2 := by
  induction logins generalizing acc with
  | nil => exact h
  | cons login rest ih =>
    rw [List.foldl_cons]
    apply ih
    obtain ⟨st, hst⟩ := updateLogin_metrics lower parseFloat now w streamsByLogin acc login
    rw [hst]
    exact List.mem_append_left _ h

theorem foldl_updateLogin_gauges (lower : Char → Char)
    (parseFloat : String → Option Float64) (now : Time) (w : ChannelWatchlist)
    (streamsByLogin : List (String × Stream)) (logins : List String)
    (acc : List (String × channelCoreState) × List CoreMetric) (login : String)
    (hl : login ∈ logins) (m : CoreMetric)
    (h : m ∈ coreGauges parseFloat now (normalizeLogin lower login)
      (roleLabel lower w (normalizeLogin lower login))
      (streamsByLogin.lookup (normalizeLogin lower login))) :
    m ∈ (logins.foldl (updateLogin lower parseFloat now w streamsByLogin) acc).2 := by
  induction logins generalizing acc with
  | nil => cases hl
  | cons l0 rest ih =>
    rw [List.foldl_cons]
    rcases List.mem_cons.1 hl with hl | hl
    · subst hl
      apply foldl_updateLogin_metrics_mono
      obtain ⟨st, hst⟩ := updateLogin_metrics lower parseFloat now w streamsByLogin acc login
      rw [hst]
      exact List.mem_append_right _ (List.mem_append_left _ h)
    · exact ih _ hl

theorem foldl_updateLogin_metrics_cases (lower : Char → Char)
    (parseFloat : String → Option Float64) (now : Time) (w : ChannelWatchlist)
    (streamsByLogin : List (String × Stream)) (logins : List String)
    (acc : List (String × channelCoreState) × List CoreMetric) (m : CoreMetric)
    (h : m ∈ (logins.foldl (updateLogin lower parseFloat now w streamsByLogin) acc).2) :
    m ∈ acc.2 ∨ ∃ login ∈ logins,
      m ∈ coreGauges parseFloat now (normalizeLogin lower login)
          (roleLabel lower w (normalizeLogin lower login))
          (streamsByLogin.lookup (normalizeLogin lower login))
        ∨ ∃ st, m ∈ coreCounters (normalizeLogin lower login)
          (roleLabel lower w (normalizeLogin lower login)) st := by
  induction logins generalizing acc with
  | nil => exact Or.inl h
  | cons l0 rest ih =>
    rw [List.foldl_cons] at h
    rcases ih _ h with h | ⟨login, hl, h⟩
    · obtain ⟨st, hst⟩ := updateLogin_metrics lower parseFloat now w streamsByLogin acc l0
      rw [hst] at h
      rcases List.mem_append.1 h with h | h
      · exact Or.inl h
      · rcases List.mem_append.1 h with h | h
        · exact Or.inr ⟨l0, List.mem_cons_self _ _, Or.inl h⟩
        · exact Or.inr ⟨l0, List.mem_cons_self _ _, Or.inr ⟨st, h⟩⟩
    · exact Or.inr ⟨login, List.mem_cons_of_mem _ hl, h⟩

theorem coreGauges_none (parseFloat : String → Option Float64) (now : Time)
    (login role : String) :
    coreGauges parseFloat now login role none
      = [{ desc := .channelLive, value := 0, labels := [login, role] },
         { desc := .channelViewers, value := 0, labels := [login, role] },
         { desc := .channelStreamStartedAt, value := 0, labels := [login, role] },
         { desc := .channelStreamUptime, value := 0, labels := [login, role] },
         { desc := .channelCategoryID, value := 0, labels := [login, role] }] := by
  simp [coreGauges]

theorem coreGauges_some (parseFloat : String → Option Float64) (now : Time)
    (login role : String) (s : Stream) :
    coreGauges parseFloat now login role (some s)
      = [{ desc := .channelLive, value := 1, labels := [login, role] },
         { desc := .channelViewers, value := (s.ViewerCount : ℚ), labels := [login, role] },
         { desc := .channelStreamStartedAt,
           value := if !s.StartedAt.IsZero then (s.StartedAt.Unix : ℚ) else 0,
           labels := [login, role] },
         { desc := .channelStreamUptime,
           value := if !s.StartedAt.IsZero then now.secondsSince s.StartedAt else 0,
           labels := [login, role] },
         { desc := .channelCategoryID,
           value := if s.GameID ≠ "" then
               match parseFloat s.GameID with
               | some v => v
               | none => 0
             else 0,
           labels := [login, role] }] := by
  simp [coreGauges]

theorem coreGauges_labels (parseFloat : String → Option Float64) (now : Time)
    (login role : String) (obs : Option Stream) (m : CoreMetric)
    (h : m ∈ coreGauges parseFloat now login role obs) : m.labels = [login, role] := by
  cases obs with
  | none =>
    rw [coreGauges_none] at h
    simp only [List.mem_cons, List.mem_singleton, List.not_mem_nil, or_false] at h
    rcases h with h | h | h | h | h <;> rw [h]
  | some s =>
    rw [coreGauges_some] at h
    simp only [List.mem_cons, List.mem_singleton, List.not_mem_nil, or_false] at h
    rcases h with h | h | h | h | h <;> rw [h]

theorem coreCounters_desc (login role : String) (st : channelCoreState) (m : CoreMetric)
    (h : m ∈ coreCounters login role st) :
    m.labels = [login, role]
      ∧ m.desc ∈ [CoreDesc.channelTitleChangeTotal, CoreDesc.channelCategoryChangeTotal,
          CoreDesc.channelStreamStartsTotal, CoreDesc.channelStreamEndsTotal] := by
  simp only [coreCounters, List.mem_cons, List.mem_singleton, List.not_mem_nil, or_false] at h
  rcases h with h | h | h | h <;> rw [h] <;> simp

/-- Every sample of a poll is labelled with a normalized login of the list; a gauge
among the samples is one of the five gauges of its login. -/
theorem foldl_updateLogin_gauge_of_label (lower : Char → Char)
    (parseFloat : String → Option Float64) (now : Time) (w : ChannelWatchlist)
    (streamsByLogin : List (String × Stream)) (logins : List String)
    (state : List (String × channelCoreState)) (m : CoreMetric) (nl : String)
    (h : m ∈ (logins.foldl (updateLogin lower parseFloat now w streamsByLogin) (state, [])).2)
    (hlabel : m.labels.head? = some nl)
    (hdesc : m.desc ∈ [CoreDesc.channelLive, CoreDesc.channelViewers,
      CoreDesc.channelStreamStartedAt, CoreDesc.channelStreamUptime,
      CoreDesc.channelCategoryID]) :
    m ∈ coreGauges parseFloat now nl (roleLabel lower w nl) (streamsByLogin.lookup nl) := by
  rcases foldl_updateLogin_metrics_cases lower parseFloat now w streamsByLogin logins _ m h
    with h | ⟨login, -, h | ⟨st, h⟩⟩
  · cases h
  · have hl := coreGauges_labels _ _ _ _ _ _ h
    rw [hl] at hlabel
    have : normalizeLogin lower login = nl := by simpa using hlabel
    rw [← this]
    exact h
  · obtain ⟨-, hd⟩ := coreCounters_desc _ _ _ _ h
    exfalso
    simp only [List.mem_cons, List.mem_singleton, List.not_mem_nil, or_false] at hd hdesc
    rcases hd with hd | hd | hd | hd <;> rw [hd] at hdesc <;> simp at hdesc

theorem coreGauges_has_desc (parseFloat : String → Option Float64) (now : Time)
    (login role : String) (obs : Option Stream) (d : CoreDesc)
    (hd : d ∈ [CoreDesc.channelLive, CoreDesc.channelViewers, CoreDesc.channelStreamStartedAt,
      CoreDesc.channelStreamUptime, CoreDesc.channelCategoryID]) :
    ∃ m ∈ coreGauges parseFloat now login role obs, m.desc = d ∧ m.labels = [login, role] := by
  simp only [List.mem_cons, List.mem_singleton, List.not_mem_nil, or_false] at hd
  cases obs with
  | none =>
    rw [coreGauges_none]
    rcases hd with hd | hd | hd | hd | hd <;> subst hd <;> simp
  | some s =>
    rw [coreGauges_some]
    rcases hd with hd | hd | hd | hd | hd <;> subst hd <;> simp

/-- C25: after a successful poll, each login of the watchlist has its five gauges
among the samples, labelled with the (normalized) login and its role. When the poll
result has a stream whose normalized login is the login, the live gauge of the login
is 1, its viewer gauge is the viewer count of such a stream and its category gauge
is the number its category id parses to; when it has none, the live, viewer,
started-at, uptime and category gauges of the login are all 0. `parseFloat` rejects
the empty string, as `strconv.ParseFloat` does. -/
theorem Update_gauges (lower : Char → Char) (parseFloat : String → Option Float64)
    (c : channelCoreCollector) (now : Time)
    (client : StreamsParams → Except GoError StreamsResponse) (out : CoreOutcome)
    (login : String) (hc : c.client = some client)
    (hout : c.Update lower parseFloat now = .ok out) (hok : out.err = none)
    (hlogin : login ∈ c.watchlist.AllLogins) (hpf : parseFloat "" = none) :
    (∀ d ∈ [CoreDesc.channelLive, CoreDesc.channelViewers, CoreDesc.channelStreamStartedAt,
          CoreDesc.channelStreamUptime, CoreDesc.channelCategoryID],
        ∃ m ∈ out.metrics, m.desc = d
          ∧ m.labels = [normalizeLogin lower login,
              roleLabel lower c.watchlist (normalizeLogin lower login)])
      ∧ ((∃ s ∈ pollResult client c.watchlist.AllLogins,
            normalizeLogin lower s.UserLogin = normalizeLogin lower login) →
          ∃ s ∈ pollResult client c.watchlist.AllLogins,
            normalizeLogin lower s.UserLogin = normalizeLogin lower login
              ∧ ∀ m ∈ out.metrics,
                m.labels.head? = some (normalizeLogin lower login) →
                  (m.desc = CoreDesc.channelLive → m.value = 1)
                    ∧ (m.desc = CoreDesc.channelViewers → m.value = (s.ViewerCount : ℚ))
                    ∧ (m.desc = CoreDesc.channelCategoryID →
                        ∀ v, parseFloat s.GameID = some v → m.value = v))
      ∧ ((¬ ∃ s ∈ pollResult client c.watchlist.AllLogins,
            normalizeLogin lower s.UserLogin = normalizeLogin lower login) →
          ∀ m ∈ out.metrics,
            m.labels.head? = some (normalizeLogin lower login) →
              m.desc ∈ [CoreDesc.channelLive, CoreDesc.channelViewers,
                CoreDesc.channelStreamStartedAt, CoreDesc.channelStreamUptime,
                CoreDesc.channelCategoryID] →
              m.value = 0) := by
  obtain ⟨sbl, h1, h2, hm, -⟩ := Update_of_ok lower parseFloat c now client out hc hout hok
  rw [hm]
  refine ⟨?_, ?_, ?_⟩
  · intro d hd
    obtain ⟨m, hmem, hdesc, hlab⟩ := coreGauges_has_desc parseFloat now
      (normalizeLogin lower login) (roleLabel lower c.watchlist (normalizeLogin lower login))
      (sbl.lookup (normalizeLogin lower login)) d hd
    exact ⟨m, foldl_updateLogin_gauges lower parseFloat now c.watchlist sbl _ _ login hlogin
      m hmem, hdesc, hlab⟩
  · intro hpresent
    have hsome := h2 _ hpresent
    obtain ⟨s, hs⟩ := Option.isSome_iff_exists.1 hsome
    obtain ⟨hs1, hs2⟩ := h1 _ _ hs
    refine ⟨s, hs1, hs2, ?_⟩
    intro m hmem hlab
    have key : ∀ d ∈ [CoreDesc.channelLive, CoreDesc.channelViewers,
        CoreDesc.channelStreamStartedAt, CoreDesc.channelStreamUptime,
        CoreDesc.channelCategoryID], m.desc = d →
        m ∈ coreGauges parseFloat now (normalizeLogin lower login)
          (roleLabel lower c.watchlist (normalizeLogin lower login)) (some s) := by
      intro d hd hdesc
      rw [← hs]
      exact foldl_updateLogin_gauge_of_label lower parseFloat now c.watchlist sbl _ _ m _
        hmem hlab (by rw [hdesc]; exact hd)
    refine ⟨?_, ?_, ?_⟩
    · intro hd
      have hg := key _ (by simp) hd
      rw [coreGauges_some] at hg
      simp only [List.mem_cons, List.mem_singleton, List.not_mem_nil, or_false] at hg
      rcases hg with hg | hg | hg | hg | hg <;> rw [hg] at hd ⊢ <;> simp at hd ⊢
    · intro hd
      have hg := key _ (by simp) hd
      rw [coreGauges_some] at hg
      simp only [List.mem_cons, List.mem_singleton, List.not_mem_nil, or_false] at hg
      rcases hg with hg | hg | hg | hg | hg <;> rw [hg] at hd ⊢ <;> simp at hd ⊢
    · intro hd v hv
      have hne : s.GameID ≠ "" := by
        intro h0
        rw [h0, hpf] at hv
        cases hv
      have hg := key _ (by simp) hd
      rw [coreGauges_some] at hg
      simp only [List.mem_cons, List.mem_singleton, List.not_mem_nil, or_false] at hg
      rcases hg with hg | hg | hg | hg | hg <;> rw [hg] at hd ⊢ <;> simp at hd ⊢
      simp [hne, hv]
  · intro habsent m hmem hlab hdesc
    have hnone : sbl.lookup (normalizeLogin lower login) = none := by
      cases hl : sbl.lookup (normalizeLogin lower login) with
      | none => rfl
      | some s =>
        obtain ⟨hs1, hs2⟩ := h1 _ _ hl
        exact absurd ⟨s, hs1, hs2⟩ habsent
    have hg := foldl_updateLogin_gauge_of_label lower parseFloat now c.watchlist sbl _ _ m _
      hmem hlab hdesc
    rw [hnone, coreGauges_none] at hg
    simp only [List.mem_cons, List.mem_singleton, List.not_mem_nil, or_false] at hg
    rcases hg with hg | hg | hg | hg | hg <;> rw [hg]

/-- C25, on the sample: `alice` watches `bob`, and the poll returns `bob` live with
42 viewers in the category `509658`. The live gauge of `bob` is 1, his viewer gauge
42 and his category gauge 509658; the live gauge of `alice` is 0, as are her other
gauges. -/
theorem Update_gauges_witness :
    (NewChannelCoreCollector (some sampleLiveClient) sampleWatchlist).Update
        Char.toLower parseDigits ⟨63839000060000000000⟩ = .ok sampleOutcome
      ∧ (∀ m ∈ sampleOutcome.metrics,
          m.labels.head? = some (normalizeLogin Char.toLower "alice") →
            m.desc ∈ [CoreDesc.channelLive, CoreDesc.channelViewers,
              CoreDesc.channelStreamStartedAt, CoreDesc.channelStreamUptime,
              CoreDesc.channelCategoryID] →
            m.value = 0) :=
  ⟨by decide!,
    (Update_gauges Char.toLower parseDigits
      (NewChannelCoreCollector (some sampleLiveClient) sampleWatchlist)
      ⟨63839000060000000000⟩ sampleLiveClient sampleOutcome "alice" rfl (by decide!)
      (by decide!) (by decide!) (by decide!)).2.2 (by decide!)⟩

/-! ## Watchlist -/

theorem dropWhile_head_not (p : Char → Bool) (l : List Char) (c : Char)
    (h : (l.dropWhile p).head? = some c) : p c = false := by
  induction l with
  | nil => simp at h
  | cons a rest ih =>
    rw [List.dropWhile_cons] at h
    split_ifs at h with hp
    · exact ih h
    · simp only [List.head?_cons, Option.some.injEq] at h
      rw [← h]
      simpa using hp

theorem dropWhile_getLast (p : Char → Bool) (l : List Char) (c : Char)
    (h : (l.dropWhile p).getLast? = some c) : l.getLast? = some c := by
  induction l with
  | nil => simp at h
  | cons a rest ih =>
    rw [List.dropWhile_cons] at h
    split_ifs at h with hp
    · have hr := ih h
      cases rest with
      | nil => simp at hr
      | cons b rest2 =>
        rw [List.getLast?_cons_cons]
        exact hr
    · exact h

theorem dropWhile_of_head_not (p : Char → Bool) (l : List Char)
    (h : ∀ c, l.head? = some c → p c = false) : l.dropWhile p = l := by
  cases l with
  | nil => rfl
  | cons a rest =>
    have := h a rfl
    simp [List.dropWhile_cons, this]

/-- The characters `TrimSpace` leaves neither start nor end with a space. -/
theorem trim_trimmed (l : List Char) :
    (∀ c, ((l.dropWhile isSpace).reverse.dropWhile isSpace).reverse.head? = some c →
        isSpace c = false)
      ∧ (∀ c, ((l.dropWhile isSpace).reverse.dropWhile isSpace).reverse.getLast? = some c →
        isSpace c = false) := by
  constructor
  · intro c hc
    rw [List.head?_reverse] at hc
    have h1 := dropWhile_getLast _ _ _ hc
    rw [List.getLast?_reverse] at h1
    exact dropWhile_head_not _ _ _ h1
  · intro c hc
    rw [List.getLast?_reverse] at hc
    exact dropWhile_head_not _ _ _ hc

/-- On characters that neither start nor end with a space `TrimSpace` changes
nothing. -/
theorem trim_of_trimmed (t : List Char) (h1 : ∀ c, t.head? = some c → isSpace c = false)
    (h2 : ∀ c, t.getLast? = some c → isSpace c = false) :
    ((t.dropWhile isSpace).reverse.dropWhile isSpace).reverse = t := by
  rw [dropWhile_of_head_not _ _ h1, dropWhile_of_head_not _ t.reverse, List.reverse_reverse]
  intro c hc
  rw [List.head?_reverse] at hc
  exact h2 c hc

/-- A normalized login is its own normalization, when lowering a rune twice is
lowering it once and lowering a rune that is no space gives no space. -/
theorem normalizeLogin_idem (lower : Char → Char) (hidem : ∀ c, lower (lower c) = lower c)
    (hspace : ∀ c, isSpace c = false → isSpace (lower c) = false) (v : String) :
    normalizeLogin lower (normalizeLogin lower v) = normalizeLogin lower v := by
  obtain ⟨t1, t2⟩ := trim_trimmed v.toList
  unfold normalizeLogin ToLower TrimSpace
  simp only [String.toList]
  congr 1
  rw [trim_of_trimmed]
  · rw [List.map_map]
    apply List.map_congr_left
    intro c _
    exact hidem c
  · intro c hc
    rw [List.head?_map] at hc
    obtain ⟨c0, hc0, rfl⟩ := Option.map_eq_some'.1 hc
    exact hspace _ (t1 c0 hc0)
  · intro c hc
    rw [List.getLast?_map] at hc
    obtain ⟨c0, hc0, rfl⟩ := Option.map_eq_some'.1 hc
    exact hspace _ (t2 c0 hc0)

/-- One round of the loop of `NewChannelWatchlist` keeps the watch logins distinct
and the map `seen` in step with them, and adds the login when it is non-empty, not
the self login and new. -/
theorem scanWatchLogin_spec (lower : Char → Char) (self : String) (acc : WatchScan)
    (raw : String) (hnd : acc.watch.Nodup)
    (hseen : ∀ l, (acc.seen.lookup l).isSome ↔ (l = self ∧ self ≠ "") ∨ l ∈ acc.watch) :
    (scanWatchLogin lower acc raw).watch.Nodup
      ∧ (∀ l, ((scanWatchLogin lower acc raw).seen.lookup l).isSome
          ↔ (l = self ∧ self ≠ "") ∨ l ∈ (scanWatchLogin lower acc raw).watch)
      ∧ (∀ l, l ∈ (scanWatchLogin lower acc raw).watch
          ↔ l ∈ acc.watch ∨ (l ≠ "" ∧ l ≠ self ∧ l = normalizeLogin lower raw)) := by
  unfold scanWatchLogin
  simp only
  by_cases h0 : normalizeLogin lower raw = ""
  · rw [if_pos h0]
    refine ⟨hnd, hseen, ?_⟩
    intro l
    constructor
    · exact fun h => Or.inl h
    · rintro (h | ⟨h1, -, h3⟩)
      · exact h
      · exact absurd (h3.trans h0) h1
  · rw [if_neg h0]
    by_cases hs : (acc.seen.lookup (normalizeLogin lower raw)).isSome = true
    · rw [if_pos hs]
      refine ⟨hnd, hseen, ?_⟩
      intro l
      constructor
      · exact fun h => Or.inl h
      · rintro (h | ⟨-, h2, h3⟩)
        · exact h
        · rcases (hseen _).1 hs with ⟨h4, -⟩ | h4
          · exact absurd (h3.trans h4) h2
          · rw [h3]; exact h4
    · rw [if_neg hs]
      have hns : ¬ ((normalizeLogin lower raw = self ∧ self ≠ "")
          ∨ normalizeLogin lower raw ∈ acc.watch) := fun h => hs ((hseen _).2 h)
      have hnw : normalizeLogin lower raw ∉ acc.watch := fun h => hns (Or.inr h)
      have hnself : normalizeLogin lower raw ≠ self := by
        intro h
        exact hns (Or.inl ⟨h, by rw [← h]; exact h0⟩)
      refine ⟨?_, ?_, ?_⟩
      · exact List.Nodup.append hnd (List.nodup_singleton _)
          (by
            intro a ha hb
            rw [List.mem_singleton] at hb
            exact hnw (hb ▸ ha))
      · intro l
        simp only
        rw [lookup_mapStore, List.mem_append, List.mem_singleton]
        by_cases hl : l = normalizeLogin lower raw
        · rw [if_pos hl]
          simp [hl]
        · rw [if_neg hl, hseen l]
          simp [hl]
      · intro l
        simp only [List.mem_append, List.mem_singleton]
        constructor
        · rintro (h | h)
          · exact Or.inl h
          · exact Or.inr ⟨by rw [h]; exact h0, by rw [h]; exact hnself, h⟩
        · rintro (h | ⟨-, -, h⟩)
          · exact Or.inl h
          · exact Or.inr h

theorem foldl_scanWatchLogin_spec (lower : Char → Char) (self : String)
    (raws : List String) (acc : WatchScan) (hnd : acc.watch.Nodup)
    (hseen : ∀ l, (acc.seen.lookup l).isSome ↔ (l = self ∧ self ≠ "") ∨ l ∈ acc.watch) :
    (raws.foldl (scanWatchLogin lower) acc).watch.Nodup
      ∧ (∀ l, l ∈ (raws.foldl (scanWatchLogin lower) acc).watch
          ↔ l ∈ acc.watch ∨ (l ≠ "" ∧ l ≠ self ∧ l ∈ raws.map (normalizeLogin lower))) := by
  induction raws generalizing acc with
  | nil => exact ⟨hnd, fun l => by simp⟩
  | cons raw rest ih =>
    obtain ⟨h1, h2, h3⟩ := scanWatchLogin_spec lower self acc raw hnd hseen
    obtain ⟨h4, h5⟩ := ih _ h1 h2
    refine ⟨h4, ?_⟩
    intro l
    rw [List.foldl_cons, h5 l, h3 l, List.map_cons, List.mem_cons]
    constructor
    · rintro ((h | ⟨a, b, c⟩) | ⟨a, b, c⟩)
      · exact Or.inl h
      · exact Or.inr ⟨a, b, Or.inl c⟩
      · exact Or.inr ⟨a, b, Or.inr c⟩
    · rintro (h | ⟨a, b, c | c⟩)
      · exact Or.inl (Or.inl h)
      · exact Or.inl (Or.inr ⟨a, b, c⟩)
      · exact Or.inr ⟨a, b, c⟩

/-- What `NewChannelWatchlist` returns, in terms of the logins its loop collects:
they are distinct, and they are the non-empty normalized watch logins other than the
self login. -/
theorem NewChannelWatchlist_scan (lower : Char → Char) (selfLogin : String)
    (watchLogins : List String) :
    ∃ scanned : List String, scanned.Nodup
      ∧ (∀ l, l ∈ scanned ↔ l ≠ "" ∧ l ≠ normalizeLogin lower selfLogin
          ∧ l ∈ watchLogins.map (normalizeLogin lower))
      ∧ (NewChannelWatchlist lower selfLogin watchLogins).1.selfLogin
          = normalizeLogin lower selfLogin
      ∧ ((NewChannelWatchlist lower selfLogin watchLogins).2 = none ↔ scanned.length ≤ 100)
      ∧ ((NewChannelWatchlist lower selfLogin watchLogins).2 = none →
          (NewChannelWatchlist lower selfLogin watchLogins).1.watch = sortStrings scanned) := by
  have hinit : ∀ l, ((if normalizeLogin lower selfLogin ≠ "" then
        mapStore ([] : List (String × Unit)) (normalizeLogin lower selfLogin) ()
        else []).lookup l).isSome
      ↔ (l = normalizeLogin lower selfLogin ∧ normalizeLogin lower selfLogin ≠ "")
        ∨ l ∈ ([] : List String) := by
    intro l
    by_cases hs : normalizeLogin lower selfLogin = ""
    · simp [hs]
    · simp only [ne_eq, hs, not_false_eq_true, if_true, List.not_mem_nil, or_false, and_true]
      rw [lookup_mapStore]
      by_cases hl : l = normalizeLogin lower selfLogin
      · simp [hl]
      · simp [hl]
  obtain ⟨h1, h2⟩ := foldl_scanWatchLogin_spec lower (normalizeLogin lower selfLogin)
    watchLogins
    { seen := if normalizeLogin lower selfLogin ≠ "" then
        mapStore [] (normalizeLogin lower selfLogin) () else [],
      watch := [],
      roleByLogin := if normalizeLogin lower selfLogin ≠ "" then
        mapStore [] (normalizeLogin lower selfLogin) "self" else [] }
    List.nodup_nil hinit
  refine ⟨_, h1, ?_, ?_, ?_, ?_⟩
  · intro l
    rw [h2 l]
    simp
  · have key : ∀ (scan : WatchScan) (self : String),
        (if scan.watch.length > 100 then
            (({ selfLogin := self, watch := scan.watch, roleByLogin := scan.roleByLogin }
                : ChannelWatchlist),
              some (GoError.new ("watchlist role=watch exceeds 100 channels ("
                ++ toString scan.watch.length ++ ")")))
          else
            ({ selfLogin := self, watch := sortStrings scan.watch,
               roleByLogin := scan.roleByLogin }, none)).1.selfLogin = self := by
      intro scan self
      split_ifs <;> rfl
    exact key _ _
  · have key : ∀ (scan : WatchScan) (self : String),
        (if scan.watch.length > 100 then
            (({ selfLogin := self, watch := scan.watch, roleByLogin := scan.roleByLogin }
                : ChannelWatchlist),
              some (GoError.new ("watchlist role=watch exceeds 100 channels ("
                ++ toString scan.watch.length ++ ")")))
          else
            ({ selfLogin := self, watch := sortStrings scan.watch,
               roleByLogin := scan.roleByLogin }, none)).2 = none
          ↔ scan.watch.length ≤ 100 := by
      intro scan self
      split_ifs with h
      · simp only [reduceCtorEq, false_iff, not_le]
        exact h
      · simp only [true_iff]
        omega
    exact key _ _
  · have key : ∀ (scan : WatchScan) (self : String),
        (if scan.watch.length > 100 then
            (({ selfLogin := self, watch := scan.watch, roleByLogin := scan.roleByLogin }
                : ChannelWatchlist),
              some (GoError.new ("watchlist role=watch exceeds 100 channels ("
                ++ toString scan.watch.length ++ ")")))
          else
            ({ selfLogin := self, watch := sortStrings scan.watch,
               roleByLogin := scan.roleByLogin }, none)).2 = none →
        (if scan.watch.length > 100 then
            (({ selfLogin := self, watch := scan.watch, roleByLogin := scan.roleByLogin }
                : ChannelWatchlist),
              some (GoError.new ("watchlist role=watch exceeds 100 channels ("
                ++ toString scan.watch.length ++ ")")))
          else
            ({ selfLogin := self, watch := sortStrings scan.watch,
               roleByLogin := scan.roleByLogin }, none)).1.watch
          = sortStrings scan.watch := by
      intro scan self
      split_ifs with h
      · intro hc
        cases hc
      · intro _
        rfl
    exact key _ _

theorem length_eq_distinctWatchCount (lower : Char → Char) (selfLogin : String)
    (watchLogins : List String) (scanned : List String) (hnd : scanned.Nodup)
    (hmem : ∀ l, l ∈ scanned ↔ l ≠ "" ∧ l ≠ normalizeLogin lower selfLogin
      ∧ l ∈ watchLogins.map (normalizeLogin lower)) :
    scanned.length = distinctWatchCount lower selfLogin watchLogins := by
  unfold distinctWatchCount
  apply List.Perm.length_eq
  rw [List.perm_ext_iff_of_nodup hnd (List.nodup_dedup _)]
  intro l
  rw [hmem l, List.mem_dedup, List.mem_filter]
  simp only [decide_eq_true_eq]
  tauto

/-- C26: a watchlist `NewChannelWatchlist` returns without error has a self login and
watch logins that are each their own normalization, a self login that is not among
the watch logins, and at most 100 watch logins; and `NewChannelWatchlist` returns an
error exactly when the input has more than 100 distinct non-empty normalized watch
logins other than the self login. `lower` is `unicode.ToLower`: lowering twice is
lowering once, and the lower case of a rune that is no space is no space. -/
theorem NewChannelWatchlist_spec (lower : Char → Char) (selfLogin : String)
    (watchLogins : List String) (hidem : ∀ c, lower (lower c) = lower c)
    (hspace : ∀ c, isSpace c = false → isSpace (lower c) = false) :
    ((NewChannelWatchlist lower selfLogin watchLogins).2 = none →
        normalizeLogin lower (NewChannelWatchlist lower selfLogin watchLogins).1.selfLogin
            = (NewChannelWatchlist lower selfLogin watchLogins).1.selfLogin
          ∧ (∀ l ∈ (NewChannelWatchlist lower selfLogin watchLogins).1.watch,
              normalizeLogin lower l = l)
          ∧ (NewChannelWatchlist lower selfLogin watchLogins).1.selfLogin
              ∉ (NewChannelWatchlist lower selfLogin watchLogins).1.watch
          ∧ (NewChannelWatchlist lower selfLogin watchLogins).1.watch.length ≤ 100)
      ∧ ((NewChannelWatchlist lower selfLogin watchLogins).2 ≠ none
          ↔ 100 < distinctWatchCount lower selfLogin watchLogins) := by
  obtain ⟨scanned, hnd, hmem, hself, herr, hwatch⟩ :=
    NewChannelWatchlist_scan lower selfLogin watchLogins
  have hlen := length_eq_distinctWatchCount lower selfLogin watchLogins scanned hnd hmem
  constructor
  · intro hnone
    have hsorted : ∀ l, l ∈ sortStrings scanned ↔ l ∈ scanned := fun l =>
      (List.perm_insertionSort _ scanned).mem_iff
    rw [hwatch hnone, hself]
    refine ⟨normalizeLogin_idem lower hidem hspace selfLogin, ?_, ?_, ?_⟩
    · intro l hl
      obtain ⟨-, -, h3⟩ := (hmem l).1 ((hsorted l).1 hl)
      obtain ⟨raw, -, hraw⟩ := List.mem_map.1 h3
      rw [← hraw]
      exact normalizeLogin_idem lower hidem hspace raw
    · intro hin
      exact ((hmem _).1 ((hsorted _).1 hin)).2.1 rfl
    · unfold sortStrings
      rw [List.length_insertionSort]
      exact herr.1 hnone
  · rw [← hlen, ne_eq, herr]
    omega

theorem Char_toLower_cases (P : Char → Prop) (c : Char)
    (hupper : ∀ k : Fin 26, P (Char.ofNat (65 + k.val)))
    (hother : c.toLower = c → P c) : P c := by
  by_cases h : 65 ≤ c.toNat ∧ c.toNat ≤ 90
  · have hk : c.toNat - 65 < 26 := by omega
    have := hupper ⟨c.toNat - 65, hk⟩
    have he : 65 + (c.toNat - 65) = c.toNat := by omega
    simp only [he, Char.ofNat_toNat] at this
    exact this
  · apply hother
    simp only [Char.toLower, ge_iff_le]
    rw [if_neg h]

theorem Char_toLower_idem (c : Char) : c.toLower.toLower = c.toLower := by
  apply Char_toLower_cases (fun c => c.toLower.toLower = c.toLower) c
  · decide
  · intro h
    rw [h, h]

theorem Char_toLower_not_space (c : Char) (h : isSpace c = false) :
    isSpace c.toLower = false := by
  revert h
  apply Char_toLower_cases (fun c => isSpace c = false → isSpace c.toLower = false) c
  · decide
  · intro h hs
    rw [h]
    exact hs

/-- C26, on a sample: the self login ` Alice ` and the watch logins `BOB `, `bob`,
`alice` and the empty string give the watchlist of `alice` watching `bob`. -/
theorem NewChannelWatchlist_spec_witness :
    NewChannelWatchlist Char.toLower " Alice " ["BOB ", "bob", "alice", ""]
        = (sampleWatchlist, none)
      ∧ distinctWatchCount Char.toLower " Alice " ["BOB ", "bob", "alice", ""] = 1
      ∧ (normalizeLogin Char.toLower
            (NewChannelWatchlist Char.toLower " Alice "
              ["BOB ", "bob", "alice", ""]).1.selfLogin
          = (NewChannelWatchlist Char.toLower " Alice " ["BOB ", "bob", "alice", ""]).1.selfLogin
        ∧ (∀ l ∈ (NewChannelWatchlist Char.toLower " Alice "
              ["BOB ", "bob", "alice", ""]).1.watch, normalizeLogin Char.toLower l = l)
        ∧ (NewChannelWatchlist Char.toLower " Alice " ["BOB ", "bob", "alice", ""]).1.selfLogin
            ∉ (NewChannelWatchlist Char.toLower " Alice " ["BOB ", "bob", "alice", ""]).1.watch
        ∧ (NewChannelWatchlist Char.toLower " Alice "
            ["BOB ", "bob", "alice", ""]).1.watch.length ≤ 100) :=
  ⟨by decide!, by decide!,
    (NewChannelWatchlist_spec Char.toLower " Alice " ["BOB ", "bob", "alice", ""]
      Char_toLower_idem Char_toLower_not_space).1 (by decide!)⟩

/-! ## Reward group labels of trimmed tables -/

theorem TrimSpace_idem (s : String) : TrimSpace (TrimSpace s) = TrimSpace s := by
  obtain ⟨t1, t2⟩ := trim_trimmed s.toList
  unfold TrimSpace
  simp only [String.toList]
  congr 1
  exact trim_of_trimmed _ t1 t2

theorem keyValueMap_Set_trimmed (m m' : keyValueMap) (v : String)
    (hm : ∀ kv ∈ m, TrimSpace kv.2 = kv.2) (hset : keyValueMap.Set m v = some m') :
    ∀ kv ∈ m', TrimSpace kv.2 = kv.2 := by
  unfold keyValueMap.Set at hset
  cases hsplit : splitAtColon v with
  | none =>
    rw [hsplit] at hset
    cases hset
  | some parts =>
    rw [hsplit] at hset
    simp only at hset
    split_ifs at hset with hempty
    rw [← Option.some.inj hset]
    intro kv hkv
    rcases mem_mapStore_cases _ _ _ _ hkv with h | h
    · rw [h]
      exact TrimSpace_idem _
    · exact hm kv h

/-- The values of a table built by the flag parser carry no surrounding white
space. -/
theorem keyValueMap_ofFlags_trimmed (values : List String) (table : keyValueMap)
    (h : keyValueMap.ofFlags values = some table) :
    ∀ kv ∈ table, TrimSpace kv.2 = kv.2 := by
  unfold keyValueMap.ofFlags at h
  suffices hs : ∀ (m : keyValueMap), (∀ kv ∈ m, TrimSpace kv.2 = kv.2) →
      values.foldlM keyValueMap.Set m = some table → ∀ kv ∈ table, TrimSpace kv.2 = kv.2 from
    hs [] (fun _ hkv => by cases hkv) h
  clear h
  induction values with
  | nil =>
    intro m hm hf
    simp only [List.foldlM, pure] at hf
    rw [← Option.some.inj hf]
    exact hm
  | cons v rest ih =>
    intro m hm hf
    rw [List.foldlM_cons] at hf
    cases hset : keyValueMap.Set m v with
    | none =>
      rw [hset] at hf
      cases hf
    | some m' =>
      rw [hset] at hf
      exact ih m' (keyValueMap_Set_trimmed m m' v hm hset) hf

/-- C20, amended: after a call of `SetRewardGrouping` that returns no error and whose
two tables have values without surrounding white space (as the tables of the flag
parser have), `RewardGroupFor` returns at most the effective maximum of distinct
labels over any inputs. -/
theorem RewardGroupFor_labels_bounded_of_trimmed_values (toLower : String → String)
    (current : rewardGroupConfig) (defaultGroup unknownGroup : String) (maxGroups : Int)
    (byID byTitle : List (String × String))
    (hID : ∀ kv ∈ byID, TrimSpace kv.2 = kv.2)
    (hTitle : ∀ kv ∈ byTitle, TrimSpace kv.2 = kv.2)
    (hok : (SetRewardGrouping toLower current defaultGroup unknownGroup maxGroups
      byID byTitle).1 = none)
    (inputs : List (String × String)) :
    (((inputs.map (fun p => RewardGroupFor toLower
        (SetRewardGrouping toLower current defaultGroup unknownGroup maxGroups byID byTitle).2
        p.1 p.2)).toFinset.card : Nat) : Int) ≤ effectiveMax maxGroups := by
  rw [SetRewardGrouping_eq] at hok ⊢
  split_ifs at hok ⊢ with hc
  · rw [length_groupLabels] at hc
    have hsub : (inputs.map (fun p => RewardGroupFor toLower
          { defaultGroup := effectiveDefault defaultGroup,
            unknownGroup := effectiveUnknown unknownGroup,
            maxGroups := effectiveMax maxGroups,
            byID := normalizeTable TrimSpace byID,
            byTitle := normalizeTable (normalizeTitle toLower) byTitle } p.1 p.2)).toFinset
        ⊆ (effectiveDefault defaultGroup :: effectiveUnknown unknownGroup
            :: (byID.map Prod.snd ++ byTitle.map Prod.snd)).toFinset := by
      intro x hx
      rw [List.mem_toFinset, List.mem_map] at hx
      obtain ⟨p, -, rfl⟩ := hx
      rw [List.mem_toFinset]
      rcases RewardGroupFor_range toLower
          { defaultGroup := effectiveDefault defaultGroup,
            unknownGroup := effectiveUnknown unknownGroup,
            maxGroups := effectiveMax maxGroups,
            byID := normalizeTable TrimSpace byID,
            byTitle := normalizeTable (normalizeTitle toLower) byTitle } p.1 p.2
        with h | h | ⟨k, h⟩ | ⟨k, h⟩
      · rw [h]
        exact List.mem_cons_self _ _
      · rw [h]
        exact List.mem_cons_of_mem _ (List.mem_cons_self _ _)
      · obtain ⟨v, hv, hv'⟩ := List.mem_map.1 (values_normalizeTable _ _ _ _ h)
        obtain ⟨kv, hkv, rfl⟩ := List.mem_map.1 hv
        rw [← hv', hID kv hkv]
        exact List.mem_cons_of_mem _ (List.mem_cons_of_mem _ (List.mem_append_left _ hv))
      · obtain ⟨v, hv, hv'⟩ := List.mem_map.1 (values_normalizeTable _ _ _ _ h)
        obtain ⟨kv, hkv, rfl⟩ := List.mem_map.1 hv
        rw [← hv', hTitle kv hkv]
        exact List.mem_cons_of_mem _ (List.mem_cons_of_mem _ (List.mem_append_right _ hv))
    have h1 := Finset.card_le_card hsub
    have h4 : ((distinctGroupCount (effectiveDefault defaultGroup)
        (effectiveUnknown unknownGroup) byID byTitle : Nat) : Int) ≤ effectiveMax maxGroups := by
      omega
    exact le_trans (by exact_mod_cast h1) h4

/-- The amended C20 on tables of the flag parser: the flags `id1:vip` and
` id2 : vip ` give the id table with the values `vip` and `vip`, the flag
`Hydrate: health` the title table; the call with a maximum of 4 is accepted, and
five inputs get four distinct labels at most. -/
theorem RewardGroupFor_labels_bounded_of_trimmed_values_witness :
    keyValueMap.ofFlags ["id1:vip", " id2 : vip "] = some [("id1", "vip"), ("id2", "vip")]
      ∧ keyValueMap.ofFlags ["Hydrate: health"] = some [("Hydrate", "health")]
      ∧ (SetRewardGrouping (ToLower Char.toLower) rewardGroups " a " "b" 4
          [("id1", "vip"), ("id2", "vip")] [("Hydrate", "health")]).1 = none
      ∧ (((([("", ""), ("id1", ""), ("id2", ""), ("x", "hydrate"), ("x", "y")].map
          (fun p => RewardGroupFor (ToLower Char.toLower)
            (SetRewardGrouping (ToLower Char.toLower) rewardGroups " a " "b" 4
              [("id1", "vip"), ("id2", "vip")] [("Hydrate", "health")]).2
            p.1 p.2)).toFinset.card : Nat) : Int) ≤ effectiveMax 4) :=
  ⟨by decide!, by decide!, by decide!,
    RewardGroupFor_labels_bounded_of_trimmed_values (ToLower Char.toLower) rewardGroups
      " a " "b" 4 [("id1", "vip"), ("id2", "vip")] [("Hydrate", "health")]
      (keyValueMap_ofFlags_trimmed ["id1:vip", " id2 : vip "] _ (by decide!))
      (keyValueMap_ofFlags_trimmed ["Hydrate: health"] _ (by decide!))
      (by decide!)
      [("", ""), ("id1", ""), ("id2", ""), ("x", "hydrate"), ("x", "y")]⟩

end TwitchExporter
